import Mathlib

/-!
# Cubism: `MeshMap.h` and `BlockInfo.h`

A shallow embedding of the per-axis mesh (`MeshMap`, with its two density
kernels `UniformDensity` and `GaussianDensity`) and of the per-block record
(`BlockInfo`) with its position query `pos`.

Conventions of the embedding.

* `double` is an ordered field `α` (exact arithmetic); every definition is
  computable and runs on `ℚ`.  `std::exp` is a parameter `exp : α → α`.
* `unsigned int` values are natural numbers below `UINT_MOD = 2 ^ 32`;
  every `unsigned int` operation of the source is reduced modulo `UINT_MOD`.
* `int` indices handed to accessors and to `pos` are integers.  Loop counters
  (`int i`) range over the naturals; statements that a function returns are
  made for counts below `INT_LIMIT = 2 ^ 31`, where no counter overflows.
* A heap array is a list.  A read outside the array, a dereferenced null
  pointer and a failed `assert` make the enclosing function return `none`.
* `TBlock::sizeX` is the parameter `sizeX`.
-/

namespace Cubism

/-- Modulus of `unsigned int` arithmetic. -/
abbrev UINT_MOD : Nat := 4294967296

/-- Largest loop bound an `int` counter reaches without overflow, plus one. -/
abbrev INT_LIMIT : Nat := 2147483648

/-! ## Loops over arrays -/

/-- The loop `for (int i = 0; i < n; ++i) acc += read(i);` started from `acc`.
Iteration `i` reads one array entry; a faulting read aborts the run. -/
def accumulate {α : Type} [Add α] (read : Nat → Option α) : Nat → α → Option α
  | 0, acc => some acc
  | n + 1, acc => do
      let s ← accumulate read n acc
      let v ← read n
      pure (s + v)

/-- The loop `for (int i = 0; i < n; ++i) out[i] = read(i);`, returning the
entries written, in index order. -/
def fill {α : Type} (read : Nat → Option α) : Nat → Option (List α)
  | 0 => some []
  | n + 1 => do
      let out ← fill read n
      let v ← read n
      pure (out ++ [v])

/-! ## `UniformDensity` -/

/-- Values written by a kernel: the interior widths `ary[0 .. ncells)` and the
entries written to `ghost_spacing`, in index order (empty when the pointer is
null). -/
structure Spacing (α : Type) where
  ary : List α
  ghost_spacing : List α
deriving DecidableEq, Repr

/-- The kernel `struct UniformDensity`. -/
structure UniformDensity where
  uniform : Bool
deriving DecidableEq, Repr

/-- The constructor `UniformDensity() : uniform(true)`. -/
def UniformDensity.new : UniformDensity := { uniform := true }

/-- `UniformDensity::compute_spacing`.  `ghost_spacing` tells whether the
caller passed a non-null ghost buffer. -/
def UniformDensity.compute_spacing {α : Type} [Field α] (_k : UniformDensity)
    (xS xE : α) (ncells : Nat) (ghostS ghostE : Nat) (ghost_spacing : Bool) :
    Option (Spacing α) :=
  let h : α := (xE - xS) / (ncells : α)
  let ary := (List.range ncells).map (fun _ => h)
  let ghost :=
    if ghost_spacing then
      (List.range ((ghostS + ghostE) % UINT_MOD)).map (fun _ => h)
    else []
  some { ary := ary, ghost_spacing := ghost }

/-! ## `GaussianDensity` -/

/-- The kernel `struct GaussianDensity`. -/
structure GaussianDensity (α : Type) where
  A : α
  B : α
  uniform : Bool
deriving DecidableEq, Repr

/-- The constructor `GaussianDensity(A, B) : A(A), B(B), uniform(false)`. -/
def GaussianDensity.new {α : Type} (A B : α) : GaussianDensity α :=
  { A := A, B := B, uniform := false }

/-- Unsigned value `total_cells = ncells + ghostE + ghostS`. -/
def GaussianDensity.total_cells (ncells ghostS ghostE : Nat) : Nat :=
  (ncells + ghostE + ghostS) % UINT_MOD

/-- The value stored in `buf[i]` by the first loop:
`x = i - (total_cells+1)*0.5; buf[i] = 1.0/(A*exp(-0.5*x*x*y*y) + 1.0)` with
`y = 1.0/(B*(total_cells+1))`. -/
def GaussianDensity.weight {α : Type} [Field α] (exp : α → α) (k : GaussianDensity α)
    (total_cells : Nat) (i : Nat) : α :=
  let y : α := 1 / (k.B * (((total_cells + 1) % UINT_MOD : Nat) : α))
  let x : α := (i : α) - (((total_cells + 1) % UINT_MOD : Nat) : α) * (1 / 2)
  1 / (k.A * exp (-(1 / 2) * x * x * y * y) + 1)

/-- State `(buf, ducky)` after the first `n` iterations of the first loop of
`GaussianDensity::compute_spacing`. -/
def GaussianDensity.weightLoop {α : Type} [Field α] (exp : α → α) (k : GaussianDensity α)
    (ncells ghostS ghostE : Nat) : Nat → List α × α
  | 0 => ([], 0)
  | i + 1 =>
      let st := GaussianDensity.weightLoop exp k ncells ghostS ghostE i
      let v := k.weight exp (GaussianDensity.total_cells ncells ghostS ghostE) i
      (st.1 ++ [v],
        if ghostS ≤ i ∧ i < (ncells + ghostS) % UINT_MOD then st.2 + v else st.2)

/-- `GaussianDensity::compute_spacing`.  `ghost_spacing` tells whether the
caller passed a non-null ghost buffer. -/
def GaussianDensity.compute_spacing {α : Type} [Field α] (exp : α → α)
    (k : GaussianDensity α) (xS xE : α) (ncells : Nat) (ghostS ghostE : Nat)
    (ghost_spacing : Bool) : Option (Spacing α) :=
  let total_cells := GaussianDensity.total_cells ncells ghostS ghostE
  let st := GaussianDensity.weightLoop exp k ncells ghostS ghostE total_cells
  let ducky := st.2
  let scale := (xE - xS) / ducky
  let buf := st.1.map (fun b => b * scale)
  do
    let ary ← fill (fun i => buf[(i + ghostS) % UINT_MOD]?) ncells
    let ghost ←
      if ghost_spacing then do
        let gs ← fill (fun i => buf[i]?) ghostS
        let ge ← fill (fun i => buf[(i + ncells + ghostS) % UINT_MOD]?) ghostE
        pure (gs ++ ge)
      else pure []
    pure { ary := ary, ghost_spacing := ghost }

/-- The kernels `MeshMap::init` is instantiated with (`TKernel`). -/
inductive TKernel (α : Type) where
  | uniformDensity : UniformDensity → TKernel α
  | gaussianDensity : GaussianDensity α → TKernel α

/-- `kernel.uniform`. -/
def TKernel.uniform {α : Type} : TKernel α → Bool
  | .uniformDensity k => k.uniform
  | .gaussianDensity k => k.uniform

/-- `kernel.compute_spacing(...)`. -/
def TKernel.compute_spacing {α : Type} [Field α] (exp : α → α) :
    TKernel α → α → α → Nat → Nat → Nat → Bool → Option (Spacing α)
  | .uniformDensity k => k.compute_spacing
  | .gaussianDensity k => k.compute_spacing exp

/-! ## `MeshMap` -/

/-- The class `MeshMap<TBlock>`; `sizeX` is `TBlock::sizeX`.  The two owned
arrays are empty until `init` allocates them. -/
structure MeshMap (sizeX : Nat) (α : Type) where
  m_xS : α
  m_xE : α
  m_extent : α
  m_Nblocks : Nat
  m_Ncells : Nat
  m_uniform : Bool
  m_initialized : Bool
  m_grid_spacing : List α
  m_block_spacing : List α
deriving DecidableEq, Repr

/-- The constructor `MeshMap(xS, xE, Nblocks)`. -/
def MeshMap.new {α : Type} [Field α] (sizeX : Nat) (xS xE : α) (Nblocks : Nat) :
    MeshMap sizeX α :=
  { m_xS := xS, m_xE := xE, m_extent := xE - xS, m_Nblocks := Nblocks,
    m_Ncells := (Nblocks * sizeX) % UINT_MOD,
    m_uniform := true, m_initialized := false,
    m_grid_spacing := [], m_block_spacing := [] }

/-- `MeshMap::init(kernel, ghostS, ghostE, ghost_spacing)`: the mesh after the
call, paired with the entries written to the ghost buffer. -/
def MeshMap.init {sizeX : Nat} {α : Type} [Field α] (exp : α → α) (m : MeshMap sizeX α)
    (kernel : TKernel α) (ghostS ghostE : Nat) (ghost_spacing : Bool) :
    Option (MeshMap sizeX α × List α) := do
  let sp ← kernel.compute_spacing exp m.m_xS m.m_xE m.m_Ncells ghostS ghostE ghost_spacing
  if 0 < m.m_Nblocks then
    let blocks ← fill (fun i => accumulate (fun j => sp.ary[i * sizeX + j]?) sizeX 0) m.m_Nblocks
    pure ({ m with m_grid_spacing := sp.ary, m_block_spacing := blocks,
                   m_uniform := kernel.uniform, m_initialized := true },
          sp.ghost_spacing)
  else none

/-- `MeshMap::extent`. -/
def MeshMap.extent {sizeX : Nat} {α : Type} (m : MeshMap sizeX α) : α := m.m_extent

/-- `MeshMap::nblocks`. -/
def MeshMap.nblocks {sizeX : Nat} {α : Type} (m : MeshMap sizeX α) : Nat := m.m_Nblocks

/-- `MeshMap::ncells`. -/
def MeshMap.ncells {sizeX : Nat} {α : Type} (m : MeshMap sizeX α) : Nat := m.m_Ncells

/-- `MeshMap::uniform`. -/
def MeshMap.uniform {sizeX : Nat} {α : Type} (m : MeshMap sizeX α) : Bool := m.m_uniform

/-- `MeshMap::cell_width(ix)`. -/
def MeshMap.cell_width {sizeX : Nat} {α : Type} (m : MeshMap sizeX α) (ix : Int) : Option α :=
  if m.m_initialized = true ∧ 0 ≤ ix ∧ ix < (m.m_Ncells : Int) then
    m.m_grid_spacing[ix.toNat]?
  else none

/-- `MeshMap::block_width(bix)`. -/
def MeshMap.block_width {sizeX : Nat} {α : Type} (m : MeshMap sizeX α) (bix : Int) : Option α :=
  if m.m_initialized = true ∧ 0 ≤ bix ∧ bix < (m.m_Nblocks : Int) then
    m.m_block_spacing[bix.toNat]?
  else none

/-- `MeshMap::block_origin(bix)`. -/
def MeshMap.block_origin {sizeX : Nat} {α : Type} [Add α] (m : MeshMap sizeX α) (bix : Int) :
    Option α :=
  if m.m_initialized = true ∧ 0 ≤ bix ∧ bix < (m.m_Nblocks : Int) then
    accumulate (fun i => m.m_block_spacing[i]?) bix.toNat m.m_xS
  else none

/-- A `double*` into a heap array: the array and the offset of the pointee. -/
structure Ptr (α : Type) where
  base : List α
  off : Nat
deriving DecidableEq, Repr

/-- The read `p[i]` through a possibly null pointer `p`. -/
def Ptr.read {α : Type} (p : Option (Ptr α)) (i : Int) : Option α :=
  match p with
  | none => none
  | some q => if 0 ≤ (q.off : Int) + i then q.base[((q.off : Int) + i).toNat]? else none

/-- `MeshMap::get_grid_spacing(bix)`. -/
def MeshMap.get_grid_spacing {sizeX : Nat} {α : Type} (m : MeshMap sizeX α) (bix : Int) :
    Option (Ptr α) :=
  if m.m_initialized = true ∧ 0 ≤ bix ∧ bix < (m.m_Nblocks : Int) then
    some { base := m.m_grid_spacing, off := bix.toNat * sizeX }
  else none

/-! ## `BlockInfo` -/

/-- A C array of three entries (`int[3]`, `double[3]`). -/
structure Vec3 (α : Type) where
  x : α
  y : α
  z : α
deriving DecidableEq, Repr

/-- The record `struct BlockInfo`.  `ptrBlock` is the address of the payload
(`0` is the null pointer); a spacing pointer is `none` when null. -/
structure BlockInfo (α : Type) where
  blockID : Int
  ptrBlock : Nat
  special : Bool
  index : Vec3 Int
  origin : Vec3 α
  h : α
  h_gridpoint : α
  grid_spacing : Vec3 α
  block_extent : Vec3 α
  grid_spacing_x : Option (Ptr α)
  grid_spacing_y : Option (Ptr α)
  grid_spacing_z : Option (Ptr α)
  bUniform_X : Bool
  bUniform_Y : Bool
  bUniform_Z : Bool
deriving DecidableEq, Repr

/-- One axis of `BlockInfo::pos`: the value of `delta[a]` for index `ix`, from
the axis's uniformity flag, its `grid_spacing[a]` and its spacing pointer. -/
def BlockInfo.delta {α : Type} [Field α] (bUniform : Bool) (grid_spacing : α)
    (grid_spacing_a : Option (Ptr α)) (ix : Int) : Option α :=
  if bUniform then
    some (grid_spacing * ((ix : α) + 1 / 2))
  else do
    let s ← accumulate (fun i => Ptr.read grid_spacing_a (i : Int)) ix.toNat 0
    let v ← Ptr.read grid_spacing_a ix
    pure (s + 1 / 2 * v)

/-- `BlockInfo::pos(p, ix, iy)`: the two coordinates written to `p`. -/
def BlockInfo.pos2 {α : Type} [Field α] (b : BlockInfo α) (ix iy : Int) : Option (α × α) := do
  let d0 ← BlockInfo.delta b.bUniform_X b.grid_spacing.x b.grid_spacing_x ix
  let d1 ← BlockInfo.delta b.bUniform_Y b.grid_spacing.y b.grid_spacing_y iy
  pure (b.origin.x + d0, b.origin.y + d1)

/-- `BlockInfo::pos(p, ix, iy, iz)`: the three coordinates written to `p`. -/
def BlockInfo.pos {α : Type} [Field α] (b : BlockInfo α) (ix iy iz : Int) : Option (Vec3 α) := do
  let d0 ← BlockInfo.delta b.bUniform_X b.grid_spacing.x b.grid_spacing_x ix
  let d1 ← BlockInfo.delta b.bUniform_Y b.grid_spacing.y b.grid_spacing_y iy
  let d2 ← BlockInfo.delta b.bUniform_Z b.grid_spacing.z b.grid_spacing_z iz
  pure { x := b.origin.x + d0, y := b.origin.y + d1, z := b.origin.z + d2 }

/-- The constructor `BlockInfo(ID, idx, _pos, spacing, h_gridpoint_, ptr, _special)`. -/
def BlockInfo.new {α : Type} (ID : Int) (idx : Vec3 Int) (_pos : Vec3 α) (spacing : α)
    (h_gridpoint_ : α) (ptr : Nat) (_special : Bool) : BlockInfo α :=
  { blockID := ID, ptrBlock := ptr, special := _special,
    index := idx, origin := _pos,
    h := spacing, h_gridpoint := h_gridpoint_,
    grid_spacing := { x := h_gridpoint_, y := h_gridpoint_, z := h_gridpoint_ },
    block_extent := { x := spacing, y := spacing, z := spacing },
    grid_spacing_x := none, grid_spacing_y := none, grid_spacing_z := none,
    bUniform_X := true, bUniform_Y := true, bUniform_Z := true }

/-- The assignment `if (bUniform) grid_spacing[a] = grid_spacing_a[0]; else
grid_spacing[a] = -1.0;` of the mesh constructor. -/
def BlockInfo.first_spacing {α : Type} [Field α] (bUniform : Bool)
    (grid_spacing_a : Option (Ptr α)) : Option α :=
  if bUniform then Ptr.read grid_spacing_a 0 else some (-1)

/-- The constructor `BlockInfo(ID, idx, mapX, mapY, mapZ, ptr, _special)`. -/
def BlockInfo.ofMeshMap {sizeX : Nat} {α : Type} [Field α] (ID : Int) (idx : Vec3 Int)
    (mapX mapY mapZ : MeshMap sizeX α) (ptr : Nat) (_special : Bool) :
    Option (BlockInfo α) := do
  let o0 ← mapX.block_origin idx.x
  let o1 ← mapY.block_origin idx.y
  let o2 ← mapZ.block_origin idx.z
  let e0 ← mapX.block_width idx.x
  let e1 ← mapY.block_width idx.y
  let e2 ← mapZ.block_width idx.z
  let gx ← mapX.get_grid_spacing idx.x
  let gy ← mapY.get_grid_spacing idx.y
  let gz ← mapZ.get_grid_spacing idx.z
  let s0 ← BlockInfo.first_spacing mapX.uniform (some gx)
  let s1 ← BlockInfo.first_spacing mapY.uniform (some gy)
  let s2 ← BlockInfo.first_spacing mapZ.uniform (some gz)
  pure { blockID := ID, ptrBlock := ptr, special := _special,
         index := idx, origin := { x := o0, y := o1, z := o2 },
         h := -1, h_gridpoint := -1,
         grid_spacing := { x := s0, y := s1, z := s2 },
         block_extent := { x := e0, y := e1, z := e2 },
         grid_spacing_x := some gx, grid_spacing_y := some gy, grid_spacing_z := some gz,
         bUniform_X := mapX.uniform, bUniform_Y := mapY.uniform, bUniform_Z := mapZ.uniform }

/-! ## The clustered profile in the words of the specification -/

/-- The profile value of the clustered distribution as the specification words
it: `1 / (A * exp(-0.5 * ((p - center) * y)^2) + 1)` at position `p`, with
`center = (total + 1) / 2` and `y = 1 / (B * (total + 1))`, where `total` is
the natural number `ncells + ghostS + ghostE`. -/
def GaussianDensity.specProfile {α : Type} [Field α] (exp : α → α) (A B : α) (total : Nat)
    (p : Nat) : α :=
  let center : α := ((total : α) + 1) / 2
  let y : α := 1 / (B * ((total : α) + 1))
  1 / (A * exp (-(1 / 2) * (((p : α) - center) * y) ^ 2) + 1)

/-! ## Concrete inputs -/

/-- A block with a stretched x axis (widths `1, 2, 3`), a uniform y axis of
spacing `1/2` and a stretched z axis (widths `4, 5`) reached through a pointer
at offset `1`. -/
def exampleBlock : BlockInfo ℚ :=
  { blockID := 7, ptrBlock := 0, special := false,
    index := { x := 0, y := 0, z := 0 },
    origin := { x := 10, y := 20, z := 30 },
    h := -1, h_gridpoint := -1,
    grid_spacing := { x := -1, y := 1 / 2, z := -1 },
    block_extent := { x := 6, y := 1, z := 9 },
    grid_spacing_x := some { base := [1, 2, 3], off := 0 },
    grid_spacing_y := none,
    grid_spacing_z := some { base := [9, 4, 5], off := 1 },
    bUniform_X := false, bUniform_Y := true, bUniform_Z := false }

/-- The mesh of the concrete scenario after `init`: domain `[0, 1]`, four
blocks of two cells, uniform density. -/
def exampleMesh (α : Type) [Field α] : MeshMap 2 α :=
  { m_xS := 0, m_xE := 1, m_extent := 1 - 0, m_Nblocks := 4, m_Ncells := 8,
    m_uniform := true, m_initialized := true,
    m_grid_spacing := [1 / 8, 1 / 8, 1 / 8, 1 / 8, 1 / 8, 1 / 8, 1 / 8, 1 / 8],
    m_block_spacing := [1 / 4, 1 / 4, 1 / 4, 1 / 4] }

/-- The mesh after `init` with the uniform kernel on the reversed interval
`xS = 1`, `xE = 0` with one block of one cell. -/
def degenerateMesh (α : Type) [Field α] : MeshMap 1 α :=
  { m_xS := 1, m_xE := 0, m_extent := 0 - 1, m_Nblocks := 1, m_Ncells := 1,
    m_uniform := true, m_initialized := true,
    m_grid_spacing := [-1], m_block_spacing := [-1] }

/-! ## Loop lemmas -/

section Loops

variable {α : Type}

/-- When every read succeeds the accumulation loop returns the start value plus
the sum of the entries read. -/
theorem accumulate_of_reads [AddCommMonoid α] (read : Nat → Option α) (f : Nat → α) (n : Nat)
    (acc : α) (h : ∀ i, i < n → read i = some (f i)) :
    accumulate read n acc = some (acc + ∑ i ∈ Finset.range n, f i) := by
  induction n with
  | zero => simp [accumulate]
  | succ n ih =>
    have h1 := ih (fun i hi => h i (Nat.lt_succ_of_lt hi))
    have h2 := h n (Nat.lt_succ_self n)
    simp [accumulate, h1, h2, Finset.sum_range_succ, add_assoc]

/-- An accumulation loop that returns has read every entry successfully. -/
theorem accumulate_reads [Add α] (read : Nat → Option α) (n : Nat) (acc r : α)
    (h : accumulate read n acc = some r) : ∀ i, i < n → ∃ v, read i = some v := by
  induction n generalizing r with
  | zero => intro i hi; omega
  | succ n ih =>
    intro i hi
    simp only [accumulate, Option.bind_eq_bind, Option.bind_eq_some, Option.pure_def] at h
    obtain ⟨s, hs, v, hv, _⟩ := h
    rcases Nat.lt_succ_iff_lt_or_eq.mp hi with hlt | heq
    · exact ih s hs i hlt
    · exact ⟨v, heq ▸ hv⟩

/-- A filling loop returns exactly the list of the entries read, when every read
succeeds. -/
theorem fill_eq_some_iff (read : Nat → Option α) (n : Nat) (l : List α) :
    fill read n = some l ↔ l.length = n ∧ ∀ i, i < n → read i = l[i]? := by
  induction n generalizing l with
  | zero =>
    simp only [fill, Option.some.injEq]
    constructor
    · rintro rfl; simp
    · rintro ⟨h, _⟩; exact (List.length_eq_zero.mp h).symm
  | succ n ih =>
    simp only [fill, Option.bind_eq_bind, Option.bind_eq_some, Option.pure_def, Option.some.injEq]
    constructor
    · rintro ⟨out, hout, v, hv, rfl⟩
      obtain ⟨hlen, hread⟩ := (ih out).mp hout
      refine ⟨by simp [hlen], fun i hi => ?_⟩
      rcases Nat.lt_succ_iff_lt_or_eq.mp hi with hlt | heq
      · rw [hread i hlt, List.getElem?_append_left (by omega)]
      · subst heq
        rw [hv, List.getElem?_append_right (by omega)]
        simp [hlen]
    · rintro ⟨hlen, hread⟩
      have hne : l ≠ [] := by intro h; simp [h] at hlen
      refine ⟨l.dropLast, (ih _).mpr ⟨by simp [hlen], fun i hi => ?_⟩, l.getLast hne, ?_,
        List.dropLast_append_getLast hne⟩
      · rw [hread i (by omega), List.getElem?_dropLast]
        simp [hlen, hi]
      · rw [hread n (by omega), List.getLast_eq_getElem]
        simp [hlen]

end Loops

/-! ## The two kernels -/

section Kernels

variable {α : Type} [LinearOrderedField α]

/-- What `UniformDensity::compute_spacing` writes to `ary`. -/
theorem UniformDensity.uniform_spacing_ary (k : UniformDensity) (xS xE : α)
    (ncells ghostS ghostE : Nat) (g : Bool) (sp : Spacing α)
    (h : k.compute_spacing xS xE ncells ghostS ghostE g = some sp) :
    sp.ary.length = ncells ∧ ∀ i, i < ncells → sp.ary[i]? = some ((xE - xS) / (ncells : α)) := by
  simp only [UniformDensity.compute_spacing, Option.some.injEq] at h
  subst h
  refine ⟨by simp, fun i hi => ?_⟩
  simp [List.getElem?_replicate, hi]

/-- After `n` iterations of the first loop `buf` holds the first `n` weights. -/
theorem GaussianDensity.weightLoop_fst (exp : α → α) (k : GaussianDensity α)
    (ncells ghostS ghostE n : Nat) :
    (GaussianDensity.weightLoop exp k ncells ghostS ghostE n).1 =
      (List.range n).map (k.weight exp (GaussianDensity.total_cells ncells ghostS ghostE)) := by
  induction n with
  | zero => simp [GaussianDensity.weightLoop]
  | succ n ih => simp [GaussianDensity.weightLoop, ih, List.range_succ]

/-- After `n` iterations of the first loop `ducky` is the sum of the weights at
the positions that passed the interior test. -/
theorem GaussianDensity.weightLoop_snd (exp : α → α) (k : GaussianDensity α)
    (ncells ghostS ghostE n : Nat) :
    (GaussianDensity.weightLoop exp k ncells ghostS ghostE n).2 =
      ∑ i ∈ Finset.range n,
        if ghostS ≤ i ∧ i < (ncells + ghostS) % UINT_MOD then
          k.weight exp (GaussianDensity.total_cells ncells ghostS ghostE) i
        else 0 := by
  induction n with
  | zero => simp [GaussianDensity.weightLoop]
  | succ n ih =>
    rw [Finset.sum_range_succ, ← ih]
    simp only [GaussianDensity.weightLoop]
    split_ifs <;> simp

/-- Every raw weight is positive when `A > 0` and `exp` is positive. -/
theorem GaussianDensity.weight_pos (exp : α → α) (hexp : ∀ x, 0 < exp x)
    (k : GaussianDensity α) (hA : 0 < k.A) (T i : Nat) : 0 < k.weight exp T i := by
  unfold GaussianDensity.weight
  have := mul_pos hA (hexp (-(1 / 2) * ((i : α) - (((T + 1) % UINT_MOD : Nat) : α) * (1 / 2)) *
    ((i : α) - (((T + 1) % UINT_MOD : Nat) : α) * (1 / 2)) *
    (1 / (k.B * (((T + 1) % UINT_MOD : Nat) : α))) * (1 / (k.B * (((T + 1) % UINT_MOD : Nat) : α)))))
  positivity

/-- When every interior read of `GaussianDensity::compute_spacing` is inside
`buf`, the unsigned sum `ncells + ghostE + ghostS` did not wrap. -/
theorem GaussianDensity.no_wrap (ncells ghostS ghostE : Nat) (hn : 0 < ncells)
    (hS : ghostS < UINT_MOD) (hE : ghostE < UINT_MOD)
    (h : ∀ i, i < ncells → (i + ghostS) % UINT_MOD < GaussianDensity.total_cells ncells ghostS ghostE) :
    ncells + ghostE + ghostS < UINT_MOD := by
  unfold GaussianDensity.total_cells at h
  by_cases hc : ncells + ghostS ≤ UINT_MOD
  · have h1 := h (ncells - 1) (by omega)
    simp only [UINT_MOD] at *
    omega
  · have h1 := h (UINT_MOD - 1 - ghostS) (by simp only [UINT_MOD] at *; omega)
    simp only [UINT_MOD] at *
    omega

end Kernels

section GaussianSpacing

variable {α : Type} [LinearOrderedField α]

/-- Reading the rescaled `buf`: inside the buffer the rescaled weight, outside a
fault. -/
theorem GaussianDensity.buf_getElem? (exp : α → α) (k : GaussianDensity α)
    (ncells ghostS ghostE : Nat) (scale : α) (j : Nat) :
    ((GaussianDensity.weightLoop exp k ncells ghostS ghostE
        (GaussianDensity.total_cells ncells ghostS ghostE)).1.map (fun b => b * scale))[j]? =
      if j < GaussianDensity.total_cells ncells ghostS ghostE then
        some (k.weight exp (GaussianDensity.total_cells ncells ghostS ghostE) j * scale)
      else none := by
  rw [GaussianDensity.weightLoop_fst]
  split_ifs with hj
  · simp [List.getElem?_map, List.getElem?_range hj]
  · simp [List.getElem?_eq_none_iff]; omega

/-- What a successful run of `GaussianDensity::compute_spacing` wrote to `ary`. -/
theorem GaussianDensity.gaussian_spacing_ary (exp : α → α) (k : GaussianDensity α) (xS xE : α)
    (ncells ghostS ghostE : Nat) (g : Bool) (sp : Spacing α)
    (h : k.compute_spacing exp xS xE ncells ghostS ghostE g = some sp) :
    sp.ary.length = ncells ∧ ∀ i, i < ncells →
      (i + ghostS) % UINT_MOD < GaussianDensity.total_cells ncells ghostS ghostE ∧
      sp.ary[i]? = some
        (k.weight exp (GaussianDensity.total_cells ncells ghostS ghostE) ((i + ghostS) % UINT_MOD) *
          ((xE - xS) / (GaussianDensity.weightLoop exp k ncells ghostS ghostE
            (GaussianDensity.total_cells ncells ghostS ghostE)).2)) := by
  simp only [GaussianDensity.compute_spacing, Option.bind_eq_bind, Option.pure_def] at h
  obtain ⟨ary, hary, h2⟩ := Option.bind_eq_some.mp h
  have hsp : sp.ary = ary := by
    split_ifs at h2
    · obtain ⟨gs, _, h3⟩ := Option.bind_eq_some.mp h2
      obtain ⟨ge, _, h4⟩ := Option.bind_eq_some.mp h3
      simp only [Option.some_bind, Option.some.injEq] at h4
      rw [← h4]
    · simp only [Option.some_bind, Option.some.injEq] at h2
      rw [← h2]
  rw [hsp]
  obtain ⟨hlen, hread⟩ := (fill_eq_some_iff _ _ _).mp hary
  refine ⟨hlen, fun i hi => ?_⟩
  have hr := hread i hi
  rw [GaussianDensity.buf_getElem?] at hr
  split_ifs at hr with hlt
  · exact ⟨hlt, hr.symm⟩
  · have : i < ary.length := by omega
    rw [List.getElem?_eq_getElem this] at hr
    cases hr

/-- Without unsigned wrap-around `ducky` is the sum of the interior weights. -/
theorem GaussianDensity.ducky_eq (exp : α → α) (k : GaussianDensity α)
    (ncells ghostS ghostE : Nat) (hw : ncells + ghostE + ghostS < UINT_MOD) :
    (GaussianDensity.weightLoop exp k ncells ghostS ghostE
        (GaussianDensity.total_cells ncells ghostS ghostE)).2 =
      ∑ i ∈ Finset.range ncells,
        k.weight exp (GaussianDensity.total_cells ncells ghostS ghostE) (i + ghostS) := by
  rw [GaussianDensity.weightLoop_snd]
  have hT : GaussianDensity.total_cells ncells ghostS ghostE = ncells + ghostE + ghostS := by
    unfold GaussianDensity.total_cells; exact Nat.mod_eq_of_lt hw
  have hm : (ncells + ghostS) % UINT_MOD = ncells + ghostS :=
    Nat.mod_eq_of_lt (by omega)
  rw [hm, ← Finset.sum_filter]
  have hf : (Finset.range (GaussianDensity.total_cells ncells ghostS ghostE)).filter
      (fun i => ghostS ≤ i ∧ i < ncells + ghostS) = Finset.Ico ghostS (ncells + ghostS) := by
    ext i
    simp only [Finset.mem_filter, Finset.mem_range, Finset.mem_Ico, hT]
    omega
  rw [hf, Finset.sum_Ico_eq_sum_range]
  simp only [Nat.add_sub_cancel]
  exact Finset.sum_congr rfl (fun i _ => by rw [Nat.add_comm])

/-- Without unsigned wrap-around `GaussianDensity::compute_spacing` reads only
inside `buf` and returns. -/
theorem GaussianDensity.gaussian_spacing_isSome (exp : α → α) (k : GaussianDensity α) (xS xE : α)
    (ncells ghostS ghostE : Nat) (g : Bool) (hw : ncells + ghostE + ghostS < UINT_MOD) :
    ∃ sp, k.compute_spacing exp xS xE ncells ghostS ghostE g = some sp := by
  have hT : GaussianDensity.total_cells ncells ghostS ghostE = ncells + ghostE + ghostS := by
    unfold GaussianDensity.total_cells; exact Nat.mod_eq_of_lt hw
  have key : ∀ (scale : α) (f : Nat → Nat) (n : Nat),
      (∀ i, i < n → f i < GaussianDensity.total_cells ncells ghostS ghostE) →
      ∃ l, fill (fun i => ((GaussianDensity.weightLoop exp k ncells ghostS ghostE
        (GaussianDensity.total_cells ncells ghostS ghostE)).1.map (fun b => b * scale))[f i]?) n
          = some l := by
    intro scale f n hf
    refine ⟨(List.range n).map (fun i =>
      k.weight exp (GaussianDensity.total_cells ncells ghostS ghostE) (f i) * scale), ?_⟩
    rw [fill_eq_some_iff]
    refine ⟨by simp, fun i hi => ?_⟩
    rw [GaussianDensity.buf_getElem?, if_pos (hf i hi)]
    simp [List.getElem?_map, List.getElem?_range hi]
  simp only [GaussianDensity.compute_spacing, Option.bind_eq_bind, Option.pure_def]
  obtain ⟨ary, hary⟩ := key ((xE - xS) / (GaussianDensity.weightLoop exp k ncells ghostS ghostE
    (GaussianDensity.total_cells ncells ghostS ghostE)).2) (fun i => (i + ghostS) % UINT_MOD) ncells
    (fun i hi => by dsimp only; rw [hT, Nat.mod_eq_of_lt (by omega)]; omega)
  obtain ⟨gs, hgs⟩ := key ((xE - xS) / (GaussianDensity.weightLoop exp k ncells ghostS ghostE
    (GaussianDensity.total_cells ncells ghostS ghostE)).2) (fun i => i) ghostS
    (fun i hi => by dsimp only; rw [hT]; omega)
  obtain ⟨ge, hge⟩ := key ((xE - xS) / (GaussianDensity.weightLoop exp k ncells ghostS ghostE
    (GaussianDensity.total_cells ncells ghostS ghostE)).2)
    (fun i => (i + ncells + ghostS) % UINT_MOD) ghostE
    (fun i hi => by dsimp only; rw [hT, Nat.mod_eq_of_lt (by omega)]; omega)
  rw [hary]
  cases g
  · exact ⟨_, rfl⟩
  · simp only [if_true, hgs, hge, Option.some_bind]
    exact ⟨_, rfl⟩

end GaussianSpacing

/-! ## `MeshMap::init` -/

section Init

variable {α : Type} [LinearOrderedField α] {sizeX : Nat}

/-- Both kernels write exactly `ncells` interior widths. -/
theorem TKernel.kernel_spacing_length (exp : α → α) (K : TKernel α) (xS xE : α)
    (ncells ghostS ghostE : Nat) (g : Bool) (sp : Spacing α)
    (h : K.compute_spacing exp xS xE ncells ghostS ghostE g = some sp) :
    sp.ary.length = ncells := by
  cases K with
  | uniformDensity k => exact (UniformDensity.uniform_spacing_ary k xS xE _ _ _ g sp h).1
  | gaussianDensity k => exact (GaussianDensity.gaussian_spacing_ary exp k xS xE _ _ _ g sp h).1

/-- The steps of a successful `init`. -/
theorem MeshMap.init_eq_some (exp : α → α) (m : MeshMap sizeX α) (K : TKernel α)
    (ghostS ghostE : Nat) (g : Bool) (r : MeshMap sizeX α × List α)
    (h : m.init exp K ghostS ghostE g = some r) :
    ∃ sp blocks, K.compute_spacing exp m.m_xS m.m_xE m.m_Ncells ghostS ghostE g = some sp ∧
      0 < m.m_Nblocks ∧
      fill (fun i => accumulate (fun j => sp.ary[i * sizeX + j]?) sizeX 0) m.m_Nblocks
        = some blocks ∧
      r = ({ m with m_grid_spacing := sp.ary, m_block_spacing := blocks,
                    m_uniform := K.uniform, m_initialized := true }, sp.ghost_spacing) := by
  simp only [MeshMap.init, Option.bind_eq_bind, Option.pure_def] at h
  obtain ⟨sp, hsp, h2⟩ := Option.bind_eq_some.mp h
  split_ifs at h2 with hN
  obtain ⟨blocks, hb, h3⟩ := Option.bind_eq_some.mp h2
  exact ⟨sp, blocks, hsp, hN, hb, (Option.some.inj h3).symm⟩

/-- The block loop of `init`: every read is inside the cell array and every
block width is the sum of the block's cell widths. -/
theorem MeshMap.block_loop (ary blocks : List α) (Nblocks : Nat)
    (h : fill (fun i => accumulate (fun j => ary[i * sizeX + j]?) sizeX 0) Nblocks = some blocks) :
    blocks.length = Nblocks ∧
    (∀ k j, k < Nblocks → j < sizeX → k * sizeX + j < ary.length) ∧
    ∀ k, k < Nblocks →
      blocks[k]? = some (∑ j ∈ Finset.range sizeX, ary.getD (k * sizeX + j) 0) := by
  obtain ⟨hlen, hread⟩ := (fill_eq_some_iff _ _ _).mp h
  have hval : ∀ k, k < Nblocks → ∃ v, accumulate (fun j => ary[k * sizeX + j]?) sizeX 0 = some v := by
    intro k hk
    refine ⟨blocks[k], ?_⟩
    rw [hread k hk, List.getElem?_eq_getElem]
  have hin : ∀ k j, k < Nblocks → j < sizeX → k * sizeX + j < ary.length := by
    intro k j hk hj
    obtain ⟨v, hv⟩ := hval k hk
    obtain ⟨w, hw⟩ := accumulate_reads _ _ _ _ hv j hj
    by_contra hcon
    rw [List.getElem?_eq_none (by omega)] at hw
    cases hw
  refine ⟨hlen, hin, fun k hk => ?_⟩
  rw [← hread k hk, accumulate_of_reads _ (fun j => ary.getD (k * sizeX + j) 0) sizeX 0, zero_add]
  intro j hj
  simp [List.getD_eq_getElem?_getD, List.getElem?_eq_getElem (hin k j hk hj)]

/-- State of a mesh after a successful `init` on a freshly constructed mesh. -/
theorem MeshMap.init_post (exp : α → α) (xS xE : α) (Nblocks : Nat) (K : TKernel α)
    (ghostS ghostE : Nat) (g : Bool) (m : MeshMap sizeX α) (gh : List α)
    (h : (MeshMap.new sizeX xS xE Nblocks).init exp K ghostS ghostE g = some (m, gh)) :
    m.m_initialized = true ∧ m.m_xS = xS ∧ m.m_xE = xE ∧ m.m_extent = xE - xS ∧
    m.m_Nblocks = Nblocks ∧ 0 < Nblocks ∧ m.m_Ncells = Nblocks * sizeX ∧
    m.m_uniform = K.uniform ∧
    m.m_grid_spacing.length = Nblocks * sizeX ∧ m.m_block_spacing.length = Nblocks ∧
    (∀ k, k < Nblocks → m.m_block_spacing[k]? =
      some (∑ j ∈ Finset.range sizeX, m.m_grid_spacing.getD (k * sizeX + j) 0)) ∧
    K.compute_spacing exp xS xE (Nblocks * sizeX) ghostS ghostE g
      = some { ary := m.m_grid_spacing, ghost_spacing := gh } := by
  obtain ⟨sp, blocks, hsp, hN, hb, hr⟩ := MeshMap.init_eq_some exp _ K ghostS ghostE g _ h
  simp only [MeshMap.new] at hsp hN hb hr
  obtain ⟨hm, hgh⟩ := Prod.mk.inj hr
  subst hm hgh
  have hlen := TKernel.kernel_spacing_length exp K xS xE _ _ _ g sp hsp
  obtain ⟨hbl, hin, hbv⟩ := MeshMap.block_loop sp.ary blocks Nblocks hb
  have hnw : (Nblocks * sizeX) % UINT_MOD = Nblocks * sizeX := by
    rcases Nat.eq_zero_or_pos sizeX with h0 | hpos
    · simp [h0]
    · obtain ⟨n, rfl⟩ : ∃ n, Nblocks = n + 1 := ⟨Nblocks - 1, by omega⟩
      have h1 := hin n (sizeX - 1) (Nat.lt_succ_self n) (by omega)
      rw [hlen, Nat.succ_mul] at h1
      rw [Nat.succ_mul]
      simp only [UINT_MOD] at *
      omega
  rw [hnw] at hlen hsp
  exact ⟨rfl, rfl, rfl, rfl, rfl, hN, hnw, rfl, hlen, hbl, hbv, hsp⟩

end Init

section Accessors

variable {α : Type} [LinearOrderedField α] {sizeX : Nat}

/-- The accessor `cell_width` inside its range. -/
theorem MeshMap.cell_width_eq (m : MeshMap sizeX α) (i : Nat) (hinit : m.m_initialized = true)
    (hlen : m.m_grid_spacing.length = m.m_Ncells) (hi : i < m.m_Ncells) :
    m.cell_width (i : Int) = some (m.m_grid_spacing.getD i 0) := by
  have h1 : ((i : Int)) < (m.m_Ncells : Int) := by exact_mod_cast hi
  simp [MeshMap.cell_width, hinit, h1, List.getD_eq_getElem?_getD,
    List.getElem?_eq_getElem (hlen ▸ hi)]

omit [LinearOrderedField α] in
/-- The accessor `block_width` inside its range. -/
theorem MeshMap.block_width_eq (m : MeshMap sizeX α) (k : Nat) (hinit : m.m_initialized = true)
    (hk : k < m.m_Nblocks) : m.block_width (k : Int) = m.m_block_spacing[k]? := by
  have h1 : ((k : Int)) < (m.m_Nblocks : Int) := by exact_mod_cast hk
  simp [MeshMap.block_width, hinit, h1]

/-- The accessor `block_origin` inside its range. -/
theorem MeshMap.block_origin_eq (m : MeshMap sizeX α) (k : Nat) (hinit : m.m_initialized = true)
    (hlen : m.m_block_spacing.length = m.m_Nblocks) (hk : k < m.m_Nblocks) :
    m.block_origin (k : Int) =
      some (m.m_xS + ∑ b ∈ Finset.range k, m.m_block_spacing.getD b 0) := by
  have h1 : ((k : Int)) < (m.m_Nblocks : Int) := by exact_mod_cast hk
  simp only [MeshMap.block_origin, hinit, h1, Int.natCast_nonneg, and_self, if_true, Int.toNat_ofNat]
  apply accumulate_of_reads
  intro b hb
  simp [List.getD_eq_getElem?_getD, List.getElem?_eq_getElem (show b < m.m_block_spacing.length by omega)]

/-- The block loop of `init` runs to the end when the cell array holds
`Nblocks * sizeX` entries. -/
theorem MeshMap.block_loop_isSome (sizeX : Nat) (ary : List α) (Nblocks : Nat)
    (hlen : ary.length = Nblocks * sizeX) :
    ∃ blocks, fill (fun i => accumulate (fun j => ary[i * sizeX + j]?) sizeX 0) Nblocks
      = some blocks := by
  refine ⟨(List.range Nblocks).map
    (fun k => 0 + ∑ j ∈ Finset.range sizeX, ary.getD (k * sizeX + j) 0), ?_⟩
  rw [fill_eq_some_iff]
  refine ⟨by simp, fun k hk => ?_⟩
  rw [accumulate_of_reads _ (fun j => ary.getD (k * sizeX + j) 0) sizeX 0]
  · simp [List.getElem?_map, List.getElem?_range hk]
  · intro j hj
    have h1 : (k + 1) * sizeX ≤ Nblocks * sizeX := Nat.mul_le_mul_right _ hk
    rw [Nat.succ_mul] at h1
    simp [List.getD_eq_getElem?_getD,
      List.getElem?_eq_getElem (show k * sizeX + j < ary.length by omega)]

/-- `init` returns whenever the kernel returns, a block exists and the cell
count does not wrap. -/
theorem MeshMap.init_isSome (exp : α → α) (xS xE : α) (Nblocks : Nat) (K : TKernel α)
    (ghostS ghostE : Nat) (g : Bool) (hN : 0 < Nblocks) (hw : Nblocks * sizeX < UINT_MOD)
    (hK : ∃ sp, K.compute_spacing exp xS xE (Nblocks * sizeX) ghostS ghostE g = some sp) :
    ∃ r, (MeshMap.new sizeX xS xE Nblocks).init exp K ghostS ghostE g = some r := by
  obtain ⟨sp, hsp⟩ := hK
  have hlen := TKernel.kernel_spacing_length exp K xS xE _ _ _ g sp hsp
  obtain ⟨blocks, hb⟩ := MeshMap.block_loop_isSome sizeX sp.ary Nblocks hlen
  simp only [MeshMap.init, MeshMap.new, Nat.mod_eq_of_lt hw, hsp, Option.bind_eq_bind,
    Option.some_bind, hN, if_true, hb, Option.pure_def]
  exact ⟨_, rfl⟩

/-- Both kernels return whenever `ncells + ghostE + ghostS` does not wrap. -/
theorem TKernel.kernel_spacing_isSome (exp : α → α) (K : TKernel α) (xS xE : α)
    (ncells ghostS ghostE : Nat) (g : Bool) (hw : ncells + ghostE + ghostS < UINT_MOD) :
    ∃ sp, K.compute_spacing exp xS xE ncells ghostS ghostE g = some sp := by
  cases K with
  | uniformDensity k => exact ⟨_, rfl⟩
  | gaussianDensity k =>
    exact GaussianDensity.gaussian_spacing_isSome exp k xS xE ncells ghostS ghostE g hw

/-- Mass conservation at the level of a kernel: the interior widths written by
`compute_spacing` add up to `xE - xS`. -/
theorem TKernel.sum_ary (exp : α → α) (hexp : ∀ x, 0 < exp x) (K : TKernel α) (xS xE : α)
    (ncells ghostS ghostE : Nat) (g : Bool) (sp : Spacing α)
    (hK : ∀ k, K = TKernel.gaussianDensity k → 0 < k.A)
    (hn : 0 < ncells) (hS : ghostS < UINT_MOD) (hE : ghostE < UINT_MOD)
    (h : K.compute_spacing exp xS xE ncells ghostS ghostE g = some sp) :
    ∑ i ∈ Finset.range ncells, sp.ary.getD i 0 = xE - xS := by
  cases K with
  | uniformDensity k =>
    obtain ⟨_, hv⟩ := UniformDensity.uniform_spacing_ary k xS xE _ _ _ g sp h
    have hne : (ncells : α) ≠ 0 := by exact_mod_cast hn.ne'
    rw [Finset.sum_congr rfl (fun i hi => by
      rw [List.getD_eq_getElem?_getD, hv i (Finset.mem_range.mp hi), Option.getD_some])]
    simp [Finset.sum_const, mul_div_cancel₀ _ hne]
  | gaussianDensity k =>
    obtain ⟨_, hv⟩ := GaussianDensity.gaussian_spacing_ary exp k xS xE _ _ _ g sp h
    have hnw := GaussianDensity.no_wrap ncells ghostS ghostE hn hS hE (fun i hi => (hv i hi).1)
    have hd := GaussianDensity.ducky_eq exp k ncells ghostS ghostE hnw
    have hpos : 0 < ∑ i ∈ Finset.range ncells,
        k.weight exp (GaussianDensity.total_cells ncells ghostS ghostE) (i + ghostS) :=
      Finset.sum_pos (fun i _ => GaussianDensity.weight_pos exp hexp k (hK k rfl) _ _)
        ⟨0, Finset.mem_range.mpr hn⟩
    rw [Finset.sum_congr rfl (fun i hi => by
      rw [List.getD_eq_getElem?_getD, (hv i (Finset.mem_range.mp hi)).2, Option.getD_some,
        Nat.mod_eq_of_lt (show i + ghostS < UINT_MOD by
          have := Finset.mem_range.mp hi; omega), hd])]
    rw [← Finset.sum_mul, mul_div_cancel₀ _ hpos.ne']

end Accessors

/-! ## Mass conservation -/

section MassConservation

variable {α : Type} [LinearOrderedField α]

/-- C1 (mass conservation).  For a mesh built with `Nblocks > 0` blocks of
`sizeX > 0` cells and initialised with `UniformDensity` or with
`GaussianDensity(A, B)`, `A > 0`, `B > 0`, with any ghost counts and with or
without a ghost buffer: every `cell_width(i)`, `i < Ncells`, returns a value
and these values add up to `xE - xS`.  `init` returns whenever
`Nblocks * sizeX + ghostE + ghostS` fits in an `int`. -/
theorem C1_mass_conservation (exp : α → α) (hexp : ∀ x, 0 < exp x) (sizeX Nblocks : Nat)
    (xS xE : α) (K : TKernel α) (ghostS ghostE : Nat) (g : Bool)
    (hN : 0 < Nblocks) (hX : 0 < sizeX) (hS : ghostS < UINT_MOD) (hE : ghostE < UINT_MOD)
    (hK : K = TKernel.uniformDensity UniformDensity.new ∨
      ∃ A B : α, 0 < A ∧ 0 < B ∧ K = TKernel.gaussianDensity (GaussianDensity.new A B)) :
    (Nblocks * sizeX + ghostE + ghostS < INT_LIMIT →
      ∃ r, (MeshMap.new sizeX xS xE Nblocks).init exp K ghostS ghostE g = some r) ∧
    ∀ (m : MeshMap sizeX α) (gh : List α),
      (MeshMap.new sizeX xS xE Nblocks).init exp K ghostS ghostE g = some (m, gh) →
      m.ncells = Nblocks * sizeX ∧
      ∃ w : Nat → α, (∀ i, i < m.ncells → m.cell_width (i : Int) = some (w i)) ∧
        ∑ i ∈ Finset.range m.ncells, w i = xE - xS := by
  constructor
  · intro hw
    have hw2 : Nblocks * sizeX + ghostE + ghostS < UINT_MOD := by
      simp only [UINT_MOD, INT_LIMIT] at *; omega
    exact MeshMap.init_isSome exp xS xE Nblocks K ghostS ghostE g hN (by omega)
      (TKernel.kernel_spacing_isSome exp K xS xE _ ghostS ghostE g hw2)
  · intro m gh h
    obtain ⟨hinit, _, _, _, _, _, hNc, _, hlen, _, _, hsp⟩ :=
      MeshMap.init_post exp xS xE Nblocks K ghostS ghostE g m gh h
    have hA : ∀ k, K = TKernel.gaussianDensity k → 0 < k.A := by
      intro k hk
      rcases hK with hu | ⟨A, B, hA, _, hg⟩
      · rw [hu] at hk; cases hk
      · rw [hg] at hk; cases hk; exact hA
    refine ⟨hNc, fun i => m.m_grid_spacing.getD i 0, fun i hi => ?_, ?_⟩
    · exact MeshMap.cell_width_eq m i hinit (by rw [hlen, hNc]) hi
    · have := TKernel.sum_ary exp hexp K xS xE (Nblocks * sizeX) ghostS ghostE g _ hA
        (Nat.mul_pos hN hX) hS hE hsp
      simpa [MeshMap.ncells, hNc] using this

/-- C1 at a concrete input: a Gaussian mesh on `[0, 1]`, four blocks of two
cells, three ghosts on either side. -/
theorem C1_mass_conservation_witness :
    ((∀ x : ℝ, 0 < Real.exp x) ∧ 0 < 4 ∧ 0 < 2 ∧ 3 < UINT_MOD ∧ 3 < UINT_MOD ∧
      (TKernel.gaussianDensity (GaussianDensity.new (1 : ℝ) (1 / 4)) =
          TKernel.uniformDensity UniformDensity.new ∨
        ∃ A B : ℝ, 0 < A ∧ 0 < B ∧
          TKernel.gaussianDensity (GaussianDensity.new (1 : ℝ) (1 / 4)) =
            TKernel.gaussianDensity (GaussianDensity.new A B))) ∧
    ((4 * 2 + 3 + 3 < INT_LIMIT →
      ∃ r, (MeshMap.new 2 (0 : ℝ) 1 4).init Real.exp
        (TKernel.gaussianDensity (GaussianDensity.new 1 (1 / 4))) 3 3 true = some r) ∧
    ∀ (m : MeshMap 2 ℝ) (gh : List ℝ),
      (MeshMap.new 2 (0 : ℝ) 1 4).init Real.exp
        (TKernel.gaussianDensity (GaussianDensity.new 1 (1 / 4))) 3 3 true = some (m, gh) →
      m.ncells = 4 * 2 ∧
      ∃ w : Nat → ℝ, (∀ i, i < m.ncells → m.cell_width (i : Int) = some (w i)) ∧
        ∑ i ∈ Finset.range m.ncells, w i = 1 - 0) :=
  have hK : TKernel.gaussianDensity (GaussianDensity.new (1 : ℝ) (1 / 4)) =
        TKernel.uniformDensity UniformDensity.new ∨
      ∃ A B : ℝ, 0 < A ∧ 0 < B ∧
        TKernel.gaussianDensity (GaussianDensity.new (1 : ℝ) (1 / 4)) =
          TKernel.gaussianDensity (GaussianDensity.new A B) :=
    Or.inr ⟨1, 1 / 4, by norm_num, by norm_num, rfl⟩
  ⟨⟨Real.exp_pos, by decide, by decide, by decide, by decide, hK⟩,
    C1_mass_conservation Real.exp Real.exp_pos 2 4 0 1 _ 3 3 true (by decide) (by decide)
      (by decide) (by decide) hK⟩

end MassConservation

/-! ## The position query -/

section Position

variable {α : Type} [LinearOrderedField α]

/-- Closed-form branch of one axis of `pos`. -/
theorem BlockInfo.delta_uniform (gs : α) (p : Option (Ptr α)) (ix : Int) :
    BlockInfo.delta true gs p ix = some (gs * ((ix : α) + 1 / 2)) := by
  simp [BlockInfo.delta]

/-- Summation branch of one axis of `pos`, for a non-negative index whose
entries `0 .. ix` are readable through the spacing pointer. -/
theorem BlockInfo.delta_nonuniform (gs : α) (p : Option (Ptr α)) (ix : Int) (s : Nat → α)
    (h0 : 0 ≤ ix) (hs : ∀ i : Nat, (i : Int) ≤ ix → Ptr.read p (i : Int) = some (s i)) :
    BlockInfo.delta false gs p ix =
      some (∑ i ∈ Finset.range ix.toNat, s i + 1 / 2 * s ix.toNat) := by
  have h1 : accumulate (fun i => Ptr.read p (i : Int)) ix.toNat 0 =
      some (0 + ∑ i ∈ Finset.range ix.toNat, s i) :=
    accumulate_of_reads _ s _ 0 (fun i hi => hs i (by omega))
  have h2 : Ptr.read p ix = some (s ix.toNat) := by
    have := hs ix.toNat (by omega)
    rwa [Int.toNat_of_nonneg h0] at this
  simp [BlockInfo.delta, h1, h2]

/-- One axis of `pos` under the hypotheses of C2. -/
theorem BlockInfo.delta_eq (u : Bool) (gs : α) (p : Option (Ptr α)) (ix : Int) (s : Nat → α)
    (h0 : 0 ≤ ix)
    (hs : u = false → ∀ i : Nat, (i : Int) ≤ ix → Ptr.read p (i : Int) = some (s i)) :
    BlockInfo.delta u gs p ix =
      some (if u = true then gs * ((ix : α) + 1 / 2)
        else ∑ i ∈ Finset.range ix.toNat, s i + 1 / 2 * s ix.toNat) := by
  cases u
  · simpa using BlockInfo.delta_nonuniform gs p ix s h0 (hs rfl)
  · simpa using BlockInfo.delta_uniform gs p ix

/-- C2 (position query).  For every `BlockInfo` and all non-negative indices
`ix, iy, iz` such that, on each axis whose uniformity flag is false, the
entries `0 .. index` of the spacing slice are readable (`sx`, `sy`, `sz` name
them), `pos(p, ix, iy, iz)` returns and writes on each axis
`origin + grid_spacing * (index + 0.5)` when the flag is true and
`origin + (slice[0] + ... + slice[index-1]) + 0.5 * slice[index]` when it is
false. -/
theorem C2_position_query (b : BlockInfo α) (ix iy iz : Int) (sx sy sz : Nat → α)
    (hix : 0 ≤ ix) (hiy : 0 ≤ iy) (hiz : 0 ≤ iz)
    (hx : b.bUniform_X = false →
      ∀ i : Nat, (i : Int) ≤ ix → Ptr.read b.grid_spacing_x (i : Int) = some (sx i))
    (hy : b.bUniform_Y = false →
      ∀ i : Nat, (i : Int) ≤ iy → Ptr.read b.grid_spacing_y (i : Int) = some (sy i))
    (hz : b.bUniform_Z = false →
      ∀ i : Nat, (i : Int) ≤ iz → Ptr.read b.grid_spacing_z (i : Int) = some (sz i)) :
    ∃ p : Vec3 α, b.pos ix iy iz = some p ∧
      p.x = b.origin.x + (if b.bUniform_X = true then b.grid_spacing.x * ((ix : α) + 1 / 2)
        else ∑ i ∈ Finset.range ix.toNat, sx i + 1 / 2 * sx ix.toNat) ∧
      p.y = b.origin.y + (if b.bUniform_Y = true then b.grid_spacing.y * ((iy : α) + 1 / 2)
        else ∑ i ∈ Finset.range iy.toNat, sy i + 1 / 2 * sy iy.toNat) ∧
      p.z = b.origin.z + (if b.bUniform_Z = true then b.grid_spacing.z * ((iz : α) + 1 / 2)
        else ∑ i ∈ Finset.range iz.toNat, sz i + 1 / 2 * sz iz.toNat) := by
  have h0 := BlockInfo.delta_eq b.bUniform_X b.grid_spacing.x b.grid_spacing_x ix sx hix hx
  have h1 := BlockInfo.delta_eq b.bUniform_Y b.grid_spacing.y b.grid_spacing_y iy sy hiy hy
  have h2 := BlockInfo.delta_eq b.bUniform_Z b.grid_spacing.z b.grid_spacing_z iz sz hiz hz
  have hp : b.pos ix iy iz = some
      { x := b.origin.x + (if b.bUniform_X = true then b.grid_spacing.x * ((ix : α) + 1 / 2)
          else ∑ i ∈ Finset.range ix.toNat, sx i + 1 / 2 * sx ix.toNat),
        y := b.origin.y + (if b.bUniform_Y = true then b.grid_spacing.y * ((iy : α) + 1 / 2)
          else ∑ i ∈ Finset.range iy.toNat, sy i + 1 / 2 * sy iy.toNat),
        z := b.origin.z + (if b.bUniform_Z = true then b.grid_spacing.z * ((iz : α) + 1 / 2)
          else ∑ i ∈ Finset.range iz.toNat, sz i + 1 / 2 * sz iz.toNat) } := by
    simp only [BlockInfo.pos, h0, h1, h2, Option.bind_eq_bind, Option.some_bind, Option.pure_def]
  exact ⟨_, hp, rfl, rfl, rfl⟩

/-- C2 at a concrete block: stretched x and z axes, uniform y axis, indices
`(1, 2, 1)`. -/
theorem C2_position_query_witness :
    (((0 : Int) ≤ 1 ∧ (0 : Int) ≤ 2 ∧ (0 : Int) ≤ 1) ∧
      (exampleBlock.bUniform_X = false → ∀ i : Nat, (i : Int) ≤ 1 →
        Ptr.read exampleBlock.grid_spacing_x (i : Int) = some ([1, 2, 3].getD i 0)) ∧
      (exampleBlock.bUniform_Y = false → ∀ i : Nat, (i : Int) ≤ 2 →
        Ptr.read exampleBlock.grid_spacing_y (i : Int) = some 0) ∧
      (exampleBlock.bUniform_Z = false → ∀ i : Nat, (i : Int) ≤ 1 →
        Ptr.read exampleBlock.grid_spacing_z (i : Int) = some ([4, 5].getD i 0))) ∧
    ∃ p : Vec3 ℚ, exampleBlock.pos 1 2 1 = some p ∧
      p.x = exampleBlock.origin.x + (if exampleBlock.bUniform_X = true then
          exampleBlock.grid_spacing.x * (((1 : Int) : ℚ) + 1 / 2)
        else ∑ i ∈ Finset.range (1 : Int).toNat, [1, 2, 3].getD i 0
          + 1 / 2 * [1, 2, 3].getD (1 : Int).toNat 0) ∧
      p.y = exampleBlock.origin.y + (if exampleBlock.bUniform_Y = true then
          exampleBlock.grid_spacing.y * (((2 : Int) : ℚ) + 1 / 2)
        else ∑ _i ∈ Finset.range (2 : Int).toNat, (0 : ℚ) + 1 / 2 * 0) ∧
      p.z = exampleBlock.origin.z + (if exampleBlock.bUniform_Z = true then
          exampleBlock.grid_spacing.z * (((1 : Int) : ℚ) + 1 / 2)
        else ∑ i ∈ Finset.range (1 : Int).toNat, [4, 5].getD i 0
          + 1 / 2 * [4, 5].getD (1 : Int).toNat 0) :=
  have hx : exampleBlock.bUniform_X = false → ∀ i : Nat, (i : Int) ≤ 1 →
      Ptr.read exampleBlock.grid_spacing_x (i : Int) = some ([1, 2, 3].getD i 0) := by
    intro _ i hi
    have : i ≤ 1 := by exact_mod_cast hi
    interval_cases i <;> rfl
  have hy : exampleBlock.bUniform_Y = false → ∀ i : Nat, (i : Int) ≤ 2 →
      Ptr.read exampleBlock.grid_spacing_y (i : Int) = some 0 := by
    intro h; cases h
  have hz : exampleBlock.bUniform_Z = false → ∀ i : Nat, (i : Int) ≤ 1 →
      Ptr.read exampleBlock.grid_spacing_z (i : Int) = some ([4, 5].getD i 0) := by
    intro _ i hi
    have : i ≤ 1 := by exact_mod_cast hi
    interval_cases i <;> rfl
  ⟨⟨⟨by decide, by decide, by decide⟩, hx, hy, hz⟩,
    C2_position_query exampleBlock 1 2 1 (fun i => [1, 2, 3].getD i 0) (fun _ => 0)
      (fun i => [4, 5].getD i 0) (by decide) (by decide) (by decide) hx hy hz⟩

/-- The position query evaluated on `exampleBlock` at indices `(1, 2, 1)`. -/
theorem exampleBlock_pos :
    exampleBlock.pos 1 2 1 = some { x := 12, y := 85 / 4, z := 73 / 2 } := by
  norm_num [BlockInfo.pos, BlockInfo.delta, exampleBlock, accumulate, Ptr.read, Int.toNat]

end Position

/-! ## Blocks of an initialised mesh -/

section Blocks

variable {α : Type} [LinearOrderedField α] {sizeX : Nat}

/-- Summing block by block is summing cell by cell. -/
theorem sum_blocks (w : Nat → α) (s n : Nat) :
    ∑ k ∈ Finset.range n, ∑ j ∈ Finset.range s, w (k * s + j) =
      ∑ i ∈ Finset.range (n * s), w i := by
  induction n with
  | zero => simp
  | succ n ih => rw [Finset.sum_range_succ, ih, Nat.succ_mul, Finset.sum_range_add]

/-- The accessors of a mesh after a successful `init`, in terms of the cell
widths `w i = m_grid_spacing[i]`. -/
theorem MeshMap.init_widths (exp : α → α) (xS xE : α) (Nblocks : Nat) (K : TKernel α)
    (ghostS ghostE : Nat) (g : Bool) (m : MeshMap sizeX α) (gh : List α)
    (h : (MeshMap.new sizeX xS xE Nblocks).init exp K ghostS ghostE g = some (m, gh)) :
    (∀ i, i < Nblocks * sizeX → m.cell_width (i : Int) = some (m.m_grid_spacing.getD i 0)) ∧
    (∀ k, k < Nblocks → m.block_width (k : Int) =
      some (∑ j ∈ Finset.range sizeX, m.m_grid_spacing.getD (k * sizeX + j) 0)) ∧
    (∀ k, k < Nblocks → m.block_origin (k : Int) =
      some (xS + ∑ i ∈ Finset.range (k * sizeX), m.m_grid_spacing.getD i 0)) := by
  obtain ⟨hinit, hxS, _, _, hNb, _, hNc, _, hlen, hbl, hbv, _⟩ :=
    MeshMap.init_post exp xS xE Nblocks K ghostS ghostE g m gh h
  refine ⟨fun i hi => ?_, fun k hk => ?_, fun k hk => ?_⟩
  · exact MeshMap.cell_width_eq m i hinit (by rw [hlen, hNc]) (by rw [hNc]; exact hi)
  · rw [MeshMap.block_width_eq m k hinit (by rw [hNb]; exact hk), hbv k hk]
  · rw [MeshMap.block_origin_eq m k hinit (by rw [hbl, hNb]) (by rw [hNb]; exact hk), hxS,
      ← sum_blocks]
    congr 2
    refine Finset.sum_congr rfl (fun b hb => ?_)
    have hb' : b < Nblocks := by have := Finset.mem_range.mp hb; omega
    rw [List.getD_eq_getElem?_getD, hbv b hb', Option.getD_some]

/-- The concrete scenario: `init` with the uniform kernel on `[0, 1]`, four
blocks of two cells, produces `exampleMesh`. -/
theorem exampleMesh_init (exp : α → α) :
    (MeshMap.new 2 (0 : α) 1 4).init exp (TKernel.uniformDensity UniformDensity.new) 0 0 false
      = some (exampleMesh α, []) := by
  simp [MeshMap.init, MeshMap.new, TKernel.compute_spacing, UniformDensity.compute_spacing, fill,
    accumulate, TKernel.uniform, UniformDensity.new, List.range_succ, List.replicate, exampleMesh]
  norm_num

/-- C4 (block decomposition).  After a successful `init`, with either kernel
and any ghost arguments, every `cell_width(i)`, `i < Ncells`, returns a value
`w i`, and for every block `k < Nblocks`, `block_width(k)` returns the sum of
`w j` over `k * sizeX ≤ j < (k + 1) * sizeX`. -/
theorem C4_block_decomposition (exp : α → α) (sizeX Nblocks : Nat) (xS xE : α) (K : TKernel α)
    (ghostS ghostE : Nat) (g : Bool) (m : MeshMap sizeX α) (gh : List α)
    (h : (MeshMap.new sizeX xS xE Nblocks).init exp K ghostS ghostE g = some (m, gh)) :
    m.nblocks = Nblocks ∧ m.ncells = Nblocks * sizeX ∧
    ∃ w : Nat → α, (∀ i, i < m.ncells → m.cell_width (i : Int) = some (w i)) ∧
      ∀ k, k < m.nblocks → m.block_width (k : Int) =
        some (∑ j ∈ Finset.Ico (k * sizeX) ((k + 1) * sizeX), w j) := by
  obtain ⟨_, _, _, _, hNb, _, hNc, _⟩ :=
    MeshMap.init_post exp xS xE Nblocks K ghostS ghostE g m gh h
  obtain ⟨hc, hb, _⟩ := MeshMap.init_widths exp xS xE Nblocks K ghostS ghostE g m gh h
  refine ⟨hNb, hNc, fun i => m.m_grid_spacing.getD i 0, fun i hi => hc i ?_, fun k hk => ?_⟩
  · simpa [MeshMap.ncells, hNc] using hi
  · rw [hb k (by simpa [MeshMap.nblocks, hNb] using hk), Finset.sum_Ico_eq_sum_range]
    have : (k + 1) * sizeX - k * sizeX = sizeX := by rw [Nat.succ_mul]; omega
    rw [this]

/-- C4 at the concrete scenario. -/
theorem C4_block_decomposition_witness :
    (MeshMap.new 2 (0 : ℝ) 1 4).init Real.exp (TKernel.uniformDensity UniformDensity.new) 0 0 false
      = some (exampleMesh ℝ, []) ∧
    ((exampleMesh ℝ).nblocks = 4 ∧ (exampleMesh ℝ).ncells = 4 * 2 ∧
    ∃ w : Nat → ℝ, (∀ i, i < (exampleMesh ℝ).ncells →
        (exampleMesh ℝ).cell_width (i : Int) = some (w i)) ∧
      ∀ k, k < (exampleMesh ℝ).nblocks → (exampleMesh ℝ).block_width (k : Int) =
        some (∑ j ∈ Finset.Ico (k * 2) ((k + 1) * 2), w j)) :=
  ⟨exampleMesh_init Real.exp,
    C4_block_decomposition Real.exp 2 4 0 1 _ 0 0 false _ _ (exampleMesh_init Real.exp)⟩

end Blocks

section BlockSums

variable {α : Type} [LinearOrderedField α]

/-- C5 (amended: blocks hold at least one cell).  After a successful `init`
with `UniformDensity` or `GaussianDensity(A, B)`, `A > 0`, `B > 0`, on a mesh
with `Nblocks > 0` blocks of `sizeX > 0` cells, every `block_width(k)`,
`k < Nblocks`, returns a value and these values add up to `xE - xS`. -/
theorem C5_block_width_sum (exp : α → α) (hexp : ∀ x, 0 < exp x) (sizeX Nblocks : Nat)
    (xS xE : α) (K : TKernel α) (ghostS ghostE : Nat) (g : Bool)
    (hN : 0 < Nblocks) (hX : 0 < sizeX) (hS : ghostS < UINT_MOD) (hE : ghostE < UINT_MOD)
    (hK : K = TKernel.uniformDensity UniformDensity.new ∨
      ∃ A B : α, 0 < A ∧ 0 < B ∧ K = TKernel.gaussianDensity (GaussianDensity.new A B))
    (m : MeshMap sizeX α) (gh : List α)
    (h : (MeshMap.new sizeX xS xE Nblocks).init exp K ghostS ghostE g = some (m, gh)) :
    m.nblocks = Nblocks ∧
    ∃ bw : Nat → α, (∀ k, k < m.nblocks → m.block_width (k : Int) = some (bw k)) ∧
      ∑ k ∈ Finset.range m.nblocks, bw k = xE - xS := by
  obtain ⟨_, _, _, _, hNb, _, _, _, _, _, _, hsp⟩ :=
    MeshMap.init_post exp xS xE Nblocks K ghostS ghostE g m gh h
  obtain ⟨_, hb, _⟩ := MeshMap.init_widths exp xS xE Nblocks K ghostS ghostE g m gh h
  have hA : ∀ k, K = TKernel.gaussianDensity k → 0 < k.A := by
    intro k hk
    rcases hK with hu | ⟨A, B, hA, _, hg⟩
    · rw [hu] at hk; cases hk
    · rw [hg] at hk; cases hk; exact hA
  refine ⟨hNb, fun k => ∑ j ∈ Finset.range sizeX, m.m_grid_spacing.getD (k * sizeX + j) 0,
    fun k hk => hb k (by simpa [MeshMap.nblocks, hNb] using hk), ?_⟩
  have hs := TKernel.sum_ary exp hexp K xS xE (Nblocks * sizeX) ghostS ghostE g _ hA
    (Nat.mul_pos hN hX) hS hE hsp
  rw [show m.nblocks = Nblocks from hNb]
  exact (sum_blocks (fun i => m.m_grid_spacing.getD i 0) sizeX Nblocks).trans hs

/-- C5 (amended) at the concrete scenario. -/
theorem C5_block_width_sum_witness :
    ((∀ x : ℝ, 0 < Real.exp x) ∧ 0 < 4 ∧ 0 < 2 ∧ 0 < UINT_MOD ∧ 0 < UINT_MOD ∧
      ((TKernel.uniformDensity UniformDensity.new : TKernel ℝ) =
          TKernel.uniformDensity UniformDensity.new ∨
        ∃ A B : ℝ, 0 < A ∧ 0 < B ∧
          TKernel.uniformDensity UniformDensity.new =
            TKernel.gaussianDensity (GaussianDensity.new A B)) ∧
      (MeshMap.new 2 (0 : ℝ) 1 4).init Real.exp (TKernel.uniformDensity UniformDensity.new)
        0 0 false = some (exampleMesh ℝ, [])) ∧
    ((exampleMesh ℝ).nblocks = 4 ∧
    ∃ bw : Nat → ℝ, (∀ k, k < (exampleMesh ℝ).nblocks →
        (exampleMesh ℝ).block_width (k : Int) = some (bw k)) ∧
      ∑ k ∈ Finset.range (exampleMesh ℝ).nblocks, bw k = 1 - 0) :=
  ⟨⟨Real.exp_pos, by decide, by decide, by decide, by decide, Or.inl rfl,
      exampleMesh_init Real.exp⟩,
    C5_block_width_sum Real.exp Real.exp_pos 2 4 0 1 _ 0 0 false (by decide) (by decide)
      (by decide) (by decide) (Or.inl rfl) _ _ (exampleMesh_init Real.exp)⟩

/-- C5 as stated fails for a block type without cells (`sizeX = 0`): on
`[0, 1]` with one block, `init` with the uniform kernel returns a mesh whose
only block has width `0`, so the block widths do not add up to `1`. -/
theorem C5_counterexample :
    ¬ (∀ (m : MeshMap 0 ℝ) (gh : List ℝ),
        (MeshMap.new 0 (0 : ℝ) 1 1).init Real.exp (TKernel.uniformDensity UniformDensity.new)
          0 0 false = some (m, gh) →
        ∃ bw : Nat → ℝ, (∀ k, k < m.nblocks → m.block_width (k : Int) = some (bw k)) ∧
          ∑ k ∈ Finset.range m.nblocks, bw k = 1 - 0) := by
  intro hall
  have hinit : (MeshMap.new 0 (0 : ℝ) 1 1).init Real.exp
      (TKernel.uniformDensity UniformDensity.new) 0 0 false =
      some (({ m_xS := 0, m_xE := 1, m_extent := 1 - 0, m_Nblocks := 1, m_Ncells := 0,
               m_uniform := true, m_initialized := true,
               m_grid_spacing := [], m_block_spacing := [0] } : MeshMap 0 ℝ), []) := by
    simp [MeshMap.init, MeshMap.new, TKernel.compute_spacing, UniformDensity.compute_spacing,
      fill, accumulate, TKernel.uniform, UniformDensity.new]
  obtain ⟨bw, hbw, hsum⟩ := hall _ _ hinit
  have h0 := hbw 0 (by simp [MeshMap.nblocks])
  simp [MeshMap.block_width] at h0
  simp [MeshMap.nblocks, ← h0] at hsum

/-- C6 (block origins).  After a successful `init`: `block_origin(0)` returns
`xS`; for `k + 1 < Nblocks`, `block_origin(k + 1)` returns
`block_origin(k) + block_width(k)`; and `block_origin(k)` returns `xS` plus the
sum of `block_width` over `[0, k)`. -/
theorem C6_block_origin (exp : α → α) (sizeX Nblocks : Nat) (xS xE : α) (K : TKernel α)
    (ghostS ghostE : Nat) (g : Bool) (m : MeshMap sizeX α) (gh : List α)
    (h : (MeshMap.new sizeX xS xE Nblocks).init exp K ghostS ghostE g = some (m, gh)) :
    m.nblocks = Nblocks ∧ m.block_origin 0 = some xS ∧
    ∃ (bo bw : Nat → α),
      (∀ k, k < m.nblocks → m.block_origin (k : Int) = some (bo k)) ∧
      (∀ k, k < m.nblocks → m.block_width (k : Int) = some (bw k)) ∧
      (∀ k, k + 1 < m.nblocks → bo (k + 1) = bo k + bw k) ∧
      (∀ k, k < m.nblocks → bo k = xS + ∑ b ∈ Finset.range k, bw b) := by
  obtain ⟨_, _, _, _, hNb, hN, _⟩ :=
    MeshMap.init_post exp xS xE Nblocks K ghostS ghostE g m gh h
  obtain ⟨_, hb, ho⟩ := MeshMap.init_widths exp xS xE Nblocks K ghostS ghostE g m gh h
  have hsum : ∀ k : Nat, xS + ∑ i ∈ Finset.range (k * sizeX), m.m_grid_spacing.getD i 0 =
      xS + ∑ b ∈ Finset.range k, ∑ j ∈ Finset.range sizeX,
        m.m_grid_spacing.getD (b * sizeX + j) 0 := by
    intro k
    exact congrArg (fun t => xS + t)
      (sum_blocks (fun i => m.m_grid_spacing.getD i 0) sizeX k).symm
  refine ⟨hNb, ?_, fun k => xS + ∑ i ∈ Finset.range (k * sizeX), m.m_grid_spacing.getD i 0,
    fun k => ∑ j ∈ Finset.range sizeX, m.m_grid_spacing.getD (k * sizeX + j) 0,
    fun k hk => ho k (by simpa [MeshMap.nblocks, hNb] using hk),
    fun k hk => hb k (by simpa [MeshMap.nblocks, hNb] using hk),
    fun k _ => ?_, fun k _ => hsum k⟩
  · have := ho 0 hN
    simpa using this
  · beta_reduce
    rw [hsum (k + 1), hsum k, Finset.sum_range_succ, add_assoc]

/-- C6 at the concrete scenario. -/
theorem C6_block_origin_witness :
    (MeshMap.new 2 (0 : ℝ) 1 4).init Real.exp (TKernel.uniformDensity UniformDensity.new) 0 0 false
      = some (exampleMesh ℝ, []) ∧
    ((exampleMesh ℝ).nblocks = 4 ∧ (exampleMesh ℝ).block_origin 0 = some 0 ∧
    ∃ (bo bw : Nat → ℝ),
      (∀ k, k < (exampleMesh ℝ).nblocks → (exampleMesh ℝ).block_origin (k : Int) = some (bo k)) ∧
      (∀ k, k < (exampleMesh ℝ).nblocks → (exampleMesh ℝ).block_width (k : Int) = some (bw k)) ∧
      (∀ k, k + 1 < (exampleMesh ℝ).nblocks → bo (k + 1) = bo k + bw k) ∧
      (∀ k, k < (exampleMesh ℝ).nblocks → bo k = 0 + ∑ b ∈ Finset.range k, bw b)) :=
  ⟨exampleMesh_init Real.exp,
    C6_block_origin Real.exp 2 4 0 1 _ 0 0 false _ _ (exampleMesh_init Real.exp)⟩

end BlockSums

/-! ## Blocks cut from a mesh -/

section BlockAxis

variable {α : Type} [LinearOrderedField α] {sizeX : Nat}

omit [LinearOrderedField α] in
/-- Reading through a non-null pointer at a natural index. -/
theorem Ptr.read_natCast (l : List α) (off i : Nat) :
    Ptr.read (some ({ base := l, off := off } : Ptr α)) (i : Int) = l[off + i]? := by
  have h : (0 : Int) ≤ (off : Int) + (i : Int) := by positivity
  have h2 : ((off : Int) + (i : Int)).toNat = off + i := by omega
  simp only [Ptr.read, h, if_true, h2]

omit [LinearOrderedField α] in
/-- Reading the pointee of a non-null pointer. -/
theorem Ptr.read_zero (l : List α) (off : Nat) :
    Ptr.read (some ({ base := l, off := off } : Ptr α)) 0 = l[off]? := by
  simpa using Ptr.read_natCast l off 0

/-- One axis of a block cut from an initialised mesh: origin, spacing pointer,
`grid_spacing` entry and the `delta` of `pos` at a local index `ix < sizeX`,
in terms of the cell widths `w i = m_grid_spacing[i]`. -/
theorem MeshMap.axis_position (exp : α → α) (xS xE : α) (Nblocks : Nat) (K : TKernel α)
    (ghostS ghostE : Nat) (g : Bool) (m : MeshMap sizeX α) (gh : List α)
    (hK : K = TKernel.uniformDensity UniformDensity.new ∨
      ∃ A B : α, K = TKernel.gaussianDensity (GaussianDensity.new A B))
    (h : (MeshMap.new sizeX xS xE Nblocks).init exp K ghostS ghostE g = some (m, gh))
    (k ix : Nat) (hk : k < Nblocks) (hix : ix < sizeX) :
    m.get_grid_spacing (k : Int) = some { base := m.m_grid_spacing, off := k * sizeX } ∧
    (∀ i, i < sizeX → Ptr.read (m.get_grid_spacing (k : Int)) (i : Int) =
      some (m.m_grid_spacing.getD (k * sizeX + i) 0)) ∧
    BlockInfo.first_spacing m.uniform (m.get_grid_spacing (k : Int)) =
      some (if m.uniform = true then m.m_grid_spacing.getD (k * sizeX) 0 else -1) ∧
    BlockInfo.delta m.uniform
        (if m.uniform = true then m.m_grid_spacing.getD (k * sizeX) 0 else -1)
        (m.get_grid_spacing (k : Int)) (ix : Int) =
      some (∑ i ∈ Finset.range ix, m.m_grid_spacing.getD (k * sizeX + i) 0
        + 1 / 2 * m.m_grid_spacing.getD (k * sizeX + ix) 0) ∧
    (m.uniform = true →
      m.m_grid_spacing.getD (k * sizeX) 0 * (((ix : Int) : α) + 1 / 2) =
        ∑ i ∈ Finset.range ix, m.m_grid_spacing.getD (k * sizeX + i) 0
          + 1 / 2 * m.m_grid_spacing.getD (k * sizeX + ix) 0) := by
  obtain ⟨hinit, _, _, _, hNb, _, hNc, hu, hlen, _, _, hsp⟩ :=
    MeshMap.init_post exp xS xE Nblocks K ghostS ghostE g m gh h
  have hin : ∀ i, i < sizeX → k * sizeX + i < m.m_grid_spacing.length := by
    intro i hi
    have h1 : (k + 1) * sizeX ≤ Nblocks * sizeX := Nat.mul_le_mul_right _ hk
    rw [Nat.succ_mul] at h1
    omega
  have hptr : m.get_grid_spacing (k : Int) =
      some { base := m.m_grid_spacing, off := k * sizeX } := by
    have h1 : ((k : Int)) < (m.m_Nblocks : Int) := by rw [hNb]; exact_mod_cast hk
    simp [MeshMap.get_grid_spacing, hinit, h1]
  have hread : ∀ i, i < sizeX → Ptr.read (m.get_grid_spacing (k : Int)) (i : Int) =
      some (m.m_grid_spacing.getD (k * sizeX + i) 0) := by
    intro i hi
    rw [hptr, Ptr.read_natCast, List.getD_eq_getElem?_getD, List.getElem?_eq_getElem (hin i hi),
      Option.getD_some]
  have hfirst : BlockInfo.first_spacing m.uniform (m.get_grid_spacing (k : Int)) =
      some (if m.uniform = true then m.m_grid_spacing.getD (k * sizeX) 0 else -1) := by
    unfold BlockInfo.first_spacing
    split_ifs
    · have := hread 0 (by omega)
      simpa using this
    · rfl
  -- on a uniform mesh all cells have the width of the block's first cell
  have hclosed : m.uniform = true →
      m.m_grid_spacing.getD (k * sizeX) 0 * (((ix : Int) : α) + 1 / 2) =
        ∑ i ∈ Finset.range ix, m.m_grid_spacing.getD (k * sizeX + i) 0
          + 1 / 2 * m.m_grid_spacing.getD (k * sizeX + ix) 0 := by
    intro hunif
    rcases hK with hKu | ⟨A, B, hKg⟩
    · subst hKu
      obtain ⟨_, hv⟩ := UniformDensity.uniform_spacing_ary UniformDensity.new xS xE _ _ _ g _ hsp
      have hw : ∀ i, i < sizeX → m.m_grid_spacing.getD (k * sizeX + i) 0 =
          (xE - xS) / ((Nblocks * sizeX : Nat) : α) := by
        intro i hi
        have := hv (k * sizeX + i) (by have := hin i hi; omega)
        simp only at this
        rw [List.getD_eq_getElem?_getD, this, Option.getD_some]
      rw [Finset.sum_congr rfl (fun i hi => hw i (by have := Finset.mem_range.mp hi; omega)),
        hw ix hix, show k * sizeX = k * sizeX + 0 from rfl, hw 0 (by omega)]
      simp only [Finset.sum_const, Finset.card_range, nsmul_eq_mul, Int.cast_natCast]
      ring
    · subst hKg
      simp [MeshMap.uniform, hu, TKernel.uniform, GaussianDensity.new] at hunif
  refine ⟨hptr, hread, hfirst, ?_, hclosed⟩
  cases hunif : m.uniform
  · simpa using BlockInfo.delta_nonuniform (-1) (m.get_grid_spacing (k : Int)) (ix : Int)
      (fun i => m.m_grid_spacing.getD (k * sizeX + i) 0) (by positivity)
      (fun i hi => hread i (by omega))
  · rw [BlockInfo.delta_uniform]
    simpa using hclosed hunif

end BlockAxis

section BlockFromMesh

variable {α : Type} [LinearOrderedField α] {sizeX : Nat}

/-- The record built by the mesh constructor of `BlockInfo` once every
accessor call has returned. -/
theorem BlockInfo.ofMeshMap_eq (ID : Int) (idx : Vec3 Int) (mapX mapY mapZ : MeshMap sizeX α)
    (ptr : Nat) (special : Bool) (o0 o1 o2 e0 e1 e2 s0 s1 s2 : α) (g0 g1 g2 : Ptr α)
    (ho0 : mapX.block_origin idx.x = some o0) (ho1 : mapY.block_origin idx.y = some o1)
    (ho2 : mapZ.block_origin idx.z = some o2)
    (he0 : mapX.block_width idx.x = some e0) (he1 : mapY.block_width idx.y = some e1)
    (he2 : mapZ.block_width idx.z = some e2)
    (hg0 : mapX.get_grid_spacing idx.x = some g0) (hg1 : mapY.get_grid_spacing idx.y = some g1)
    (hg2 : mapZ.get_grid_spacing idx.z = some g2)
    (hs0 : BlockInfo.first_spacing mapX.uniform (some g0) = some s0)
    (hs1 : BlockInfo.first_spacing mapY.uniform (some g1) = some s1)
    (hs2 : BlockInfo.first_spacing mapZ.uniform (some g2) = some s2) :
    BlockInfo.ofMeshMap ID idx mapX mapY mapZ ptr special = some
      { blockID := ID, ptrBlock := ptr, special := special,
        index := idx, origin := { x := o0, y := o1, z := o2 },
        h := -1, h_gridpoint := -1,
        grid_spacing := { x := s0, y := s1, z := s2 },
        block_extent := { x := e0, y := e1, z := e2 },
        grid_spacing_x := some g0, grid_spacing_y := some g1, grid_spacing_z := some g2,
        bUniform_X := mapX.uniform, bUniform_Y := mapY.uniform, bUniform_Z := mapZ.uniform } := by
  simp only [BlockInfo.ofMeshMap, ho0, ho1, ho2, he0, he1, he2, hg0, hg1, hg2, hs0, hs1, hs2,
    Option.bind_eq_bind, Option.some_bind, Option.pure_def]

/-- Prefix sum up to a local cell of block `k`, split at the block origin. -/
theorem sum_split_block (w : Nat → α) (xS : α) (s k ix : Nat) :
    (xS + ∑ i ∈ Finset.range (k * s), w i) +
        (∑ i ∈ Finset.range ix, w (k * s + i) + 1 / 2 * w (k * s + ix)) =
      xS + ∑ j ∈ Finset.range (k * s + ix), w j + 1 / 2 * w (k * s + ix) := by
  rw [Finset.sum_range_add]
  ring

end BlockFromMesh

section BlockPosition

variable {α : Type} [LinearOrderedField α]

/-- The block cut from three initialised meshes at block index `(kx, ky, kz)`
and its position query at local indices below `sizeX`, in terms of the cell
widths `m_grid_spacing[i]` of the three meshes. -/
theorem BlockInfo.ofMeshMap_pos (exp : α → α) (sizeX : Nat)
    (xSx xEx : α) (Nx : Nat) (Kx : TKernel α) (gSx gEx : Nat) (gx : Bool)
    (xSy xEy : α) (Ny : Nat) (Ky : TKernel α) (gSy gEy : Nat) (gy : Bool)
    (xSz xEz : α) (Nz : Nat) (Kz : TKernel α) (gSz gEz : Nat) (gz : Bool)
    (mX mY mZ : MeshMap sizeX α) (ghx ghy ghz : List α)
    (hKx : Kx = TKernel.uniformDensity UniformDensity.new ∨
      ∃ A B : α, Kx = TKernel.gaussianDensity (GaussianDensity.new A B))
    (hKy : Ky = TKernel.uniformDensity UniformDensity.new ∨
      ∃ A B : α, Ky = TKernel.gaussianDensity (GaussianDensity.new A B))
    (hKz : Kz = TKernel.uniformDensity UniformDensity.new ∨
      ∃ A B : α, Kz = TKernel.gaussianDensity (GaussianDensity.new A B))
    (hx : (MeshMap.new sizeX xSx xEx Nx).init exp Kx gSx gEx gx = some (mX, ghx))
    (hy : (MeshMap.new sizeX xSy xEy Ny).init exp Ky gSy gEy gy = some (mY, ghy))
    (hz : (MeshMap.new sizeX xSz xEz Nz).init exp Kz gSz gEz gz = some (mZ, ghz))
    (ID : Int) (ptr : Nat) (special : Bool) (kx ky kz ix iy iz : Nat)
    (hkx : kx < Nx) (hky : ky < Ny) (hkz : kz < Nz)
    (hix : ix < sizeX) (hiy : iy < sizeX) (hiz : iz < sizeX) :
    ∃ b : BlockInfo α,
      BlockInfo.ofMeshMap ID { x := (kx : Int), y := (ky : Int), z := (kz : Int) } mX mY mZ
        ptr special = some b ∧
      b.origin = { x := xSx + ∑ i ∈ Finset.range (kx * sizeX), mX.m_grid_spacing.getD i 0,
                   y := xSy + ∑ i ∈ Finset.range (ky * sizeX), mY.m_grid_spacing.getD i 0,
                   z := xSz + ∑ i ∈ Finset.range (kz * sizeX), mZ.m_grid_spacing.getD i 0 } ∧
      b.block_extent =
        { x := ∑ j ∈ Finset.range sizeX, mX.m_grid_spacing.getD (kx * sizeX + j) 0,
          y := ∑ j ∈ Finset.range sizeX, mY.m_grid_spacing.getD (ky * sizeX + j) 0,
          z := ∑ j ∈ Finset.range sizeX, mZ.m_grid_spacing.getD (kz * sizeX + j) 0 } ∧
      b.grid_spacing =
        { x := if mX.uniform = true then mX.m_grid_spacing.getD (kx * sizeX) 0 else -1,
          y := if mY.uniform = true then mY.m_grid_spacing.getD (ky * sizeX) 0 else -1,
          z := if mZ.uniform = true then mZ.m_grid_spacing.getD (kz * sizeX) 0 else -1 } ∧
      b.grid_spacing_x = mX.get_grid_spacing (kx : Int) ∧
      b.grid_spacing_y = mY.get_grid_spacing (ky : Int) ∧
      b.grid_spacing_z = mZ.get_grid_spacing (kz : Int) ∧
      b.bUniform_X = mX.uniform ∧ b.bUniform_Y = mY.uniform ∧ b.bUniform_Z = mZ.uniform ∧
      b.pos (ix : Int) (iy : Int) (iz : Int) = some
        { x := b.origin.x + (∑ i ∈ Finset.range ix, mX.m_grid_spacing.getD (kx * sizeX + i) 0
                + 1 / 2 * mX.m_grid_spacing.getD (kx * sizeX + ix) 0),
          y := b.origin.y + (∑ i ∈ Finset.range iy, mY.m_grid_spacing.getD (ky * sizeX + i) 0
                + 1 / 2 * mY.m_grid_spacing.getD (ky * sizeX + iy) 0),
          z := b.origin.z + (∑ i ∈ Finset.range iz, mZ.m_grid_spacing.getD (kz * sizeX + i) 0
                + 1 / 2 * mZ.m_grid_spacing.getD (kz * sizeX + iz) 0) } := by
  obtain ⟨_, hbX, hoX⟩ := MeshMap.init_widths exp xSx xEx Nx Kx gSx gEx gx mX ghx hx
  obtain ⟨_, hbY, hoY⟩ := MeshMap.init_widths exp xSy xEy Ny Ky gSy gEy gy mY ghy hy
  obtain ⟨_, hbZ, hoZ⟩ := MeshMap.init_widths exp xSz xEz Nz Kz gSz gEz gz mZ ghz hz
  obtain ⟨hpX, _, hfX, hdX, _⟩ :=
    MeshMap.axis_position exp xSx xEx Nx Kx gSx gEx gx mX ghx hKx hx kx ix hkx hix
  obtain ⟨hpY, _, hfY, hdY, _⟩ :=
    MeshMap.axis_position exp xSy xEy Ny Ky gSy gEy gy mY ghy hKy hy ky iy hky hiy
  obtain ⟨hpZ, _, hfZ, hdZ, _⟩ :=
    MeshMap.axis_position exp xSz xEz Nz Kz gSz gEz gz mZ ghz hKz hz kz iz hkz hiz
  have hb := BlockInfo.ofMeshMap_eq ID { x := (kx : Int), y := (ky : Int), z := (kz : Int) }
    mX mY mZ ptr special _ _ _ _ _ _ _ _ _ _ _ _ (hoX kx hkx) (hoY ky hky) (hoZ kz hkz)
    (hbX kx hkx) (hbY ky hky) (hbZ kz hkz) hpX hpY hpZ (hpX ▸ hfX) (hpY ▸ hfY) (hpZ ▸ hfZ)
  refine ⟨_, hb, rfl, rfl, rfl, hpX.symm, hpY.symm, hpZ.symm, rfl, rfl, rfl, ?_⟩
  rw [hpX] at hdX
  rw [hpY] at hdY
  rw [hpZ] at hdZ
  simp only [BlockInfo.pos, hdX, hdY, hdZ, Option.bind_eq_bind, Option.some_bind, Option.pure_def]

end BlockPosition

section C3

variable {α : Type} [LinearOrderedField α]

/-- C3 (block-local position agrees with the global mesh).  Take three meshes
initialised with `UniformDensity` or `GaussianDensity(A, B)`, `A > 0`,
`B > 0`, a block index `(kx, ky, kz)` inside the meshes and local indices
`ix, iy, iz < sizeX`.  The `BlockInfo` built from the meshes exists, `pos`
returns, and on every axis the coordinate is
`xS + (sum of cell_width(j), j < k*sizeX + ix) + 0.5 * cell_width(k*sizeX + ix)`,
the centre of the global cell `k*sizeX + ix`, on the uniform and on the
non-uniform branch alike. -/
theorem C3_block_position_global (exp : α → α) (sizeX : Nat)
    (xSx xEx : α) (Nx : Nat) (Kx : TKernel α) (gSx gEx : Nat) (gx : Bool)
    (xSy xEy : α) (Ny : Nat) (Ky : TKernel α) (gSy gEy : Nat) (gy : Bool)
    (xSz xEz : α) (Nz : Nat) (Kz : TKernel α) (gSz gEz : Nat) (gz : Bool)
    (mX mY mZ : MeshMap sizeX α) (ghx ghy ghz : List α)
    (hKx : Kx = TKernel.uniformDensity UniformDensity.new ∨
      ∃ A B : α, 0 < A ∧ 0 < B ∧ Kx = TKernel.gaussianDensity (GaussianDensity.new A B))
    (hKy : Ky = TKernel.uniformDensity UniformDensity.new ∨
      ∃ A B : α, 0 < A ∧ 0 < B ∧ Ky = TKernel.gaussianDensity (GaussianDensity.new A B))
    (hKz : Kz = TKernel.uniformDensity UniformDensity.new ∨
      ∃ A B : α, 0 < A ∧ 0 < B ∧ Kz = TKernel.gaussianDensity (GaussianDensity.new A B))
    (hx : (MeshMap.new sizeX xSx xEx Nx).init exp Kx gSx gEx gx = some (mX, ghx))
    (hy : (MeshMap.new sizeX xSy xEy Ny).init exp Ky gSy gEy gy = some (mY, ghy))
    (hz : (MeshMap.new sizeX xSz xEz Nz).init exp Kz gSz gEz gz = some (mZ, ghz))
    (ID : Int) (ptr : Nat) (special : Bool) (kx ky kz ix iy iz : Nat)
    (hkx : kx < Nx) (hky : ky < Ny) (hkz : kz < Nz)
    (hix : ix < sizeX) (hiy : iy < sizeX) (hiz : iz < sizeX) :
    ∃ wx wy wz : Nat → α,
      (∀ i, i < mX.ncells → mX.cell_width (i : Int) = some (wx i)) ∧
      (∀ i, i < mY.ncells → mY.cell_width (i : Int) = some (wy i)) ∧
      (∀ i, i < mZ.ncells → mZ.cell_width (i : Int) = some (wz i)) ∧
      kx * sizeX + ix < mX.ncells ∧ ky * sizeX + iy < mY.ncells ∧ kz * sizeX + iz < mZ.ncells ∧
      ∃ (b : BlockInfo α) (p : Vec3 α),
        BlockInfo.ofMeshMap ID { x := (kx : Int), y := (ky : Int), z := (kz : Int) } mX mY mZ
          ptr special = some b ∧
        b.pos (ix : Int) (iy : Int) (iz : Int) = some p ∧
        p.x = xSx + (∑ j ∈ Finset.range (kx * sizeX + ix), wx j) + 1 / 2 * wx (kx * sizeX + ix) ∧
        p.y = xSy + (∑ j ∈ Finset.range (ky * sizeX + iy), wy j) + 1 / 2 * wy (ky * sizeX + iy) ∧
        p.z = xSz + (∑ j ∈ Finset.range (kz * sizeX + iz), wz j) + 1 / 2 * wz (kz * sizeX + iz) := by
  have weaken : ∀ K : TKernel α, (K = TKernel.uniformDensity UniformDensity.new ∨
      ∃ A B : α, 0 < A ∧ 0 < B ∧ K = TKernel.gaussianDensity (GaussianDensity.new A B)) →
      (K = TKernel.uniformDensity UniformDensity.new ∨
        ∃ A B : α, K = TKernel.gaussianDensity (GaussianDensity.new A B)) := by
    rintro K (h | ⟨A, B, _, _, h⟩)
    · exact Or.inl h
    · exact Or.inr ⟨A, B, h⟩
  have inside : ∀ (N k i : Nat), k < N → i < sizeX → k * sizeX + i < N * sizeX := by
    intro N k i hk hi
    have h1 : (k + 1) * sizeX ≤ N * sizeX := Nat.mul_le_mul_right _ hk
    rw [Nat.succ_mul] at h1
    omega
  obtain ⟨_, _, _, _, _, _, hNcX, _⟩ := MeshMap.init_post exp xSx xEx Nx Kx gSx gEx gx mX ghx hx
  obtain ⟨_, _, _, _, _, _, hNcY, _⟩ := MeshMap.init_post exp xSy xEy Ny Ky gSy gEy gy mY ghy hy
  obtain ⟨_, _, _, _, _, _, hNcZ, _⟩ := MeshMap.init_post exp xSz xEz Nz Kz gSz gEz gz mZ ghz hz
  obtain ⟨hcX, _, _⟩ := MeshMap.init_widths exp xSx xEx Nx Kx gSx gEx gx mX ghx hx
  obtain ⟨hcY, _, _⟩ := MeshMap.init_widths exp xSy xEy Ny Ky gSy gEy gy mY ghy hy
  obtain ⟨hcZ, _, _⟩ := MeshMap.init_widths exp xSz xEz Nz Kz gSz gEz gz mZ ghz hz
  obtain ⟨b, hb, hor, _, _, _, _, _, _, _, _, hp⟩ :=
    BlockInfo.ofMeshMap_pos exp sizeX xSx xEx Nx Kx gSx gEx gx xSy xEy Ny Ky gSy gEy gy
      xSz xEz Nz Kz gSz gEz gz mX mY mZ ghx ghy ghz (weaken _ hKx) (weaken _ hKy) (weaken _ hKz)
      hx hy hz ID ptr special kx ky kz ix iy iz hkx hky hkz hix hiy hiz
  refine ⟨fun i => mX.m_grid_spacing.getD i 0, fun i => mY.m_grid_spacing.getD i 0,
    fun i => mZ.m_grid_spacing.getD i 0,
    fun i hi => hcX i (by simpa [MeshMap.ncells, hNcX] using hi),
    fun i hi => hcY i (by simpa [MeshMap.ncells, hNcY] using hi),
    fun i hi => hcZ i (by simpa [MeshMap.ncells, hNcZ] using hi),
    by simpa [MeshMap.ncells, hNcX] using inside Nx kx ix hkx hix,
    by simpa [MeshMap.ncells, hNcY] using inside Ny ky iy hky hiy,
    by simpa [MeshMap.ncells, hNcZ] using inside Nz kz iz hkz hiz,
    b, _, hb, hp, ?_, ?_, ?_⟩
  · rw [hor]; exact sum_split_block _ xSx sizeX kx ix
  · rw [hor]; exact sum_split_block _ xSy sizeX ky iy
  · rw [hor]; exact sum_split_block _ xSz sizeX kz iz

end C3

section C3Witness

/-- C3 at the concrete scenario: the uniform mesh on `[0, 1]` on all three
axes, block `(0, 1, 3)`, local indices `(0, 1, 1)`. -/
theorem C3_block_position_global_witness :
    ((((TKernel.uniformDensity UniformDensity.new : TKernel ℝ) =
          TKernel.uniformDensity UniformDensity.new ∨
        ∃ A B : ℝ, 0 < A ∧ 0 < B ∧ TKernel.uniformDensity UniformDensity.new =
          TKernel.gaussianDensity (GaussianDensity.new A B)) ∧
      (MeshMap.new 2 (0 : ℝ) 1 4).init Real.exp (TKernel.uniformDensity UniformDensity.new)
        0 0 false = some (exampleMesh ℝ, [])) ∧
      (0 < 4 ∧ 1 < 4 ∧ 3 < 4) ∧ (0 < 2 ∧ 1 < 2 ∧ 1 < 2)) ∧
    ∃ wx wy wz : Nat → ℝ,
      (∀ i, i < (exampleMesh ℝ).ncells → (exampleMesh ℝ).cell_width (i : Int) = some (wx i)) ∧
      (∀ i, i < (exampleMesh ℝ).ncells → (exampleMesh ℝ).cell_width (i : Int) = some (wy i)) ∧
      (∀ i, i < (exampleMesh ℝ).ncells → (exampleMesh ℝ).cell_width (i : Int) = some (wz i)) ∧
      0 * 2 + 0 < (exampleMesh ℝ).ncells ∧ 1 * 2 + 1 < (exampleMesh ℝ).ncells ∧
      3 * 2 + 1 < (exampleMesh ℝ).ncells ∧
      ∃ (b : BlockInfo ℝ) (p : Vec3 ℝ),
        BlockInfo.ofMeshMap 0 { x := ((0 : Nat) : Int), y := ((1 : Nat) : Int), z := ((3 : Nat) : Int) }
          (exampleMesh ℝ) (exampleMesh ℝ) (exampleMesh ℝ) 0 false = some b ∧
        b.pos ((0 : Nat) : Int) ((1 : Nat) : Int) ((1 : Nat) : Int) = some p ∧
        p.x = 0 + (∑ j ∈ Finset.range (0 * 2 + 0), wx j) + 1 / 2 * wx (0 * 2 + 0) ∧
        p.y = 0 + (∑ j ∈ Finset.range (1 * 2 + 1), wy j) + 1 / 2 * wy (1 * 2 + 1) ∧
        p.z = 0 + (∑ j ∈ Finset.range (3 * 2 + 1), wz j) + 1 / 2 * wz (3 * 2 + 1) :=
  ⟨⟨⟨Or.inl rfl, exampleMesh_init Real.exp⟩, ⟨by decide, by decide, by decide⟩,
      ⟨by decide, by decide, by decide⟩⟩,
    C3_block_position_global Real.exp 2 0 1 4 _ 0 0 false 0 1 4 _ 0 0 false 0 1 4 _ 0 0 false
      _ _ _ _ _ _ (Or.inl rfl) (Or.inl rfl) (Or.inl rfl)
      (exampleMesh_init Real.exp) (exampleMesh_init Real.exp) (exampleMesh_init Real.exp)
      0 0 false 0 1 3 0 1 1 (by decide) (by decide) (by decide) (by decide) (by decide)
      (by decide)⟩

end C3Witness

section C9

variable {α : Type} [LinearOrderedField α]

/-- C9 (uniform closed form matches the summation path).  Take three meshes
initialised with `UniformDensity`, the `BlockInfo` built from them at a block
index inside the meshes and local indices `ix, iy, iz < sizeX`.  All three
uniformity flags are set, so `pos` takes the closed-form branch and returns
`origin + grid_spacing * (index + 0.5)` on every axis; this equals
`origin + (slice[0] + ... + slice[index-1]) + 0.5 * slice[index]` for the
block's slice of cell widths, and it is what `pos` returns on the same record
with the flags cleared (the summation branch). -/
theorem C9_uniform_closed_form (exp : α → α) (sizeX : Nat)
    (xSx xEx : α) (Nx : Nat) (gSx gEx : Nat) (gx : Bool)
    (xSy xEy : α) (Ny : Nat) (gSy gEy : Nat) (gy : Bool)
    (xSz xEz : α) (Nz : Nat) (gSz gEz : Nat) (gz : Bool)
    (mX mY mZ : MeshMap sizeX α) (ghx ghy ghz : List α)
    (hx : (MeshMap.new sizeX xSx xEx Nx).init exp (TKernel.uniformDensity UniformDensity.new)
      gSx gEx gx = some (mX, ghx))
    (hy : (MeshMap.new sizeX xSy xEy Ny).init exp (TKernel.uniformDensity UniformDensity.new)
      gSy gEy gy = some (mY, ghy))
    (hz : (MeshMap.new sizeX xSz xEz Nz).init exp (TKernel.uniformDensity UniformDensity.new)
      gSz gEz gz = some (mZ, ghz))
    (ID : Int) (ptr : Nat) (special : Bool) (kx ky kz ix iy iz : Nat)
    (hkx : kx < Nx) (hky : ky < Ny) (hkz : kz < Nz)
    (hix : ix < sizeX) (hiy : iy < sizeX) (hiz : iz < sizeX) :
    ∃ (b : BlockInfo α) (p : Vec3 α) (sx sy sz : Nat → α),
      BlockInfo.ofMeshMap ID { x := (kx : Int), y := (ky : Int), z := (kz : Int) } mX mY mZ
        ptr special = some b ∧
      (b.bUniform_X = true ∧ b.bUniform_Y = true ∧ b.bUniform_Z = true) ∧
      (∀ i, i < sizeX → Ptr.read b.grid_spacing_x (i : Int) = some (sx i) ∧
        mX.cell_width ((kx * sizeX + i : Nat) : Int) = some (sx i)) ∧
      (∀ i, i < sizeX → Ptr.read b.grid_spacing_y (i : Int) = some (sy i) ∧
        mY.cell_width ((ky * sizeX + i : Nat) : Int) = some (sy i)) ∧
      (∀ i, i < sizeX → Ptr.read b.grid_spacing_z (i : Int) = some (sz i) ∧
        mZ.cell_width ((kz * sizeX + i : Nat) : Int) = some (sz i)) ∧
      b.pos (ix : Int) (iy : Int) (iz : Int) = some p ∧
      p.x = b.origin.x + b.grid_spacing.x * (((ix : Int) : α) + 1 / 2) ∧
      p.y = b.origin.y + b.grid_spacing.y * (((iy : Int) : α) + 1 / 2) ∧
      p.z = b.origin.z + b.grid_spacing.z * (((iz : Int) : α) + 1 / 2) ∧
      p.x = b.origin.x + ((∑ i ∈ Finset.range ix, sx i) + 1 / 2 * sx ix) ∧
      p.y = b.origin.y + ((∑ i ∈ Finset.range iy, sy i) + 1 / 2 * sy iy) ∧
      p.z = b.origin.z + ((∑ i ∈ Finset.range iz, sz i) + 1 / 2 * sz iz) ∧
      ({ b with bUniform_X := false, bUniform_Y := false, bUniform_Z := false } :
        BlockInfo α).pos (ix : Int) (iy : Int) (iz : Int) = some p := by
  have inside : ∀ (N k i : Nat), k < N → i < sizeX → k * sizeX + i < N * sizeX := by
    intro N k i hk hi
    have h1 : (k + 1) * sizeX ≤ N * sizeX := Nat.mul_le_mul_right _ hk
    rw [Nat.succ_mul] at h1
    omega
  obtain ⟨_, _, _, _, _, _, _, huX, _⟩ := MeshMap.init_post exp xSx xEx Nx _ gSx gEx gx mX ghx hx
  obtain ⟨_, _, _, _, _, _, _, huY, _⟩ := MeshMap.init_post exp xSy xEy Ny _ gSy gEy gy mY ghy hy
  obtain ⟨_, _, _, _, _, _, _, huZ, _⟩ := MeshMap.init_post exp xSz xEz Nz _ gSz gEz gz mZ ghz hz
  have hUX : mX.uniform = true := huX
  have hUY : mY.uniform = true := huY
  have hUZ : mZ.uniform = true := huZ
  obtain ⟨hcX, _, _⟩ := MeshMap.init_widths exp xSx xEx Nx _ gSx gEx gx mX ghx hx
  obtain ⟨hcY, _, _⟩ := MeshMap.init_widths exp xSy xEy Ny _ gSy gEy gy mY ghy hy
  obtain ⟨hcZ, _, _⟩ := MeshMap.init_widths exp xSz xEz Nz _ gSz gEz gz mZ ghz hz
  obtain ⟨_, hrX, _, _, hclX⟩ :=
    MeshMap.axis_position exp xSx xEx Nx _ gSx gEx gx mX ghx (Or.inl rfl) hx kx ix hkx hix
  obtain ⟨_, hrY, _, _, hclY⟩ :=
    MeshMap.axis_position exp xSy xEy Ny _ gSy gEy gy mY ghy (Or.inl rfl) hy ky iy hky hiy
  obtain ⟨_, hrZ, _, _, hclZ⟩ :=
    MeshMap.axis_position exp xSz xEz Nz _ gSz gEz gz mZ ghz (Or.inl rfl) hz kz iz hkz hiz
  obtain ⟨b, hb, _, _, hgs, hgX, hgY, hgZ, hbX, hbY, hbZ, hp⟩ :=
    BlockInfo.ofMeshMap_pos exp sizeX xSx xEx Nx _ gSx gEx gx xSy xEy Ny _ gSy gEy gy
      xSz xEz Nz _ gSz gEz gz mX mY mZ ghx ghy ghz (Or.inl rfl) (Or.inl rfl) (Or.inl rfl)
      hx hy hz ID ptr special kx ky kz ix iy iz hkx hky hkz hix hiy hiz
  have hdX := BlockInfo.delta_nonuniform b.grid_spacing.x b.grid_spacing_x (ix : Int)
    (fun i => mX.m_grid_spacing.getD (kx * sizeX + i) 0) (by positivity)
    (fun i hi => by rw [hgX]; exact hrX i (by omega))
  have hdY := BlockInfo.delta_nonuniform b.grid_spacing.y b.grid_spacing_y (iy : Int)
    (fun i => mY.m_grid_spacing.getD (ky * sizeX + i) 0) (by positivity)
    (fun i hi => by rw [hgY]; exact hrY i (by omega))
  have hdZ := BlockInfo.delta_nonuniform b.grid_spacing.z b.grid_spacing_z (iz : Int)
    (fun i => mZ.m_grid_spacing.getD (kz * sizeX + i) 0) (by positivity)
    (fun i hi => by rw [hgZ]; exact hrZ i (by omega))
  simp only [Int.toNat_ofNat] at hdX hdY hdZ
  refine ⟨b, _, fun i => mX.m_grid_spacing.getD (kx * sizeX + i) 0,
    fun i => mY.m_grid_spacing.getD (ky * sizeX + i) 0,
    fun i => mZ.m_grid_spacing.getD (kz * sizeX + i) 0, hb,
    ⟨hbX.trans hUX, hbY.trans hUY, hbZ.trans hUZ⟩,
    fun i hi => ⟨by rw [hgX]; exact hrX i hi, hcX _ (inside Nx kx i hkx hi)⟩,
    fun i hi => ⟨by rw [hgY]; exact hrY i hi, hcY _ (inside Ny ky i hky hi)⟩,
    fun i hi => ⟨by rw [hgZ]; exact hrZ i hi, hcZ _ (inside Nz kz i hkz hi)⟩,
    hp, ?_, ?_, ?_, rfl, rfl, rfl, ?_⟩
  · rw [hgs]; simp only [hUX, if_true]; rw [hclX hUX]
  · rw [hgs]; simp only [hUY, if_true]; rw [hclY hUY]
  · rw [hgs]; simp only [hUZ, if_true]; rw [hclZ hUZ]
  · simp only [BlockInfo.pos, hdX, hdY, hdZ, Option.bind_eq_bind, Option.some_bind,
      Option.pure_def]

end C9

section C9Witness

/-- C9 at the concrete scenario: block `(0, 1, 3)` of the uniform mesh on
`[0, 1]`, local indices `(0, 1, 1)`. -/
theorem C9_uniform_closed_form_witness :
    ((MeshMap.new 2 (0 : ℝ) 1 4).init Real.exp (TKernel.uniformDensity UniformDensity.new)
        0 0 false = some (exampleMesh ℝ, []) ∧
      (0 < 4 ∧ 1 < 4 ∧ 3 < 4) ∧ (0 < 2 ∧ 1 < 2 ∧ 1 < 2)) ∧
    ∃ (b : BlockInfo ℝ) (p : Vec3 ℝ) (sx sy sz : Nat → ℝ),
      BlockInfo.ofMeshMap 0 { x := ((0 : Nat) : Int), y := ((1 : Nat) : Int), z := ((3 : Nat) : Int) }
        (exampleMesh ℝ) (exampleMesh ℝ) (exampleMesh ℝ) 0 false = some b ∧
      (b.bUniform_X = true ∧ b.bUniform_Y = true ∧ b.bUniform_Z = true) ∧
      (∀ i : Nat, i < 2 → Ptr.read b.grid_spacing_x (i : Int) = some (sx i) ∧
        (exampleMesh ℝ).cell_width ((0 * 2 + i : Nat) : Int) = some (sx i)) ∧
      (∀ i : Nat, i < 2 → Ptr.read b.grid_spacing_y (i : Int) = some (sy i) ∧
        (exampleMesh ℝ).cell_width ((1 * 2 + i : Nat) : Int) = some (sy i)) ∧
      (∀ i : Nat, i < 2 → Ptr.read b.grid_spacing_z (i : Int) = some (sz i) ∧
        (exampleMesh ℝ).cell_width ((3 * 2 + i : Nat) : Int) = some (sz i)) ∧
      b.pos ((0 : Nat) : Int) ((1 : Nat) : Int) ((1 : Nat) : Int) = some p ∧
      p.x = b.origin.x + b.grid_spacing.x * ((((0 : Nat) : Int) : ℝ) + 1 / 2) ∧
      p.y = b.origin.y + b.grid_spacing.y * ((((1 : Nat) : Int) : ℝ) + 1 / 2) ∧
      p.z = b.origin.z + b.grid_spacing.z * ((((1 : Nat) : Int) : ℝ) + 1 / 2) ∧
      p.x = b.origin.x + ((∑ i ∈ Finset.range 0, sx i) + 1 / 2 * sx 0) ∧
      p.y = b.origin.y + ((∑ i ∈ Finset.range 1, sy i) + 1 / 2 * sy 1) ∧
      p.z = b.origin.z + ((∑ i ∈ Finset.range 1, sz i) + 1 / 2 * sz 1) ∧
      ({ b with bUniform_X := false, bUniform_Y := false, bUniform_Z := false } :
        BlockInfo ℝ).pos ((0 : Nat) : Int) ((1 : Nat) : Int) ((1 : Nat) : Int) = some p :=
  ⟨⟨exampleMesh_init Real.exp, ⟨by decide, by decide, by decide⟩,
      ⟨by decide, by decide, by decide⟩⟩,
    C9_uniform_closed_form Real.exp 2 0 1 4 0 0 false 0 1 4 0 0 false 0 1 4 0 0 false
      _ _ _ _ _ _
      (exampleMesh_init Real.exp) (exampleMesh_init Real.exp) (exampleMesh_init Real.exp)
      0 0 false 0 1 3 0 1 1 (by decide) (by decide) (by decide) (by decide) (by decide)
      (by decide)⟩

end C9Witness

section C10

variable {α : Type} [LinearOrderedField α]

/-- C10 (concrete scenario).  A mesh on `[0, 1]` with four blocks of two cells,
initialised with `UniformDensity`: `init` returns; `Ncells = 8`; every
`cell_width(i)` is `0.125`; every `block_width(k)` is `0.25`;
`block_origin(k)` is `0, 0.25, 0.5, 0.75`; and for the `BlockInfo` of block
`(0, 0, 0)`, `pos(p, 0, 0, 0)` returns `origin + 0.0625` on every axis. -/
theorem C10_concrete_scenario (exp : α → α) :
    ∃ (m : MeshMap 2 α) (gh : List α),
      (MeshMap.new 2 (0 : α) 1 4).init exp (TKernel.uniformDensity UniformDensity.new)
        0 0 false = some (m, gh) ∧
      m.ncells = 8 ∧ m.nblocks = 4 ∧
      (∀ i : Nat, i < 8 → m.cell_width (i : Int) = some (1 / 8)) ∧
      (∀ k : Nat, k < 4 → m.block_width (k : Int) = some (1 / 4)) ∧
      m.block_origin 0 = some 0 ∧ m.block_origin 1 = some (1 / 4) ∧
      m.block_origin 2 = some (1 / 2) ∧ m.block_origin 3 = some (3 / 4) ∧
      ∃ (b : BlockInfo α) (p : Vec3 α),
        BlockInfo.ofMeshMap 0 { x := 0, y := 0, z := 0 } m m m 0 false = some b ∧
        b.pos 0 0 0 = some p ∧
        p.x = b.origin.x + 1 / 16 ∧ p.y = b.origin.y + 1 / 16 ∧ p.z = b.origin.z + 1 / 16 := by
  refine ⟨exampleMesh α, [], exampleMesh_init exp, rfl, rfl, ?_, ?_, ?_, ?_, ?_, ?_, ?_⟩
  · intro i hi
    interval_cases i <;> simp [MeshMap.cell_width, exampleMesh]
  · intro k hk
    interval_cases k <;> simp [MeshMap.block_width, exampleMesh]
  · simp [MeshMap.block_origin, exampleMesh, accumulate]
  · norm_num [MeshMap.block_origin, exampleMesh, accumulate]
  · norm_num [MeshMap.block_origin, exampleMesh, accumulate, Int.toNat]
  · norm_num [MeshMap.block_origin, exampleMesh, accumulate, Int.toNat]
  · obtain ⟨b, hb, _, _, _, _, _, _, _, _, _, hp⟩ :=
      BlockInfo.ofMeshMap_pos exp 2 0 1 4 _ 0 0 false 0 1 4 _ 0 0 false 0 1 4 _ 0 0 false
        _ _ _ _ _ _ (Or.inl rfl) (Or.inl rfl) (Or.inl rfl)
        (exampleMesh_init exp) (exampleMesh_init exp) (exampleMesh_init exp)
        0 0 false 0 0 0 0 0 0 (by decide) (by decide) (by decide) (by decide) (by decide)
        (by decide)
    refine ⟨b, _, hb, hp, ?_, ?_, ?_⟩ <;> norm_num [exampleMesh]

end C10

/-! ## The Gaussian profile on two cells -/

section GaussianTwoCells

/-- Two interior cells without ghosts: the raw weights of cell `0` and cell `1`
differ, because the profile is centred at `(total_cells + 1) / 2 = 1.5` while
the cells sit at positions `0` and `1`. -/
theorem GaussianDensity.weight_two_cells_ne (A B : ℝ) (hA : 0 < A) (hB : 0 < B) :
    (GaussianDensity.new A B).weight Real.exp 2 0 ≠
      (GaussianDensity.new A B).weight Real.exp 2 1 := by
  intro h
  simp only [GaussianDensity.weight, GaussianDensity.new, UINT_MOD] at h
  norm_num at h
  rcases h with h | h
  · exact hB.ne' h
  · exact hA.ne' h

/-- Two interior cells behind two start ghosts: the profile on four cells is
centred at `2.5`, midway between the interior positions `2` and `3`. -/
theorem GaussianDensity.weight_four_cells_eq (A B : ℝ) :
    (GaussianDensity.new A B).weight Real.exp 4 2 =
      (GaussianDensity.new A B).weight Real.exp 4 3 := by
  simp only [GaussianDensity.weight, GaussianDensity.new, UINT_MOD]
  norm_num

/-- Two interior cells without ghosts get different widths. -/
theorem GaussianDensity.two_cells_ary_ne (A B : ℝ) (hA : 0 < A) (hB : 0 < B) (xS xE : ℝ)
    (hne : xS ≠ xE) (g : Bool) (sp : Spacing ℝ)
    (h : (GaussianDensity.new A B).compute_spacing Real.exp xS xE 2 0 0 g = some sp) :
    ∃ a0 a1 : ℝ, sp.ary[0]? = some a0 ∧ sp.ary[1]? = some a1 ∧ a0 ≠ a1 := by
  obtain ⟨_, hv⟩ := GaussianDensity.gaussian_spacing_ary Real.exp _ xS xE 2 0 0 g sp h
  have hd := GaussianDensity.ducky_eq Real.exp (GaussianDensity.new A B) 2 0 0 (by decide)
  have hpos : 0 < ∑ i ∈ Finset.range 2,
      (GaussianDensity.new A B).weight Real.exp (GaussianDensity.total_cells 2 0 0) (i + 0) :=
    Finset.sum_pos (fun i _ => GaussianDensity.weight_pos Real.exp Real.exp_pos _ hA _ _)
      ⟨0, Finset.mem_range.mpr (by decide)⟩
  have hs : (xE - xS) / (GaussianDensity.weightLoop Real.exp (GaussianDensity.new A B) 2 0 0
      (GaussianDensity.total_cells 2 0 0)).2 ≠ 0 := by
    rw [hd]
    exact div_ne_zero (sub_ne_zero.mpr (Ne.symm hne)) hpos.ne'
  refine ⟨_, _, (hv 0 (by decide)).2, (hv 1 (by decide)).2, ?_⟩
  intro heq
  have h2 := mul_right_cancel₀ hs heq
  exact GaussianDensity.weight_two_cells_ne A B hA hB h2

/-- Two interior cells behind two start ghosts get equal widths. -/
theorem GaussianDensity.two_cells_shifted_ary_eq (A B : ℝ) (xS xE : ℝ) (g : Bool)
    (sp : Spacing ℝ)
    (h : (GaussianDensity.new A B).compute_spacing Real.exp xS xE 2 2 0 g = some sp) :
    sp.ary[0]? = sp.ary[1]? := by
  obtain ⟨_, hv⟩ := GaussianDensity.gaussian_spacing_ary Real.exp _ xS xE 2 2 0 g sp h
  rw [(hv 0 (by decide)).2, (hv 1 (by decide)).2]
  have := GaussianDensity.weight_four_cells_eq A B
  simp only [GaussianDensity.total_cells, UINT_MOD] at *
  norm_num
  left
  exact this

end GaussianTwoCells

/-! ## Ghost arguments -/

section GhostIndependence

variable {α : Type} [LinearOrderedField α]

/-- C7 (amended: `UniformDensity` only).  For fixed `xS`, `xE`, `ncells` the
interior widths written by `UniformDensity::compute_spacing` are the same for
all ghost counts and with or without a ghost buffer, and so is the mesh that
`MeshMap::init` produces (hence every `cell_width(i)`); only the ghost output
differs.  On `[0, 10]` with ten cells the widths are ten times `1`, with
`ghostS = ghostE = 3` as with `ghostS = ghostE = 0`. -/
theorem C7_uniform_ghost_independence (k : UniformDensity) (xS xE : α)
    (ncells ghostS ghostE ghostS' ghostE' : Nat) (g g' : Bool) :
    (∃ (ary gh gh' : List α), ary.length = ncells ∧
      k.compute_spacing xS xE ncells ghostS ghostE g = some { ary := ary, ghost_spacing := gh } ∧
      k.compute_spacing xS xE ncells ghostS' ghostE' g'
        = some { ary := ary, ghost_spacing := gh' }) ∧
    (∀ (exp : α → α) (sizeX Nblocks : Nat),
      ((MeshMap.new sizeX xS xE Nblocks).init exp (TKernel.uniformDensity k)
          ghostS ghostE g).map Prod.fst =
        ((MeshMap.new sizeX xS xE Nblocks).init exp (TKernel.uniformDensity k)
          ghostS' ghostE' g').map Prod.fst) ∧
    (UniformDensity.new.compute_spacing (0 : α) 10 10 3 3 true).map Spacing.ary
      = some [1, 1, 1, 1, 1, 1, 1, 1, 1, 1] ∧
    (UniformDensity.new.compute_spacing (0 : α) 10 10 0 0 false).map Spacing.ary
      = some [1, 1, 1, 1, 1, 1, 1, 1, 1, 1] := by
  refine ⟨⟨_, _, _, ?_, rfl, rfl⟩, ?_, ?_, ?_⟩
  · simp
  · intro exp sizeX Nblocks
    have key : ∀ (o : Option (List α)) (F : List α → MeshMap sizeX α) (gh gh' : List α),
        (o.bind (fun a => some (F a, gh))).map Prod.fst =
          (o.bind (fun a => some (F a, gh'))).map Prod.fst := by
      intro o F gh gh'
      cases o <;> rfl
    simp only [MeshMap.init, TKernel.compute_spacing, UniformDensity.compute_spacing,
      Option.bind_eq_bind, Option.some_bind, Option.pure_def]
    by_cases hN : 0 < (MeshMap.new sizeX xS xE Nblocks).m_Nblocks
    · simp only [hN, if_true]
      exact key _ _ _ _
    · simp only [hN, if_false]
  · simp [UniformDensity.compute_spacing, List.replicate]
  · simp [UniformDensity.compute_spacing, List.replicate]

/-- C7 as stated fails for `GaussianDensity`: on `[0, 1]` with two cells,
`A = 1`, `B = 1/4`, the interior widths written with `ghostS = 2, ghostE = 0`
are equal to each other, while those written with `ghostS = ghostE = 0` are
not, so the two runs write different interior widths. -/
theorem C7_counterexample :
    ¬ (((GaussianDensity.new (1 : ℝ) (1 / 4)).compute_spacing Real.exp 0 1 2 0 0 false).map
          Spacing.ary =
        ((GaussianDensity.new (1 : ℝ) (1 / 4)).compute_spacing Real.exp 0 1 2 2 0 false).map
          Spacing.ary) := by
  intro heq
  obtain ⟨sp1, h1⟩ := GaussianDensity.gaussian_spacing_isSome Real.exp
    (GaussianDensity.new (1 : ℝ) (1 / 4)) 0 1 2 0 0 false (by decide)
  obtain ⟨sp2, h2⟩ := GaussianDensity.gaussian_spacing_isSome Real.exp
    (GaussianDensity.new (1 : ℝ) (1 / 4)) 0 1 2 2 0 false (by decide)
  rw [h1, h2] at heq
  simp only [Option.map_some', Option.some.injEq] at heq
  obtain ⟨a0, a1, ha0, ha1, hne⟩ := GaussianDensity.two_cells_ary_ne 1 (1 / 4) (by norm_num)
    (by norm_num) 0 1 (by norm_num) false sp1 h1
  have hsym := GaussianDensity.two_cells_shifted_ary_eq 1 (1 / 4) 0 1 false sp2 h2
  rw [← heq, ha0, ha1] at hsym
  exact hne (Option.some.inj hsym)

/-- C8 at the failing input: `GaussianDensity(1, 1/4)` on `[0, 1]` with the
even cell count `n = 2` and no ghosts on either side.  `compute_spacing`
returns two widths and `ary[0]` differs from `ary[n - 1 - 0] = ary[1]`. -/
theorem C8_gaussian_not_symmetric :
    ∃ (sp : Spacing ℝ) (a0 a1 : ℝ),
      (GaussianDensity.new (1 : ℝ) (1 / 4)).compute_spacing Real.exp 0 1 2 0 0 false = some sp ∧
      sp.ary.length = 2 ∧ sp.ary[0]? = some a0 ∧ sp.ary[2 - 1 - 0]? = some a1 ∧ a0 ≠ a1 := by
  obtain ⟨sp, h⟩ := GaussianDensity.gaussian_spacing_isSome Real.exp
    (GaussianDensity.new (1 : ℝ) (1 / 4)) 0 1 2 0 0 false (by decide)
  obtain ⟨a0, a1, ha0, ha1, hne⟩ := GaussianDensity.two_cells_ary_ne 1 (1 / 4) (by norm_num)
    (by norm_num) 0 1 (by norm_num) false sp h
  exact ⟨sp, a0, a1, h, (GaussianDensity.gaussian_spacing_ary Real.exp _ 0 1 2 0 0 false sp h).1,
    ha0, ha1, hne⟩

end GhostIndependence

section ShiftedSymmetry

variable {α : Type} [LinearOrderedField α]

/-- The raw weights are symmetric about the position `(total_cells + 1) / 2`:
positions `p` and `total_cells + 1 - p` carry the same weight. -/
theorem GaussianDensity.weight_reflect (exp : α → α) (k : GaussianDensity α) (T p : Nat)
    (hT : T + 1 < UINT_MOD) (hp : p ≤ T + 1) :
    k.weight exp T p = k.weight exp T (T + 1 - p) := by
  simp only [GaussianDensity.weight, Nat.mod_eq_of_lt hT]
  congr 4
  rw [Nat.cast_sub hp]
  push_cast
  ring

/-- With `g` ghosts on either side the interior widths written by
`GaussianDensity::compute_spacing` satisfy `ary[i] = ary[n + 1 - i]` for
`2 ≤ i < n`: the profile is symmetric about the interior position
`(n + 1) / 2`, whereas the interior cells `0 .. n - 1` have their midpoint at
`(n - 1) / 2`. -/
theorem GaussianDensity.shifted_symmetry (exp : α → α) (k : GaussianDensity α) (xS xE : α)
    (n g : Nat) (gb : Bool) (sp : Spacing α) (hw : n + g + g + 1 < UINT_MOD)
    (h : k.compute_spacing exp xS xE n g g gb = some sp) (i : Nat) (h2 : 2 ≤ i) (hi : i < n) :
    sp.ary[i]? = sp.ary[n + 1 - i]? := by
  obtain ⟨_, hv⟩ := GaussianDensity.gaussian_spacing_ary exp k xS xE n g g gb sp h
  have hT : GaussianDensity.total_cells n g g = n + g + g := by
    unfold GaussianDensity.total_cells
    exact Nat.mod_eq_of_lt (by omega)
  rw [(hv i hi).2, (hv (n + 1 - i) (by omega)).2, Nat.mod_eq_of_lt (show i + g < UINT_MOD by omega),
    Nat.mod_eq_of_lt (show n + 1 - i + g < UINT_MOD by omega),
    GaussianDensity.weight_reflect exp k _ (i + g) (by rw [hT]; omega) (by rw [hT]; omega)]
  have : GaussianDensity.total_cells n g g + 1 - (i + g) = n + 1 - i + g := by rw [hT]; omega
  rw [this]

end ShiftedSymmetry

/-! ## What the kernels write -/

section UniformWrites

variable {α : Type} [LinearOrderedField α]

/-- C11 (amended: the ghost count is taken modulo `2 ^ 32`).
`UniformDensity::compute_spacing` with `ncells > 0` returns and writes
`ary[i] = (xE - xS) / ncells` for every `i < ncells`.  With a ghost buffer it
writes the same value to `ghost_spacing[i]` exactly for
`i < (ghostS + ghostE) mod 2 ^ 32`, which is every `i < ghostS + ghostE` when
the unsigned sum does not wrap.  Without a ghost buffer nothing but `ary` is
written. -/
theorem C11_uniform_writes (k : UniformDensity) (xS xE : α) (ncells ghostS ghostE : Nat)
    (_hn : 0 < ncells) :
    (∃ sp : Spacing α, k.compute_spacing xS xE ncells ghostS ghostE true = some sp ∧
      sp.ary.length = ncells ∧
      (∀ i, i < ncells → sp.ary[i]? = some ((xE - xS) / (ncells : α))) ∧
      sp.ghost_spacing.length = (ghostS + ghostE) % UINT_MOD ∧
      (∀ i, i < (ghostS + ghostE) % UINT_MOD →
        sp.ghost_spacing[i]? = some ((xE - xS) / (ncells : α))) ∧
      (ghostS + ghostE < UINT_MOD →
        sp.ghost_spacing.length = ghostS + ghostE ∧
        ∀ i, i < ghostS + ghostE → sp.ghost_spacing[i]? = some ((xE - xS) / (ncells : α)))) ∧
    (∃ sp : Spacing α, k.compute_spacing xS xE ncells ghostS ghostE false = some sp ∧
      sp.ary.length = ncells ∧
      (∀ i, i < ncells → sp.ary[i]? = some ((xE - xS) / (ncells : α))) ∧
      sp.ghost_spacing = []) := by
  refine ⟨⟨_, rfl, by simp, fun i hi => by simp [List.getElem?_replicate, hi], by simp,
    fun i hi => by simp [List.getElem?_replicate, hi], fun hw => ?_⟩,
    ⟨_, rfl, by simp, fun i hi => by simp [List.getElem?_replicate, hi], rfl⟩⟩
  rw [Nat.mod_eq_of_lt hw]
  exact ⟨by simp, fun i hi => by simp [List.getElem?_replicate, hi]⟩

/-- C11 (amended) on `[0, 1]` with four cells and three ghosts on either side. -/
theorem C11_uniform_writes_witness :
    0 < 4 ∧
    ((∃ sp : Spacing ℝ, UniformDensity.new.compute_spacing (0 : ℝ) 1 4 3 3 true = some sp ∧
      sp.ary.length = 4 ∧
      (∀ i, i < 4 → sp.ary[i]? = some (((1 : ℝ) - 0) / ((4 : Nat) : ℝ))) ∧
      sp.ghost_spacing.length = (3 + 3) % UINT_MOD ∧
      (∀ i, i < (3 + 3) % UINT_MOD →
        sp.ghost_spacing[i]? = some (((1 : ℝ) - 0) / ((4 : Nat) : ℝ))) ∧
      (3 + 3 < UINT_MOD →
        sp.ghost_spacing.length = 3 + 3 ∧
        ∀ i, i < 3 + 3 → sp.ghost_spacing[i]? = some (((1 : ℝ) - 0) / ((4 : Nat) : ℝ)))) ∧
    (∃ sp : Spacing ℝ, UniformDensity.new.compute_spacing (0 : ℝ) 1 4 3 3 false = some sp ∧
      sp.ary.length = 4 ∧
      (∀ i, i < 4 → sp.ary[i]? = some (((1 : ℝ) - 0) / ((4 : Nat) : ℝ))) ∧
      sp.ghost_spacing = [])) :=
  ⟨by decide, C11_uniform_writes UniformDensity.new 0 1 4 3 3 (by decide)⟩

/-- C11 as stated fails when `ghostS + ghostE` wraps: with
`ghostS = ghostE = 2 ^ 31` the loop bound `ghostS + ghostE` is the unsigned
value `0`, so with a ghost buffer supplied no ghost entry is written, not
even `ghost_spacing[0]`. -/
theorem C11_counterexample :
    ¬ (∀ sp : Spacing ℝ,
        UniformDensity.new.compute_spacing (0 : ℝ) 1 1 2147483648 2147483648 true = some sp →
        ∀ i, i < 2147483648 + 2147483648 →
          sp.ghost_spacing[i]? = some (((1 : ℝ) - 0) / ((1 : Nat) : ℝ))) := by
  intro hall
  have h := hall _ rfl 0 (by decide)
  simp [UINT_MOD] at h

end UniformWrites

section GaussianWrites

variable {α : Type} [LinearOrderedField α]

/-- Without wrap-around of `total_cells + 1` the weight computed by the code is
the profile value of the specification. -/
theorem GaussianDensity.weight_eq_specProfile (exp : α → α) (k : GaussianDensity α)
    (T p : Nat) (hT : T + 1 < UINT_MOD) :
    k.weight exp T p = GaussianDensity.specProfile exp k.A k.B T p := by
  simp only [GaussianDensity.weight, GaussianDensity.specProfile, Nat.mod_eq_of_lt hT]
  congr 4
  push_cast
  ring

/-- What a successful run of `GaussianDensity::compute_spacing` wrote to the
ghost buffer. -/
theorem GaussianDensity.gaussian_spacing_ghost (exp : α → α) (k : GaussianDensity α)
    (xS xE : α) (ncells ghostS ghostE : Nat) (g : Bool) (sp : Spacing α)
    (h : k.compute_spacing exp xS xE ncells ghostS ghostE g = some sp) :
    (g = false → sp.ghost_spacing = []) ∧
    (g = true → sp.ghost_spacing.length = ghostS + ghostE ∧
      (∀ i, i < ghostS → i < GaussianDensity.total_cells ncells ghostS ghostE ∧
        sp.ghost_spacing[i]? = some
          (k.weight exp (GaussianDensity.total_cells ncells ghostS ghostE) i *
            ((xE - xS) / (GaussianDensity.weightLoop exp k ncells ghostS ghostE
              (GaussianDensity.total_cells ncells ghostS ghostE)).2))) ∧
      (∀ i, i < ghostE →
        (i + ncells + ghostS) % UINT_MOD < GaussianDensity.total_cells ncells ghostS ghostE ∧
        sp.ghost_spacing[ghostS + i]? = some
          (k.weight exp (GaussianDensity.total_cells ncells ghostS ghostE)
              ((i + ncells + ghostS) % UINT_MOD) *
            ((xE - xS) / (GaussianDensity.weightLoop exp k ncells ghostS ghostE
              (GaussianDensity.total_cells ncells ghostS ghostE)).2)))) := by
  simp only [GaussianDensity.compute_spacing, Option.bind_eq_bind, Option.pure_def] at h
  obtain ⟨ary, _, h2⟩ := Option.bind_eq_some.mp h
  constructor
  · intro hg
    subst hg
    simp only [Bool.false_eq_true, if_false, Option.some_bind, Option.some.injEq] at h2
    rw [← h2]
  · intro hg
    subst hg
    simp only [if_true] at h2
    obtain ⟨gs, hgs, h3⟩ := Option.bind_eq_some.mp h2
    obtain ⟨ge, hge, h4⟩ := Option.bind_eq_some.mp h3
    simp only [Option.some_bind, Option.some.injEq] at h4
    obtain ⟨hlS, hrS⟩ := (fill_eq_some_iff _ _ _).mp hgs
    obtain ⟨hlE, hrE⟩ := (fill_eq_some_iff _ _ _).mp hge
    rw [← h4]
    refine ⟨by simp [hlS, hlE], fun i hi => ?_, fun i hi => ?_⟩
    · have hr := hrS i hi
      rw [GaussianDensity.buf_getElem?] at hr
      split_ifs at hr with hlt
      · refine ⟨hlt, ?_⟩
        simp only
        rw [List.getElem?_append_left (by omega), ← hr]
      · rw [List.getElem?_eq_getElem (by omega)] at hr
        cases hr
    · have hr := hrE i hi
      rw [GaussianDensity.buf_getElem?] at hr
      split_ifs at hr with hlt
      · refine ⟨hlt, ?_⟩
        simp only
        rw [List.getElem?_append_right (by omega), hlS, Nat.add_sub_cancel_left, ← hr]
      · rw [List.getElem?_eq_getElem (by omega)] at hr
        cases hr

end GaussianWrites

section C12

variable {α : Type} [LinearOrderedField α]

/-- C12 (the clustered profile).  Let `total = ncells + ghostS + ghostE` with
`total + 1` representable as `unsigned int`, let `w p` be the profile value of
the specification and `s = (xE - xS) / (sum of w p, ghostS ≤ p < ghostS + ncells)`.
`GaussianDensity::compute_spacing` returns and writes `ary[i] = s * w (i + ghostS)`
for `i < ncells`; with a ghost buffer it writes `ghost_spacing[i] = s * w i` for
`i < ghostS` and `ghost_spacing[ghostS + i] = s * w (ghostS + ncells + i)` for
`i < ghostE`, without renormalisation; without a ghost buffer it writes no
ghost entry. -/
theorem C12_gaussian_profile (exp : α → α) (k : GaussianDensity α) (xS xE : α)
    (ncells ghostS ghostE : Nat) (g : Bool)
    (hw : ncells + ghostS + ghostE + 1 < UINT_MOD) :
    ∃ sp : Spacing α, k.compute_spacing exp xS xE ncells ghostS ghostE g = some sp ∧
      sp.ary.length = ncells ∧
      (∀ i, i < ncells → sp.ary[i]? = some
        ((xE - xS) / (∑ p ∈ Finset.Ico ghostS (ghostS + ncells),
            GaussianDensity.specProfile exp k.A k.B (ncells + ghostS + ghostE) p) *
          GaussianDensity.specProfile exp k.A k.B (ncells + ghostS + ghostE) (i + ghostS))) ∧
      (g = true → sp.ghost_spacing.length = ghostS + ghostE ∧
        (∀ i, i < ghostS → sp.ghost_spacing[i]? = some
          ((xE - xS) / (∑ p ∈ Finset.Ico ghostS (ghostS + ncells),
              GaussianDensity.specProfile exp k.A k.B (ncells + ghostS + ghostE) p) *
            GaussianDensity.specProfile exp k.A k.B (ncells + ghostS + ghostE) i)) ∧
        (∀ i, i < ghostE → sp.ghost_spacing[ghostS + i]? = some
          ((xE - xS) / (∑ p ∈ Finset.Ico ghostS (ghostS + ncells),
              GaussianDensity.specProfile exp k.A k.B (ncells + ghostS + ghostE) p) *
            GaussianDensity.specProfile exp k.A k.B (ncells + ghostS + ghostE)
              (ghostS + ncells + i)))) ∧
      (g = false → sp.ghost_spacing = []) := by
  have hw' : ncells + ghostE + ghostS < UINT_MOD := by omega
  obtain ⟨sp, hsp⟩ :=
    GaussianDensity.gaussian_spacing_isSome exp k xS xE ncells ghostS ghostE g hw'
  obtain ⟨hlen, hv⟩ := GaussianDensity.gaussian_spacing_ary exp k xS xE _ _ _ g sp hsp
  obtain ⟨hgf, hgt⟩ := GaussianDensity.gaussian_spacing_ghost exp k xS xE _ _ _ g sp hsp
  have hT : GaussianDensity.total_cells ncells ghostS ghostE = ncells + ghostS + ghostE := by
    unfold GaussianDensity.total_cells
    rw [Nat.mod_eq_of_lt hw']
    omega
  have hwt : ∀ p, k.weight exp (GaussianDensity.total_cells ncells ghostS ghostE) p =
      GaussianDensity.specProfile exp k.A k.B (ncells + ghostS + ghostE) p := by
    intro p
    rw [hT]
    exact GaussianDensity.weight_eq_specProfile exp k _ p hw
  have hd : (GaussianDensity.weightLoop exp k ncells ghostS ghostE
      (GaussianDensity.total_cells ncells ghostS ghostE)).2 =
      ∑ p ∈ Finset.Ico ghostS (ghostS + ncells),
        GaussianDensity.specProfile exp k.A k.B (ncells + ghostS + ghostE) p := by
    rw [GaussianDensity.ducky_eq exp k ncells ghostS ghostE hw', Finset.sum_Ico_eq_sum_range,
      Nat.add_sub_cancel_left]
    exact Finset.sum_congr rfl (fun i _ => by rw [hwt, Nat.add_comm i ghostS])
  refine ⟨sp, hsp, hlen, fun i hi => ?_, fun hg => ?_, hgf⟩
  · rw [(hv i hi).2, Nat.mod_eq_of_lt (by omega), hwt, hd, mul_comm]
  · obtain ⟨hgl, hgS, hgE⟩ := hgt hg
    refine ⟨hgl, fun i hi => ?_, fun i hi => ?_⟩
    · rw [(hgS i hi).2, hwt, hd, mul_comm]
    · rw [(hgE i hi).2, Nat.mod_eq_of_lt (by omega), hwt, hd, mul_comm]
      congr 3
      omega

/-- C12 on `[0, 1]` with four cells, two ghosts on either side and a ghost
buffer, for `GaussianDensity(1, 1/4)`. -/
theorem C12_gaussian_profile_witness :
    4 + 2 + 2 + 1 < UINT_MOD ∧
    ∃ sp : Spacing ℝ,
      (GaussianDensity.new (1 : ℝ) (1 / 4)).compute_spacing Real.exp 0 1 4 2 2 true = some sp ∧
      sp.ary.length = 4 ∧
      (∀ i, i < 4 → sp.ary[i]? = some
        (((1 : ℝ) - 0) / (∑ p ∈ Finset.Ico 2 (2 + 4),
            GaussianDensity.specProfile Real.exp (GaussianDensity.new (1 : ℝ) (1 / 4)).A
              (GaussianDensity.new (1 : ℝ) (1 / 4)).B (4 + 2 + 2) p) *
          GaussianDensity.specProfile Real.exp (GaussianDensity.new (1 : ℝ) (1 / 4)).A
            (GaussianDensity.new (1 : ℝ) (1 / 4)).B (4 + 2 + 2) (i + 2))) ∧
      (true = true → sp.ghost_spacing.length = 2 + 2 ∧
        (∀ i, i < 2 → sp.ghost_spacing[i]? = some
          (((1 : ℝ) - 0) / (∑ p ∈ Finset.Ico 2 (2 + 4),
              GaussianDensity.specProfile Real.exp (GaussianDensity.new (1 : ℝ) (1 / 4)).A
                (GaussianDensity.new (1 : ℝ) (1 / 4)).B (4 + 2 + 2) p) *
            GaussianDensity.specProfile Real.exp (GaussianDensity.new (1 : ℝ) (1 / 4)).A
              (GaussianDensity.new (1 : ℝ) (1 / 4)).B (4 + 2 + 2) i)) ∧
        (∀ i, i < 2 → sp.ghost_spacing[2 + i]? = some
          (((1 : ℝ) - 0) / (∑ p ∈ Finset.Ico 2 (2 + 4),
              GaussianDensity.specProfile Real.exp (GaussianDensity.new (1 : ℝ) (1 / 4)).A
                (GaussianDensity.new (1 : ℝ) (1 / 4)).B (4 + 2 + 2) p) *
            GaussianDensity.specProfile Real.exp (GaussianDensity.new (1 : ℝ) (1 / 4)).A
              (GaussianDensity.new (1 : ℝ) (1 / 4)).B (4 + 2 + 2) (2 + 4 + i)))) ∧
      (true = false → sp.ghost_spacing = []) :=
  ⟨by decide, C12_gaussian_profile Real.exp (GaussianDensity.new 1 (1 / 4)) 0 1 4 2 2 true
    (by decide)⟩

end C12

/-! ## Dependence of the clustered widths on `A` -/

section Sharpness

variable {α : Type} [LinearOrderedField α]

/-- The interior widths of a successful Gaussian run have the form
`ary[i] = s / (A * E (i + ghostS) + 1)` with a positive scale `s` and positive
Gaussian factors `E p` that do not depend on `A`. -/
theorem GaussianDensity.ary_form (exp : α → α) (hexp : ∀ x, 0 < exp x) (B xS xE : α)
    (ncells ghostS ghostE : Nat) (hn : 0 < ncells) (hS : ghostS < UINT_MOD)
    (hE : ghostE < UINT_MOD) (hx : xS < xE) :
    ∃ E : Nat → α, (∀ p, 0 < E p) ∧
      ∀ (A : α) (u g : Bool) (sp : Spacing α), 0 < A →
        GaussianDensity.compute_spacing exp { A := A, B := B, uniform := u } xS xE
          ncells ghostS ghostE g = some sp →
        ∃ s : α, 0 < s ∧ sp.ary.length = ncells ∧
          ∀ i, i < ncells → sp.ary.getD i 0 = 1 / (A * E (i + ghostS) + 1) * s := by
  refine ⟨fun p => exp (-(1 / 2) *
      ((p : α) - (((GaussianDensity.total_cells ncells ghostS ghostE + 1) % UINT_MOD : Nat) : α)
        * (1 / 2)) *
      ((p : α) - (((GaussianDensity.total_cells ncells ghostS ghostE + 1) % UINT_MOD : Nat) : α)
        * (1 / 2)) *
      (1 / (B * (((GaussianDensity.total_cells ncells ghostS ghostE + 1) % UINT_MOD : Nat) : α))) *
      (1 / (B * (((GaussianDensity.total_cells ncells ghostS ghostE + 1) % UINT_MOD : Nat) : α)))),
    fun p => hexp _, ?_⟩
  intro A u g sp hA h
  obtain ⟨hlen, hv⟩ := GaussianDensity.gaussian_spacing_ary exp _ xS xE _ _ _ g sp h
  have hnw := GaussianDensity.no_wrap ncells ghostS ghostE hn hS hE (fun i hi => (hv i hi).1)
  have hd := GaussianDensity.ducky_eq exp { A := A, B := B, uniform := u } ncells ghostS ghostE hnw
  have hpos : 0 < ∑ i ∈ Finset.range ncells,
      GaussianDensity.weight exp { A := A, B := B, uniform := u }
        (GaussianDensity.total_cells ncells ghostS ghostE) (i + ghostS) :=
    Finset.sum_pos (fun i _ => GaussianDensity.weight_pos exp hexp _ hA _ _)
      ⟨0, Finset.mem_range.mpr hn⟩
  refine ⟨(xE - xS) / (GaussianDensity.weightLoop exp { A := A, B := B, uniform := u }
    ncells ghostS ghostE (GaussianDensity.total_cells ncells ghostS ghostE)).2, ?_, hlen, ?_⟩
  · rw [hd]
    exact div_pos (sub_pos.mpr hx) hpos
  · intro i hi
    rw [List.getD_eq_getElem?_getD, (hv i hi).2, Option.getD_some,
      Nat.mod_eq_of_lt (show i + ghostS < UINT_MOD by omega)]
    rfl

/-- Raising `A` raises the ratio of a larger to a smaller width. -/
theorem GaussianDensity.ratio_mono (A1 A2 Ei Ej s1 s2 : α) (hA1 : 0 < A1) (hA : A1 ≤ A2)
    (hEi : 0 < Ei) (hEj : 0 < Ej) (hs1 : 0 < s1) (hs2 : 0 < s2)
    (hle : 1 / (A1 * Ej + 1) * s1 ≤ 1 / (A1 * Ei + 1) * s1) :
    (1 / (A1 * Ei + 1) * s1) / (1 / (A1 * Ej + 1) * s1) ≤
      (1 / (A2 * Ei + 1) * s2) / (1 / (A2 * Ej + 1) * s2) := by
  have hA2 : 0 < A2 := lt_of_lt_of_le hA1 hA
  have h1i : 0 < A1 * Ei + 1 := by positivity
  have h1j : 0 < A1 * Ej + 1 := by positivity
  have h2i : 0 < A2 * Ei + 1 := by positivity
  have h2j : 0 < A2 * Ej + 1 := by positivity
  have hE : Ei ≤ Ej := by
    have h := le_of_mul_le_mul_right hle hs1
    rw [div_le_div_iff₀ h1j h1i] at h
    have : A1 * Ei ≤ A1 * Ej := by linarith
    exact le_of_mul_le_mul_left this hA1
  have e1 : (1 / (A1 * Ei + 1) * s1) / (1 / (A1 * Ej + 1) * s1) =
      (A1 * Ej + 1) / (A1 * Ei + 1) := by
    field_simp
    ring
  have e2 : (1 / (A2 * Ei + 1) * s2) / (1 / (A2 * Ej + 1) * s2) =
      (A2 * Ej + 1) / (A2 * Ei + 1) := by
    field_simp
    ring
  rw [e1, e2, div_le_div_iff₀ h1i h2i]
  nlinarith [mul_nonneg (sub_nonneg.mpr hA) (sub_nonneg.mpr hE)]

end Sharpness

section C13

variable {α : Type} [LinearOrderedField α]

/-- C13 (amended: the direction is reversed).  For `GaussianDensity` with fixed
`B > 0`, `xS < xE`, `ncells ≥ 2` and fixed ghost arguments, raising `A` makes
the interior widths less uniform: for `0 < A1 ≤ A2`, whenever both runs return,
all interior widths are positive and the ratio of the largest to the smallest
interior width produced with `A2` is at least the ratio produced with `A1`.
Both runs return when `ncells + ghostE + ghostS` fits in an `int`. -/
theorem C13_ratio_grows_with_A (exp : α → α) (hexp : ∀ x, 0 < exp x) (A1 A2 B xS xE : α)
    (ncells ghostS ghostE : Nat) (g : Bool)
    (hA1 : 0 < A1) (hA : A1 ≤ A2) (_hB : 0 < B) (hx : xS < xE) (hn : 2 ≤ ncells)
    (hS : ghostS < UINT_MOD) (hE : ghostE < UINT_MOD) :
    (ncells + ghostE + ghostS < INT_LIMIT →
      ∃ sp1 sp2 : Spacing α,
        (GaussianDensity.new A1 B).compute_spacing exp xS xE ncells ghostS ghostE g = some sp1 ∧
        (GaussianDensity.new A2 B).compute_spacing exp xS xE ncells ghostS ghostE g = some sp2) ∧
    ∀ sp1 sp2 : Spacing α,
      (GaussianDensity.new A1 B).compute_spacing exp xS xE ncells ghostS ghostE g = some sp1 →
      (GaussianDensity.new A2 B).compute_spacing exp xS xE ncells ghostS ghostE g = some sp2 →
      sp1.ary.length = ncells ∧ sp2.ary.length = ncells ∧
      (∀ i, i < ncells → 0 < sp1.ary.getD i 0 ∧ 0 < sp2.ary.getD i 0) ∧
      ∀ iM im jM jm : Nat, iM < ncells → im < ncells → jM < ncells → jm < ncells →
        (∀ i, i < ncells → sp1.ary.getD i 0 ≤ sp1.ary.getD iM 0) →
        (∀ i, i < ncells → sp1.ary.getD im 0 ≤ sp1.ary.getD i 0) →
        (∀ i, i < ncells → sp2.ary.getD i 0 ≤ sp2.ary.getD jM 0) →
        (∀ i, i < ncells → sp2.ary.getD jm 0 ≤ sp2.ary.getD i 0) →
        sp1.ary.getD iM 0 / sp1.ary.getD im 0 ≤ sp2.ary.getD jM 0 / sp2.ary.getD jm 0 := by
  have hA2 : 0 < A2 := lt_of_lt_of_le hA1 hA
  constructor
  · intro hw
    have hw2 : ncells + ghostE + ghostS < UINT_MOD := by
      simp only [UINT_MOD, INT_LIMIT] at *; omega
    obtain ⟨sp1, h1⟩ := GaussianDensity.gaussian_spacing_isSome exp (GaussianDensity.new A1 B)
      xS xE ncells ghostS ghostE g hw2
    obtain ⟨sp2, h2⟩ := GaussianDensity.gaussian_spacing_isSome exp (GaussianDensity.new A2 B)
      xS xE ncells ghostS ghostE g hw2
    exact ⟨sp1, sp2, h1, h2⟩
  · intro sp1 sp2 h1 h2
    obtain ⟨E, hEpos, hform⟩ := GaussianDensity.ary_form exp hexp B xS xE ncells ghostS ghostE
      (by omega) hS hE hx
    obtain ⟨s1, hs1, hl1, hv1⟩ := hform A1 false g sp1 hA1 h1
    obtain ⟨s2, hs2, hl2, hv2⟩ := hform A2 false g sp2 hA2 h2
    have hp1 : ∀ i, i < ncells → 0 < sp1.ary.getD i 0 := by
      intro i hi
      rw [hv1 i hi]
      have := hEpos (i + ghostS)
      positivity
    have hp2 : ∀ i, i < ncells → 0 < sp2.ary.getD i 0 := by
      intro i hi
      rw [hv2 i hi]
      have := hEpos (i + ghostS)
      positivity
    refine ⟨hl1, hl2, fun i hi => ⟨hp1 i hi, hp2 i hi⟩, ?_⟩
    intro iM im jM jm hiM him hjM hjm hmax1 hmin1 hmax2 hmin2
    have step1 : sp1.ary.getD iM 0 / sp1.ary.getD im 0 ≤
        sp2.ary.getD iM 0 / sp2.ary.getD im 0 := by
      rw [hv1 iM hiM, hv1 im him, hv2 iM hiM, hv2 im him]
      refine GaussianDensity.ratio_mono A1 A2 _ _ s1 s2 hA1 hA (hEpos _) (hEpos _) hs1 hs2 ?_
      rw [← hv1 iM hiM, ← hv1 im him]
      exact hmax1 im him
    have step2 : sp2.ary.getD iM 0 / sp2.ary.getD im 0 ≤
        sp2.ary.getD jM 0 / sp2.ary.getD jm 0 :=
      div_le_div₀ (hp2 jM hjM).le (hmax2 iM hiM) (hp2 jm hjm) (hmin2 im him)
    exact step1.trans step2

/-- C13 (amended) at `A1 = 1`, `A2 = 2`, `B = 1/4` on `[0, 1]` with four cells
and one ghost on either side. -/
theorem C13_ratio_grows_with_A_witness :
    ((∀ x : ℝ, 0 < Real.exp x) ∧ (0 : ℝ) < 1 ∧ (1 : ℝ) ≤ 2 ∧ (0 : ℝ) < 1 / 4 ∧ (0 : ℝ) < 1 ∧
      2 ≤ 4 ∧ 1 < UINT_MOD ∧ 1 < UINT_MOD) ∧
    ((4 + 1 + 1 < INT_LIMIT →
      ∃ sp1 sp2 : Spacing ℝ,
        (GaussianDensity.new (1 : ℝ) (1 / 4)).compute_spacing Real.exp 0 1 4 1 1 true = some sp1 ∧
        (GaussianDensity.new (2 : ℝ) (1 / 4)).compute_spacing Real.exp 0 1 4 1 1 true = some sp2) ∧
    ∀ sp1 sp2 : Spacing ℝ,
      (GaussianDensity.new (1 : ℝ) (1 / 4)).compute_spacing Real.exp 0 1 4 1 1 true = some sp1 →
      (GaussianDensity.new (2 : ℝ) (1 / 4)).compute_spacing Real.exp 0 1 4 1 1 true = some sp2 →
      sp1.ary.length = 4 ∧ sp2.ary.length = 4 ∧
      (∀ i, i < 4 → 0 < sp1.ary.getD i 0 ∧ 0 < sp2.ary.getD i 0) ∧
      ∀ iM im jM jm : Nat, iM < 4 → im < 4 → jM < 4 → jm < 4 →
        (∀ i, i < 4 → sp1.ary.getD i 0 ≤ sp1.ary.getD iM 0) →
        (∀ i, i < 4 → sp1.ary.getD im 0 ≤ sp1.ary.getD i 0) →
        (∀ i, i < 4 → sp2.ary.getD i 0 ≤ sp2.ary.getD jM 0) →
        (∀ i, i < 4 → sp2.ary.getD jm 0 ≤ sp2.ary.getD i 0) →
        sp1.ary.getD iM 0 / sp1.ary.getD im 0 ≤ sp2.ary.getD jM 0 / sp2.ary.getD jm 0) :=
  ⟨⟨Real.exp_pos, by norm_num, by norm_num, by norm_num, by norm_num, by decide, by decide,
      by decide⟩,
    C13_ratio_grows_with_A Real.exp Real.exp_pos 1 2 (1 / 4) 0 1 4 1 1 true (by norm_num)
      (by norm_num) (by norm_num) (by norm_num) (by decide) (by decide) (by decide)⟩

end C13

section C13Counterexample

/-- The raw weights of the two-cell profile without ghosts for `B = 1/4`. -/
theorem GaussianDensity.weight_two_cells_values (A : ℝ) :
    (GaussianDensity.new A (1 / 4)).weight Real.exp 2 0 = 1 / (A * Real.exp (-2) + 1) ∧
    (GaussianDensity.new A (1 / 4)).weight Real.exp 2 1 = 1 / (A * Real.exp (-(2 / 9)) + 1) := by
  constructor
  · simp only [GaussianDensity.weight, GaussianDensity.new, UINT_MOD]
    congr 4
    norm_num
  · simp only [GaussianDensity.weight, GaussianDensity.new, UINT_MOD]
    congr 4
    norm_num

/-- The two interior widths of a successful run on `[0, 1]` with two cells, no
ghosts and `B = 1/4`, up to a common positive scale. -/
theorem GaussianDensity.two_cells_values (A : ℝ) (hA : 0 < A) (g : Bool) (sp : Spacing ℝ)
    (h : (GaussianDensity.new A (1 / 4)).compute_spacing Real.exp 0 1 2 0 0 g = some sp) :
    ∃ s : ℝ, 0 < s ∧ sp.ary.getD 0 0 = 1 / (A * Real.exp (-2) + 1) * s ∧
      sp.ary.getD 1 0 = 1 / (A * Real.exp (-(2 / 9)) + 1) * s := by
  obtain ⟨_, hv⟩ := GaussianDensity.gaussian_spacing_ary Real.exp _ 0 1 2 0 0 g sp h
  have hd := GaussianDensity.ducky_eq Real.exp (GaussianDensity.new A (1 / 4)) 2 0 0 (by decide)
  have hpos : 0 < ∑ i ∈ Finset.range 2,
      (GaussianDensity.new A (1 / 4)).weight Real.exp (GaussianDensity.total_cells 2 0 0) (i + 0) :=
    Finset.sum_pos (fun i _ => GaussianDensity.weight_pos Real.exp Real.exp_pos _ hA _ _)
      ⟨0, Finset.mem_range.mpr (by decide)⟩
  obtain ⟨hw0, hw1⟩ := GaussianDensity.weight_two_cells_values A
  have hT : GaussianDensity.total_cells 2 0 0 = 2 := by decide
  refine ⟨((1 : ℝ) - 0) / (GaussianDensity.weightLoop Real.exp (GaussianDensity.new A (1 / 4))
    2 0 0 (GaussianDensity.total_cells 2 0 0)).2, ?_, ?_, ?_⟩
  · rw [hd]
    exact div_pos (by norm_num) hpos
  · rw [List.getD_eq_getElem?_getD, (hv 0 (by decide)).2, Option.getD_some, hT]
    rw [show (0 + 0) % UINT_MOD = 0 by decide, hw0]
  · rw [List.getD_eq_getElem?_getD, (hv 1 (by decide)).2, Option.getD_some, hT]
    rw [show (1 + 0) % UINT_MOD = 1 by decide, hw1]

/-- C13 as stated fails: on `[0, 1]` with two cells, no ghosts and `B = 1/4`,
the ratio of the largest to the smallest interior width produced with `A = 2`
exceeds the ratio produced with `A = 1`. -/
theorem C13_counterexample :
    ¬ (∀ sp1 sp2 : Spacing ℝ,
        (GaussianDensity.new (1 : ℝ) (1 / 4)).compute_spacing Real.exp 0 1 2 0 0 false = some sp1 →
        (GaussianDensity.new (2 : ℝ) (1 / 4)).compute_spacing Real.exp 0 1 2 0 0 false = some sp2 →
        ∀ iM im jM jm : Nat, iM < 2 → im < 2 → jM < 2 → jm < 2 →
          (∀ i, i < 2 → sp1.ary.getD i 0 ≤ sp1.ary.getD iM 0) →
          (∀ i, i < 2 → sp1.ary.getD im 0 ≤ sp1.ary.getD i 0) →
          (∀ i, i < 2 → sp2.ary.getD i 0 ≤ sp2.ary.getD jM 0) →
          (∀ i, i < 2 → sp2.ary.getD jm 0 ≤ sp2.ary.getD i 0) →
          sp2.ary.getD jM 0 / sp2.ary.getD jm 0 ≤ sp1.ary.getD iM 0 / sp1.ary.getD im 0) := by
  intro hall
  obtain ⟨sp1, h1⟩ := GaussianDensity.gaussian_spacing_isSome Real.exp
    (GaussianDensity.new (1 : ℝ) (1 / 4)) 0 1 2 0 0 false (by decide)
  obtain ⟨sp2, h2⟩ := GaussianDensity.gaussian_spacing_isSome Real.exp
    (GaussianDensity.new (2 : ℝ) (1 / 4)) 0 1 2 0 0 false (by decide)
  obtain ⟨s1, hs1, ha10, ha11⟩ := GaussianDensity.two_cells_values 1 (by norm_num) false sp1 h1
  obtain ⟨s2, hs2, ha20, ha21⟩ := GaussianDensity.two_cells_values 2 (by norm_num) false sp2 h2
  have he0 : 0 < Real.exp (-2) := Real.exp_pos _
  have he1 : 0 < Real.exp (-(2 / 9)) := Real.exp_pos _
  have hlt : Real.exp (-2) < Real.exp (-(2 / 9)) := Real.exp_lt_exp.mpr (by norm_num)
  have hord : ∀ (A s : ℝ), 0 < A → 0 < s →
      1 / (A * Real.exp (-(2 / 9)) + 1) * s ≤ 1 / (A * Real.exp (-2) + 1) * s := by
    intro A s hA hs
    apply mul_le_mul_of_nonneg_right _ hs.le
    apply one_div_le_one_div_of_le (by positivity)
    nlinarith
  have hmax : ∀ (sp : Spacing ℝ) (A s : ℝ), 0 < A → 0 < s →
      sp.ary.getD 0 0 = 1 / (A * Real.exp (-2) + 1) * s →
      sp.ary.getD 1 0 = 1 / (A * Real.exp (-(2 / 9)) + 1) * s →
      (∀ i, i < 2 → sp.ary.getD i 0 ≤ sp.ary.getD 0 0) ∧
      (∀ i, i < 2 → sp.ary.getD 1 0 ≤ sp.ary.getD i 0) := by
    intro sp A s hA hs h0 h1
    have := hord A s hA hs
    constructor
    · intro i hi
      interval_cases i
      · exact le_refl _
      · rw [h0, h1]; exact this
    · intro i hi
      interval_cases i
      · rw [h0, h1]; exact this
      · exact le_refl _
  obtain ⟨hM1, hm1⟩ := hmax sp1 1 s1 (by norm_num) hs1 ha10 ha11
  obtain ⟨hM2, hm2⟩ := hmax sp2 2 s2 (by norm_num) hs2 ha20 ha21
  have hbad := hall sp1 sp2 h1 h2 0 1 0 1 (by decide) (by decide) (by decide) (by decide)
    hM1 hm1 hM2 hm2
  rw [ha10, ha11, ha20, ha21] at hbad
  have e1 : (1 / (1 * Real.exp (-2) + 1) * s1) / (1 / (1 * Real.exp (-(2 / 9)) + 1) * s1) =
      (1 * Real.exp (-(2 / 9)) + 1) / (1 * Real.exp (-2) + 1) := by
    field_simp
    ring
  have e2 : (1 / (2 * Real.exp (-2) + 1) * s2) / (1 / (2 * Real.exp (-(2 / 9)) + 1) * s2) =
      (2 * Real.exp (-(2 / 9)) + 1) / (2 * Real.exp (-2) + 1) := by
    field_simp
    ring
  rw [e1, e2, div_le_div_iff₀ (by positivity) (by positivity)] at hbad
  nlinarith

end C13Counterexample

/-! ## The fields of a block cut from three meshes -/

section BlockFields

variable {α : Type} [LinearOrderedField α] {sizeX : Nat}

/-- The accessor results behind a `BlockInfo` that the mesh constructor built. -/
theorem BlockInfo.ofMeshMap_inv (ID : Int) (idx : Vec3 Int) (mapX mapY mapZ : MeshMap sizeX α)
    (ptr : Nat) (special : Bool) (b : BlockInfo α)
    (h : BlockInfo.ofMeshMap ID idx mapX mapY mapZ ptr special = some b) :
    ∃ (o0 o1 o2 e0 e1 e2 s0 s1 s2 : α) (g0 g1 g2 : Ptr α),
      mapX.block_origin idx.x = some o0 ∧ mapY.block_origin idx.y = some o1 ∧
      mapZ.block_origin idx.z = some o2 ∧
      mapX.block_width idx.x = some e0 ∧ mapY.block_width idx.y = some e1 ∧
      mapZ.block_width idx.z = some e2 ∧
      mapX.get_grid_spacing idx.x = some g0 ∧ mapY.get_grid_spacing idx.y = some g1 ∧
      mapZ.get_grid_spacing idx.z = some g2 ∧
      BlockInfo.first_spacing mapX.uniform (some g0) = some s0 ∧
      BlockInfo.first_spacing mapY.uniform (some g1) = some s1 ∧
      BlockInfo.first_spacing mapZ.uniform (some g2) = some s2 ∧
      b = { blockID := ID, ptrBlock := ptr, special := special,
            index := idx, origin := { x := o0, y := o1, z := o2 },
            h := -1, h_gridpoint := -1,
            grid_spacing := { x := s0, y := s1, z := s2 },
            block_extent := { x := e0, y := e1, z := e2 },
            grid_spacing_x := some g0, grid_spacing_y := some g1, grid_spacing_z := some g2,
            bUniform_X := mapX.uniform, bUniform_Y := mapY.uniform,
            bUniform_Z := mapZ.uniform } := by
  simp only [BlockInfo.ofMeshMap, Option.bind_eq_bind, Option.pure_def] at h
  obtain ⟨o0, ho0, h⟩ := Option.bind_eq_some.mp h
  obtain ⟨o1, ho1, h⟩ := Option.bind_eq_some.mp h
  obtain ⟨o2, ho2, h⟩ := Option.bind_eq_some.mp h
  obtain ⟨e0, he0, h⟩ := Option.bind_eq_some.mp h
  obtain ⟨e1, he1, h⟩ := Option.bind_eq_some.mp h
  obtain ⟨e2, he2, h⟩ := Option.bind_eq_some.mp h
  obtain ⟨g0, hg0, h⟩ := Option.bind_eq_some.mp h
  obtain ⟨g1, hg1, h⟩ := Option.bind_eq_some.mp h
  obtain ⟨g2, hg2, h⟩ := Option.bind_eq_some.mp h
  obtain ⟨s0, hs0, h⟩ := Option.bind_eq_some.mp h
  obtain ⟨s1, hs1, h⟩ := Option.bind_eq_some.mp h
  obtain ⟨s2, hs2, h⟩ := Option.bind_eq_some.mp h
  exact ⟨o0, o1, o2, e0, e1, e2, s0, s1, s2, g0, g1, g2, ho0, ho1, ho2, he0, he1, he2,
    hg0, hg1, hg2, hs0, hs1, hs2, (Option.some.inj h).symm⟩

/-- The spacing pointer of block `k` of an initialised mesh and the cell widths
read through it, for either kernel. -/
theorem MeshMap.slice_reads (exp : α → α) (xS xE : α) (Nblocks : Nat) (K : TKernel α)
    (ghostS ghostE : Nat) (g : Bool) (m : MeshMap sizeX α) (gh : List α)
    (h : (MeshMap.new sizeX xS xE Nblocks).init exp K ghostS ghostE g = some (m, gh))
    (k : Nat) (hk : k < Nblocks) :
    m.get_grid_spacing (k : Int) = some { base := m.m_grid_spacing, off := k * sizeX } ∧
    ∀ j, j < sizeX → ∃ v : α,
      Ptr.read (m.get_grid_spacing (k : Int)) (j : Int) = some v ∧
      m.cell_width ((k * sizeX + j : Nat) : Int) = some v := by
  obtain ⟨hinit, _, _, _, hNb, _, hNc, _, hlen, _, _, _⟩ :=
    MeshMap.init_post exp xS xE Nblocks K ghostS ghostE g m gh h
  obtain ⟨hc, _, _⟩ := MeshMap.init_widths exp xS xE Nblocks K ghostS ghostE g m gh h
  have hptr : m.get_grid_spacing (k : Int) =
      some { base := m.m_grid_spacing, off := k * sizeX } := by
    have h1 : ((k : Int)) < (m.m_Nblocks : Int) := by rw [hNb]; exact_mod_cast hk
    simp [MeshMap.get_grid_spacing, hinit, h1]
  refine ⟨hptr, fun j hj => ?_⟩
  have hin : k * sizeX + j < Nblocks * sizeX := by
    have h1 : (k + 1) * sizeX ≤ Nblocks * sizeX := Nat.mul_le_mul_right _ hk
    rw [Nat.succ_mul] at h1
    omega
  refine ⟨m.m_grid_spacing.getD (k * sizeX + j) 0, ?_, hc _ hin⟩
  rw [hptr, Ptr.read_natCast, List.getD_eq_getElem?_getD,
    List.getElem?_eq_getElem (by rw [hlen]; exact hin), Option.getD_some]

end BlockFields

section C14

variable {α : Type} [LinearOrderedField α]

/-- C14 (fields of a block cut from three meshes).  Take three initialised
meshes (either kernel) and a block index `(kx, ky, kz)` inside them.  The mesh
constructor of `BlockInfo` returns when blocks hold at least one cell, and for
every record `b` it returns and every axis `a` with map `m` and index `k`:
`origin[a]` is `m.block_origin(k)`; `block_extent[a]` is `m.block_width(k)`;
the spacing pointer is `m.get_grid_spacing(k)` and its entry `j < sizeX` is
`m.cell_width(k * sizeX + j)`; the uniformity flag is `m.uniform()`;
`grid_spacing[a]` is the first entry of the slice when the flag is set and
`-1` otherwise; and `h = h_gridpoint = -1`. -/
theorem C14_blockinfo_fields (exp : α → α) (sizeX : Nat)
    (xSx xEx : α) (Nx : Nat) (Kx : TKernel α) (gSx gEx : Nat) (gx : Bool)
    (xSy xEy : α) (Ny : Nat) (Ky : TKernel α) (gSy gEy : Nat) (gy : Bool)
    (xSz xEz : α) (Nz : Nat) (Kz : TKernel α) (gSz gEz : Nat) (gz : Bool)
    (mX mY mZ : MeshMap sizeX α) (ghx ghy ghz : List α)
    (hx : (MeshMap.new sizeX xSx xEx Nx).init exp Kx gSx gEx gx = some (mX, ghx))
    (hy : (MeshMap.new sizeX xSy xEy Ny).init exp Ky gSy gEy gy = some (mY, ghy))
    (hz : (MeshMap.new sizeX xSz xEz Nz).init exp Kz gSz gEz gz = some (mZ, ghz))
    (ID : Int) (ptr : Nat) (special : Bool) (kx ky kz : Nat)
    (hkx : kx < Nx) (hky : ky < Ny) (hkz : kz < Nz) :
    (0 < sizeX → ∃ b : BlockInfo α,
      BlockInfo.ofMeshMap ID { x := (kx : Int), y := (ky : Int), z := (kz : Int) } mX mY mZ
        ptr special = some b) ∧
    ∀ b : BlockInfo α,
      BlockInfo.ofMeshMap ID { x := (kx : Int), y := (ky : Int), z := (kz : Int) } mX mY mZ
        ptr special = some b →
      (mX.block_origin (kx : Int) = some b.origin.x ∧
        mY.block_origin (ky : Int) = some b.origin.y ∧
        mZ.block_origin (kz : Int) = some b.origin.z) ∧
      (mX.block_width (kx : Int) = some b.block_extent.x ∧
        mY.block_width (ky : Int) = some b.block_extent.y ∧
        mZ.block_width (kz : Int) = some b.block_extent.z) ∧
      (b.grid_spacing_x = mX.get_grid_spacing (kx : Int) ∧
        b.grid_spacing_y = mY.get_grid_spacing (ky : Int) ∧
        b.grid_spacing_z = mZ.get_grid_spacing (kz : Int)) ∧
      (∀ j, j < sizeX → ∃ v : α, Ptr.read b.grid_spacing_x (j : Int) = some v ∧
        mX.cell_width ((kx * sizeX + j : Nat) : Int) = some v) ∧
      (∀ j, j < sizeX → ∃ v : α, Ptr.read b.grid_spacing_y (j : Int) = some v ∧
        mY.cell_width ((ky * sizeX + j : Nat) : Int) = some v) ∧
      (∀ j, j < sizeX → ∃ v : α, Ptr.read b.grid_spacing_z (j : Int) = some v ∧
        mZ.cell_width ((kz * sizeX + j : Nat) : Int) = some v) ∧
      (b.bUniform_X = mX.uniform ∧ b.bUniform_Y = mY.uniform ∧ b.bUniform_Z = mZ.uniform) ∧
      (if mX.uniform = true then Ptr.read b.grid_spacing_x 0 = some b.grid_spacing.x
        else b.grid_spacing.x = -1) ∧
      (if mY.uniform = true then Ptr.read b.grid_spacing_y 0 = some b.grid_spacing.y
        else b.grid_spacing.y = -1) ∧
      (if mZ.uniform = true then Ptr.read b.grid_spacing_z 0 = some b.grid_spacing.z
        else b.grid_spacing.z = -1) ∧
      b.h = -1 ∧ b.h_gridpoint = -1 := by
  obtain ⟨hpX, hrX⟩ := MeshMap.slice_reads exp xSx xEx Nx Kx gSx gEx gx mX ghx hx kx hkx
  obtain ⟨hpY, hrY⟩ := MeshMap.slice_reads exp xSy xEy Ny Ky gSy gEy gy mY ghy hy ky hky
  obtain ⟨hpZ, hrZ⟩ := MeshMap.slice_reads exp xSz xEz Nz Kz gSz gEz gz mZ ghz hz kz hkz
  obtain ⟨_, hbX, hoX⟩ := MeshMap.init_widths exp xSx xEx Nx Kx gSx gEx gx mX ghx hx
  obtain ⟨_, hbY, hoY⟩ := MeshMap.init_widths exp xSy xEy Ny Ky gSy gEy gy mY ghy hy
  obtain ⟨_, hbZ, hoZ⟩ := MeshMap.init_widths exp xSz xEz Nz Kz gSz gEz gz mZ ghz hz
  have first : ∀ (m : MeshMap sizeX α) (k : Nat) (q : Ptr α),
      m.get_grid_spacing (k : Int) = some q →
      (∀ j, j < sizeX → ∃ v : α, Ptr.read (m.get_grid_spacing (k : Int)) (j : Int) = some v ∧
        m.cell_width ((k * sizeX + j : Nat) : Int) = some v) →
      0 < sizeX → ∃ s, BlockInfo.first_spacing m.uniform (some q) = some s := by
    intro m k q hq hr hpos
    unfold BlockInfo.first_spacing
    split_ifs
    · obtain ⟨v, hv, _⟩ := hr 0 hpos
      rw [hq] at hv
      exact ⟨v, by simpa using hv⟩
    · exact ⟨-1, rfl⟩
  constructor
  · intro hpos
    obtain ⟨s0, hs0⟩ := first mX kx _ hpX hrX hpos
    obtain ⟨s1, hs1⟩ := first mY ky _ hpY hrY hpos
    obtain ⟨s2, hs2⟩ := first mZ kz _ hpZ hrZ hpos
    exact ⟨_, BlockInfo.ofMeshMap_eq ID { x := (kx : Int), y := (ky : Int), z := (kz : Int) }
      mX mY mZ ptr special _ _ _ _ _ _ s0 s1 s2 _ _ _ (hoX kx hkx) (hoY ky hky) (hoZ kz hkz)
      (hbX kx hkx) (hbY ky hky) (hbZ kz hkz) hpX hpY hpZ hs0 hs1 hs2⟩
  · intro b hb
    obtain ⟨o0, o1, o2, e0, e1, e2, s0, s1, s2, g0, g1, g2, ho0, ho1, ho2, he0, he1, he2,
      hg0, hg1, hg2, hs0, hs1, hs2, rfl⟩ := BlockInfo.ofMeshMap_inv ID _ mX mY mZ ptr special b hb
    have spac : ∀ (u : Bool) (q : Ptr α) (s : α),
        BlockInfo.first_spacing u (some q) = some s →
        if u = true then Ptr.read (some q) 0 = some s else s = -1 := by
      intro u q s hs
      unfold BlockInfo.first_spacing at hs
      split_ifs at hs ⊢ with hu
      · exact hs
      · exact (Option.some.inj hs).symm
    refine ⟨⟨ho0, ho1, ho2⟩, ⟨he0, he1, he2⟩, ⟨hg0.symm, hg1.symm, hg2.symm⟩,
      fun j hj => ?_, fun j hj => ?_, fun j hj => ?_, ⟨rfl, rfl, rfl⟩,
      spac _ _ _ hs0, spac _ _ _ hs1, spac _ _ _ hs2, rfl, rfl⟩
    · simpa only [← hg0] using hrX j hj
    · simpa only [← hg1] using hrY j hj
    · simpa only [← hg2] using hrZ j hj

/-- C14 at the concrete scenario: block `(0, 1, 3)` of the uniform mesh on
`[0, 1]`, used on all three axes. -/
theorem C14_blockinfo_fields_witness :
    ((MeshMap.new 2 (0 : ℝ) 1 4).init Real.exp (TKernel.uniformDensity UniformDensity.new)
        0 0 false = some (exampleMesh ℝ, []) ∧ (0 < 4 ∧ 1 < 4 ∧ 3 < 4)) ∧
    ((0 < 2 → ∃ b : BlockInfo ℝ,
      BlockInfo.ofMeshMap 7 { x := ((0 : Nat) : Int), y := ((1 : Nat) : Int), z := ((3 : Nat) : Int) }
        (exampleMesh ℝ) (exampleMesh ℝ) (exampleMesh ℝ) 0 false = some b) ∧
    ∀ b : BlockInfo ℝ,
      BlockInfo.ofMeshMap 7 { x := ((0 : Nat) : Int), y := ((1 : Nat) : Int), z := ((3 : Nat) : Int) }
        (exampleMesh ℝ) (exampleMesh ℝ) (exampleMesh ℝ) 0 false = some b →
      ((exampleMesh ℝ).block_origin ((0 : Nat) : Int) = some b.origin.x ∧
        (exampleMesh ℝ).block_origin ((1 : Nat) : Int) = some b.origin.y ∧
        (exampleMesh ℝ).block_origin ((3 : Nat) : Int) = some b.origin.z) ∧
      ((exampleMesh ℝ).block_width ((0 : Nat) : Int) = some b.block_extent.x ∧
        (exampleMesh ℝ).block_width ((1 : Nat) : Int) = some b.block_extent.y ∧
        (exampleMesh ℝ).block_width ((3 : Nat) : Int) = some b.block_extent.z) ∧
      (b.grid_spacing_x = (exampleMesh ℝ).get_grid_spacing ((0 : Nat) : Int) ∧
        b.grid_spacing_y = (exampleMesh ℝ).get_grid_spacing ((1 : Nat) : Int) ∧
        b.grid_spacing_z = (exampleMesh ℝ).get_grid_spacing ((3 : Nat) : Int)) ∧
      (∀ j : Nat, j < 2 → ∃ v : ℝ, Ptr.read b.grid_spacing_x (j : Int) = some v ∧
        (exampleMesh ℝ).cell_width ((0 * 2 + j : Nat) : Int) = some v) ∧
      (∀ j : Nat, j < 2 → ∃ v : ℝ, Ptr.read b.grid_spacing_y (j : Int) = some v ∧
        (exampleMesh ℝ).cell_width ((1 * 2 + j : Nat) : Int) = some v) ∧
      (∀ j : Nat, j < 2 → ∃ v : ℝ, Ptr.read b.grid_spacing_z (j : Int) = some v ∧
        (exampleMesh ℝ).cell_width ((3 * 2 + j : Nat) : Int) = some v) ∧
      (b.bUniform_X = (exampleMesh ℝ).uniform ∧ b.bUniform_Y = (exampleMesh ℝ).uniform ∧
        b.bUniform_Z = (exampleMesh ℝ).uniform) ∧
      (if (exampleMesh ℝ).uniform = true then Ptr.read b.grid_spacing_x 0 = some b.grid_spacing.x
        else b.grid_spacing.x = -1) ∧
      (if (exampleMesh ℝ).uniform = true then Ptr.read b.grid_spacing_y 0 = some b.grid_spacing.y
        else b.grid_spacing.y = -1) ∧
      (if (exampleMesh ℝ).uniform = true then Ptr.read b.grid_spacing_z 0 = some b.grid_spacing.z
        else b.grid_spacing.z = -1) ∧
      b.h = -1 ∧ b.h_gridpoint = -1) :=
  ⟨⟨exampleMesh_init Real.exp, by decide, by decide, by decide⟩,
    C14_blockinfo_fields Real.exp 2 0 1 4 _ 0 0 false 0 1 4 _ 0 0 false 0 1 4 _ 0 0 false
      _ _ _ _ _ _ (exampleMesh_init Real.exp) (exampleMesh_init Real.exp)
      (exampleMesh_init Real.exp) 7 0 false 0 1 3 (by decide) (by decide) (by decide)⟩

end C14

/-! ## Accessor preconditions -/

section C15

variable {α : Type} [LinearOrderedField α]

/-- C15 (accessor preconditions).  On a freshly constructed mesh and on the
mesh a successful `init` produced from it: `cell_width(ix)` returns a value
exactly when the mesh is initialised and `0 ≤ ix < Ncells`; `block_width(bix)`,
`block_origin(bix)` and `get_grid_spacing(bix)` return a value exactly when the
mesh is initialised and `0 ≤ bix < Nblocks`.  In every other case the call
fails its assertion (`none`); no sentinel value is returned.  The fresh mesh
is not initialised, the mesh after `init` is. -/
theorem C15_accessor_preconditions (exp : α → α) (sizeX Nblocks : Nat) (xS xE : α)
    (K : TKernel α) (ghostS ghostE : Nat) (g : Bool) (m : MeshMap sizeX α) (gh : List α)
    (h : (MeshMap.new sizeX xS xE Nblocks).init exp K ghostS ghostE g = some (m, gh)) :
    ((MeshMap.new sizeX xS xE Nblocks).m_initialized = false ∧ m.m_initialized = true) ∧
    ∀ m' : MeshMap sizeX α, m' = MeshMap.new sizeX xS xE Nblocks ∨ m' = m →
      ∀ ix : Int,
        ((m'.cell_width ix).isSome = true ↔
          m'.m_initialized = true ∧ 0 ≤ ix ∧ ix < (m'.ncells : Int)) ∧
        ((m'.block_width ix).isSome = true ↔
          m'.m_initialized = true ∧ 0 ≤ ix ∧ ix < (m'.nblocks : Int)) ∧
        ((m'.block_origin ix).isSome = true ↔
          m'.m_initialized = true ∧ 0 ≤ ix ∧ ix < (m'.nblocks : Int)) ∧
        ((m'.get_grid_spacing ix).isSome = true ↔
          m'.m_initialized = true ∧ 0 ≤ ix ∧ ix < (m'.nblocks : Int)) := by
  obtain ⟨hinit, _, _, _, hNb, _, hNc, _, hlen, hbl, _, _⟩ :=
    MeshMap.init_post exp xS xE Nblocks K ghostS ghostE g m gh h
  refine ⟨⟨rfl, hinit⟩, ?_⟩
  rintro m' (rfl | rfl) ix
  · simp [MeshMap.cell_width, MeshMap.block_width, MeshMap.block_origin,
      MeshMap.get_grid_spacing, MeshMap.new]
  · refine ⟨?_, ?_, ?_, ?_⟩
    · constructor
      · intro hs
        unfold MeshMap.cell_width at hs
        split_ifs at hs with hc
        · exact hc
        · cases hs
      · rintro ⟨_, h0, h1⟩
        obtain ⟨i, rfl⟩ := Int.eq_ofNat_of_zero_le h0
        have hi : i < m'.m_Ncells := by exact_mod_cast h1
        rw [MeshMap.cell_width_eq m' i hinit (by rw [hlen, hNc]) hi]
        rfl
    · constructor
      · intro hs
        unfold MeshMap.block_width at hs
        split_ifs at hs with hc
        · exact hc
        · cases hs
      · rintro ⟨_, h0, h1⟩
        obtain ⟨i, rfl⟩ := Int.eq_ofNat_of_zero_le h0
        have hi : i < m'.m_Nblocks := by exact_mod_cast h1
        rw [MeshMap.block_width_eq m' i hinit hi,
          List.getElem?_eq_getElem (by rw [hbl, ← hNb]; exact hi)]
        rfl
    · constructor
      · intro hs
        unfold MeshMap.block_origin at hs
        split_ifs at hs with hc
        · exact hc
        · cases hs
      · rintro ⟨_, h0, h1⟩
        obtain ⟨i, rfl⟩ := Int.eq_ofNat_of_zero_le h0
        have hi : i < m'.m_Nblocks := by exact_mod_cast h1
        rw [MeshMap.block_origin_eq m' i hinit (by rw [hbl, hNb]) hi]
        rfl
    · constructor
      · intro hs
        unfold MeshMap.get_grid_spacing at hs
        split_ifs at hs with hc
        · exact hc
        · cases hs
      · intro hc
        have hc' : m'.m_initialized = true ∧ 0 ≤ ix ∧ ix < (m'.m_Nblocks : Int) := hc
        unfold MeshMap.get_grid_spacing
        rw [if_pos hc']
        rfl

/-- C15 at the concrete scenario. -/
theorem C15_accessor_preconditions_witness :
    (MeshMap.new 2 (0 : ℝ) 1 4).init Real.exp (TKernel.uniformDensity UniformDensity.new) 0 0 false
      = some (exampleMesh ℝ, []) ∧
    (((MeshMap.new 2 (0 : ℝ) 1 4).m_initialized = false ∧ (exampleMesh ℝ).m_initialized = true) ∧
    ∀ m' : MeshMap 2 ℝ, m' = MeshMap.new 2 (0 : ℝ) 1 4 ∨ m' = exampleMesh ℝ →
      ∀ ix : Int,
        ((m'.cell_width ix).isSome = true ↔
          m'.m_initialized = true ∧ 0 ≤ ix ∧ ix < (m'.ncells : Int)) ∧
        ((m'.block_width ix).isSome = true ↔
          m'.m_initialized = true ∧ 0 ≤ ix ∧ ix < (m'.nblocks : Int)) ∧
        ((m'.block_origin ix).isSome = true ↔
          m'.m_initialized = true ∧ 0 ≤ ix ∧ ix < (m'.nblocks : Int)) ∧
        ((m'.get_grid_spacing ix).isSome = true ↔
          m'.m_initialized = true ∧ 0 ≤ ix ∧ ix < (m'.nblocks : Int))) :=
  ⟨exampleMesh_init Real.exp,
    C15_accessor_preconditions Real.exp 2 4 0 1 _ 0 0 false _ _ (exampleMesh_init Real.exp)⟩

end C15

/-! ## Degenerate extents -/

section C16

variable {α : Type} [LinearOrderedField α]

/-- C16 (amended: a degenerate extent is accepted).  For `xE ≤ xS`, with
`Nblocks > 0` and counts that fit in an `int`, construction and `init` (either
kernel) succeed: the mesh is initialised, `extent()` is `xE - xS ≤ 0`, and
every accessor returns a value inside its index range; with `UniformDensity`
every cell width is `(xE - xS) / Ncells`, which is not positive.  The
precondition that `init` asserts is `Nblocks > 0`: with `Nblocks = 0` it
fails. -/
theorem C16_degenerate_extent_accepted (exp : α → α) (sizeX Nblocks : Nat) (xS xE : α)
    (K : TKernel α) (ghostS ghostE : Nat) (g : Bool)
    (hx : xE ≤ xS) (hN : 0 < Nblocks) (hw : Nblocks * sizeX + ghostE + ghostS < INT_LIMIT) :
    (∃ (m : MeshMap sizeX α) (gh : List α),
      (MeshMap.new sizeX xS xE Nblocks).init exp K ghostS ghostE g = some (m, gh) ∧
      m.m_initialized = true ∧ m.extent = xE - xS ∧ m.extent ≤ 0 ∧
      (∀ i : Nat, i < m.ncells → (m.cell_width (i : Int)).isSome = true) ∧
      (∀ k : Nat, k < m.nblocks → (m.block_width (k : Int)).isSome = true ∧
        (m.block_origin (k : Int)).isSome = true ∧
        (m.get_grid_spacing (k : Int)).isSome = true) ∧
      (K = TKernel.uniformDensity UniformDensity.new →
        ∀ i : Nat, i < m.ncells →
          m.cell_width (i : Int) = some ((xE - xS) / (m.ncells : α)) ∧
          (xE - xS) / (m.ncells : α) ≤ 0)) ∧
    (MeshMap.new sizeX xS xE 0).init exp K ghostS ghostE g = none := by
  constructor
  · have hw2 : Nblocks * sizeX + ghostE + ghostS < UINT_MOD := by
      simp only [UINT_MOD, INT_LIMIT] at *; omega
    obtain ⟨⟨m, gh⟩, h⟩ := MeshMap.init_isSome exp xS xE Nblocks K ghostS ghostE g hN
      (by omega) (TKernel.kernel_spacing_isSome exp K xS xE _ ghostS ghostE g hw2)
    obtain ⟨hinit, _, _, hext, hNb, _, hNc, _, hlen, hbl, _, hsp⟩ :=
      MeshMap.init_post exp xS xE Nblocks K ghostS ghostE g m gh h
    obtain ⟨hc, hb, ho⟩ := MeshMap.init_widths exp xS xE Nblocks K ghostS ghostE g m gh h
    refine ⟨m, gh, h, hinit, hext, ?_, ?_, ?_, ?_⟩
    · rw [show m.extent = xE - xS from hext]
      linarith
    · intro i hi
      rw [hc i (by simpa [MeshMap.ncells, hNc] using hi)]
      rfl
    · intro k hk
      have hk' : k < Nblocks := by simpa [MeshMap.nblocks, hNb] using hk
      refine ⟨by rw [hb k hk']; rfl, by rw [ho k hk']; rfl, ?_⟩
      have h1 : ((k : Int)) < (m.m_Nblocks : Int) := by rw [hNb]; exact_mod_cast hk'
      simp [MeshMap.get_grid_spacing, hinit, h1]
    · intro hK i hi
      subst hK
      have hi' : i < Nblocks * sizeX := by simpa [MeshMap.ncells, hNc] using hi
      obtain ⟨_, hv⟩ := UniformDensity.uniform_spacing_ary UniformDensity.new xS xE _ _ _ g _ hsp
      have hval := hv i hi'
      simp only at hval
      refine ⟨?_, ?_⟩
      · rw [hc i hi', List.getD_eq_getElem?_getD, hval, Option.getD_some,
          show m.ncells = Nblocks * sizeX from hNc]
      · apply div_nonpos_of_nonpos_of_nonneg (by linarith)
        exact Nat.cast_nonneg _
  · simp only [MeshMap.init, MeshMap.new, Option.bind_eq_bind, Nat.lt_irrefl, if_false]
    cases TKernel.compute_spacing exp K xS xE (0 * sizeX % UINT_MOD) ghostS ghostE g <;> rfl

/-- C16 (amended) on the reversed interval `xS = 1`, `xE = 0`, one block of one
cell, uniform kernel. -/
theorem C16_degenerate_extent_accepted_witness :
    ((0 : ℝ) ≤ 1 ∧ 0 < 1 ∧ 1 * 1 + 0 + 0 < INT_LIMIT) ∧
    ((∃ (m : MeshMap 1 ℝ) (gh : List ℝ),
      (MeshMap.new 1 (1 : ℝ) 0 1).init Real.exp (TKernel.uniformDensity UniformDensity.new)
        0 0 false = some (m, gh) ∧
      m.m_initialized = true ∧ m.extent = 0 - 1 ∧ m.extent ≤ 0 ∧
      (∀ i : Nat, i < m.ncells → (m.cell_width (i : Int)).isSome = true) ∧
      (∀ k : Nat, k < m.nblocks → (m.block_width (k : Int)).isSome = true ∧
        (m.block_origin (k : Int)).isSome = true ∧
        (m.get_grid_spacing (k : Int)).isSome = true) ∧
      ((TKernel.uniformDensity UniformDensity.new : TKernel ℝ) =
          TKernel.uniformDensity UniformDensity.new →
        ∀ i : Nat, i < m.ncells →
          m.cell_width (i : Int) = some (((0 : ℝ) - 1) / (m.ncells : ℝ)) ∧
          ((0 : ℝ) - 1) / (m.ncells : ℝ) ≤ 0)) ∧
    (MeshMap.new 1 (1 : ℝ) 0 0).init Real.exp (TKernel.uniformDensity UniformDensity.new)
      0 0 false = none) :=
  ⟨⟨by norm_num, by decide, by decide⟩,
    C16_degenerate_extent_accepted Real.exp 1 1 1 0 _ 0 0 false (by norm_num) (by decide)
      (by decide)⟩

/-- C16 as stated fails: on the reversed interval `xS = 1`, `xE = 0` with one
block of one cell, construction and `init` with the uniform kernel succeed;
the initialised mesh has extent `-1` and `cell_width(0)` returns `-1`. -/
theorem C16_counterexample :
    (MeshMap.new 1 (1 : ℝ) 0 1).init Real.exp (TKernel.uniformDensity UniformDensity.new)
        0 0 false = some (degenerateMesh ℝ, []) ∧
    (degenerateMesh ℝ).m_initialized = true ∧ (degenerateMesh ℝ).extent = -1 ∧
    (degenerateMesh ℝ).cell_width 0 = some (-1) := by
  refine ⟨?_, rfl, ?_, ?_⟩
  · simp [MeshMap.init, MeshMap.new, TKernel.compute_spacing, UniformDensity.compute_spacing,
      fill, accumulate, TKernel.uniform, UniformDensity.new, List.range_succ, List.replicate,
      degenerateMesh]
  · norm_num [MeshMap.extent, degenerateMesh]
  · simp [MeshMap.cell_width, degenerateMesh]

end C16

/-! ## Positivity of the clustered widths -/

section C17

variable {α : Type} [LinearOrderedField α]

/-- Every raw weight lies in `[1 / (A + 1), 1)`. -/
theorem GaussianDensity.weight_bounds (exp : α → α) (hexp : ∀ x, 0 < exp x)
    (hexp1 : ∀ x, x ≤ 0 → exp x ≤ 1) (k : GaussianDensity α) (hA : 0 < k.A) (T p : Nat) :
    1 / (k.A + 1) ≤ k.weight exp T p ∧ k.weight exp T p < 1 := by
  unfold GaussianDensity.weight
  have harg : -(1 / 2) * ((p : α) - (((T + 1) % UINT_MOD : Nat) : α) * (1 / 2)) *
      ((p : α) - (((T + 1) % UINT_MOD : Nat) : α) * (1 / 2)) *
      (1 / (k.B * (((T + 1) % UINT_MOD : Nat) : α))) *
      (1 / (k.B * (((T + 1) % UINT_MOD : Nat) : α))) ≤ 0 := by
    have h := mul_self_nonneg (((p : α) - (((T + 1) % UINT_MOD : Nat) : α) * (1 / 2)) *
      (1 / (k.B * (((T + 1) % UINT_MOD : Nat) : α))))
    nlinarith
  have he := hexp (-(1 / 2) * ((p : α) - (((T + 1) % UINT_MOD : Nat) : α) * (1 / 2)) *
      ((p : α) - (((T + 1) % UINT_MOD : Nat) : α) * (1 / 2)) *
      (1 / (k.B * (((T + 1) % UINT_MOD : Nat) : α))) *
      (1 / (k.B * (((T + 1) % UINT_MOD : Nat) : α))))
  have he1 := hexp1 _ harg
  constructor
  · apply one_div_le_one_div_of_le (by positivity)
    nlinarith
  · rw [div_lt_one (by positivity)]
    nlinarith

/-- Every width a successful Gaussian run wrote, interior or ghost, is a raw
weight times the scale `(xE - xS) / ducky`. -/
theorem GaussianDensity.written_widths (exp : α → α) (k : GaussianDensity α) (xS xE : α)
    (ncells ghostS ghostE : Nat) (g : Bool) (sp : Spacing α)
    (h : k.compute_spacing exp xS xE ncells ghostS ghostE g = some sp)
    (v : α) (hv : v ∈ sp.ary ++ sp.ghost_spacing) :
    ∃ p : Nat, v = k.weight exp (GaussianDensity.total_cells ncells ghostS ghostE) p *
      ((xE - xS) / (GaussianDensity.weightLoop exp k ncells ghostS ghostE
        (GaussianDensity.total_cells ncells ghostS ghostE)).2) := by
  obtain ⟨hlen, ha⟩ := GaussianDensity.gaussian_spacing_ary exp k xS xE _ _ _ g sp h
  obtain ⟨hgf, hgt⟩ := GaussianDensity.gaussian_spacing_ghost exp k xS xE _ _ _ g sp h
  rcases List.mem_append.mp hv with hv | hv
  · obtain ⟨i, hi, rfl⟩ := List.mem_iff_getElem.mp hv
    have := (ha i (by omega)).2
    rw [List.getElem?_eq_getElem hi] at this
    exact ⟨_, Option.some.inj this⟩
  · cases g with
    | false => rw [hgf rfl] at hv; cases hv
    | true =>
      obtain ⟨hgl, hgS, hgE⟩ := hgt rfl
      obtain ⟨i, hi, rfl⟩ := List.mem_iff_getElem.mp hv
      by_cases hlt : i < ghostS
      · have := (hgS i hlt).2
        rw [List.getElem?_eq_getElem hi] at this
        exact ⟨_, Option.some.inj this⟩
      · have := (hgE (i - ghostS) (by omega)).2
        rw [show ghostS + (i - ghostS) = i by omega, List.getElem?_eq_getElem hi] at this
        exact ⟨_, Option.some.inj this⟩

end C17

section C17Main

variable {α : Type} [LinearOrderedField α]

/-- C17 (amended: the weight interval is half-open).  For
`GaussianDensity` with `A > 0`, `B ≠ 0`, `xS < xE`, `ncells > 0` and any ghost
arguments: every raw weight lies in `[1 / (A + 1), 1)`; every width that a
returning `compute_spacing` wrote, interior or ghost, is a raw weight times
one positive scale, is strictly positive, and any two such widths differ by a
factor below `A + 1`.  `compute_spacing` returns when
`ncells + ghostE + ghostS` fits in an `int`. -/
theorem C17_positive_widths (exp : α → α) (hexp : ∀ x, 0 < exp x)
    (hexp1 : ∀ x, x ≤ 0 → exp x ≤ 1) (k : GaussianDensity α) (xS xE : α)
    (ncells ghostS ghostE : Nat) (g : Bool)
    (hA : 0 < k.A) (_hB : k.B ≠ 0) (hx : xS < xE) (hn : 0 < ncells)
    (hS : ghostS < UINT_MOD) (hE : ghostE < UINT_MOD) :
    (ncells + ghostE + ghostS < INT_LIMIT →
      ∃ sp : Spacing α, k.compute_spacing exp xS xE ncells ghostS ghostE g = some sp) ∧
    (∀ p : Nat,
      1 / (k.A + 1) ≤ k.weight exp (GaussianDensity.total_cells ncells ghostS ghostE) p ∧
      k.weight exp (GaussianDensity.total_cells ncells ghostS ghostE) p < 1) ∧
    ∀ sp : Spacing α, k.compute_spacing exp xS xE ncells ghostS ghostE g = some sp →
      sp.ary.length = ncells ∧
      (∃ s : α, 0 < s ∧ ∀ v, v ∈ sp.ary ++ sp.ghost_spacing → ∃ p : Nat,
        v = k.weight exp (GaussianDensity.total_cells ncells ghostS ghostE) p * s) ∧
      (∀ v, v ∈ sp.ary ++ sp.ghost_spacing → 0 < v) ∧
      (∀ u, u ∈ sp.ary ++ sp.ghost_spacing → ∀ v, v ∈ sp.ary ++ sp.ghost_spacing →
        u < (k.A + 1) * v) := by
  refine ⟨fun hw => ?_, fun p => GaussianDensity.weight_bounds exp hexp hexp1 k hA _ p, ?_⟩
  · exact GaussianDensity.gaussian_spacing_isSome exp k xS xE ncells ghostS ghostE g
      (by simp only [UINT_MOD, INT_LIMIT] at *; omega)
  · intro sp h
    obtain ⟨hlen, ha⟩ := GaussianDensity.gaussian_spacing_ary exp k xS xE _ _ _ g sp h
    have hnw := GaussianDensity.no_wrap ncells ghostS ghostE hn hS hE (fun i hi => (ha i hi).1)
    have hd := GaussianDensity.ducky_eq exp k ncells ghostS ghostE hnw
    have hpos : 0 < ∑ i ∈ Finset.range ncells,
        k.weight exp (GaussianDensity.total_cells ncells ghostS ghostE) (i + ghostS) :=
      Finset.sum_pos (fun i _ => GaussianDensity.weight_pos exp hexp k hA _ _)
        ⟨0, Finset.mem_range.mpr hn⟩
    have hs : 0 < (xE - xS) / (GaussianDensity.weightLoop exp k ncells ghostS ghostE
        (GaussianDensity.total_cells ncells ghostS ghostE)).2 := by
      rw [hd]
      exact div_pos (sub_pos.mpr hx) hpos
    have hform := GaussianDensity.written_widths exp k xS xE ncells ghostS ghostE g sp h
    have hA1 : 0 < k.A + 1 := by linarith
    refine ⟨hlen, ⟨_, hs, hform⟩, fun v hv => ?_, fun u hu v hv => ?_⟩
    · obtain ⟨p, rfl⟩ := hform v hv
      exact mul_pos (GaussianDensity.weight_pos exp hexp k hA _ _) hs
    · obtain ⟨p, rfl⟩ := hform u hu
      obtain ⟨q, rfl⟩ := hform v hv
      obtain ⟨_, hp1⟩ := GaussianDensity.weight_bounds exp hexp hexp1 k hA
        (GaussianDensity.total_cells ncells ghostS ghostE) p
      obtain ⟨hq0, _⟩ := GaussianDensity.weight_bounds exp hexp hexp1 k hA
        (GaussianDensity.total_cells ncells ghostS ghostE) q
      have hq : 1 ≤ (k.A + 1) * k.weight exp (GaussianDensity.total_cells ncells ghostS ghostE) q := by
        rw [div_le_iff₀ hA1] at hq0
        linarith
      rw [← mul_assoc]
      exact mul_lt_mul_of_pos_right (lt_of_lt_of_le hp1 hq) hs

/-- C17 (amended) for `GaussianDensity(1, 1/4)` on `[0, 1]` with four cells, two
ghosts on either side and a ghost buffer. -/
theorem C17_positive_widths_witness :
    ((∀ x : ℝ, 0 < Real.exp x) ∧ (∀ x : ℝ, x ≤ 0 → Real.exp x ≤ 1) ∧
      0 < (GaussianDensity.new (1 : ℝ) (1 / 4)).A ∧ (GaussianDensity.new (1 : ℝ) (1 / 4)).B ≠ 0 ∧
      (0 : ℝ) < 1 ∧ 0 < 4 ∧ 2 < UINT_MOD ∧ 2 < UINT_MOD) ∧
    ((4 + 2 + 2 < INT_LIMIT →
      ∃ sp : Spacing ℝ,
        (GaussianDensity.new (1 : ℝ) (1 / 4)).compute_spacing Real.exp 0 1 4 2 2 true = some sp) ∧
    (∀ p : Nat,
      1 / ((GaussianDensity.new (1 : ℝ) (1 / 4)).A + 1) ≤
        (GaussianDensity.new (1 : ℝ) (1 / 4)).weight Real.exp
          (GaussianDensity.total_cells 4 2 2) p ∧
      (GaussianDensity.new (1 : ℝ) (1 / 4)).weight Real.exp
        (GaussianDensity.total_cells 4 2 2) p < 1) ∧
    ∀ sp : Spacing ℝ,
      (GaussianDensity.new (1 : ℝ) (1 / 4)).compute_spacing Real.exp 0 1 4 2 2 true = some sp →
      sp.ary.length = 4 ∧
      (∃ s : ℝ, 0 < s ∧ ∀ v, v ∈ sp.ary ++ sp.ghost_spacing → ∃ p : Nat,
        v = (GaussianDensity.new (1 : ℝ) (1 / 4)).weight Real.exp
          (GaussianDensity.total_cells 4 2 2) p * s) ∧
      (∀ v, v ∈ sp.ary ++ sp.ghost_spacing → 0 < v) ∧
      (∀ u, u ∈ sp.ary ++ sp.ghost_spacing → ∀ v, v ∈ sp.ary ++ sp.ghost_spacing →
        u < ((GaussianDensity.new (1 : ℝ) (1 / 4)).A + 1) * v)) :=
  have hexp1 : ∀ x : ℝ, x ≤ 0 → Real.exp x ≤ 1 := fun x hx => Real.exp_le_one_iff.mpr hx
  have hA : 0 < (GaussianDensity.new (1 : ℝ) (1 / 4)).A := by norm_num [GaussianDensity.new]
  have hB : (GaussianDensity.new (1 : ℝ) (1 / 4)).B ≠ 0 := by norm_num [GaussianDensity.new]
  ⟨⟨Real.exp_pos, hexp1, hA, hB, by norm_num, by decide, by decide, by decide⟩,
    C17_positive_widths Real.exp Real.exp_pos hexp1 (GaussianDensity.new 1 (1 / 4)) 0 1 4 2 2 true
      hA hB (by norm_num) (by decide) (by decide) (by decide)⟩

/-- C17 as stated fails in its weight interval: for `GaussianDensity(1, 1/4)`
with three cells and no ghosts the first loop stores in `buf[2]` the raw weight
`1 / (A + 1) = 1 / 2` exactly (there `x = 0`), which is not inside the open
interval `(1 / (A + 1), 1)`. -/
theorem C17_counterexample :
    (GaussianDensity.weightLoop Real.exp (GaussianDensity.new (1 : ℝ) (1 / 4)) 3 0 0
        (GaussianDensity.total_cells 3 0 0)).1[2]? = some (1 / ((1 : ℝ) + 1)) ∧
    ¬ (1 / ((1 : ℝ) + 1) <
      (GaussianDensity.new (1 : ℝ) (1 / 4)).weight Real.exp (GaussianDensity.total_cells 3 0 0) 2) := by
  have hT : GaussianDensity.total_cells 3 0 0 = 3 := by decide
  have hw : (GaussianDensity.new (1 : ℝ) (1 / 4)).weight Real.exp 3 2 = 1 / ((1 : ℝ) + 1) := by
    simp only [GaussianDensity.weight, GaussianDensity.new, UINT_MOD]
    norm_num
  rw [hT]
  constructor
  · rw [GaussianDensity.weightLoop_fst, hT, List.getElem?_map,
      List.getElem?_range (by decide : 2 < 3), Option.map_some', hw]
  · rw [hw]
    exact lt_irrefl _

end C17Main

/-! ## Cell centres inside their block -/

section C18

variable {α : Type} [LinearOrderedField α] {sizeX : Nat}

/-- With positive widths the centre of local cell `ix` lies strictly between
the block origin and the block end. -/
theorem centre_inside (w : Nat → α) (s ix : Nat) (hix : ix < s)
    (hpos : ∀ j, j < s → 0 < w j) :
    0 < ∑ i ∈ Finset.range ix, w i + 1 / 2 * w ix ∧
    ∑ i ∈ Finset.range ix, w i + 1 / 2 * w ix < ∑ j ∈ Finset.range s, w j := by
  have h0 : 0 ≤ ∑ i ∈ Finset.range ix, w i :=
    Finset.sum_nonneg (fun i hi => (hpos i (by have := Finset.mem_range.mp hi; omega)).le)
  have hw := hpos ix hix
  obtain ⟨r, rfl⟩ : ∃ r, s = ix + 1 + r := ⟨s - (ix + 1), by omega⟩
  have hr : 0 ≤ ∑ x ∈ Finset.range r, w (ix + 1 + x) :=
    Finset.sum_nonneg (fun i hi => (hpos _ (by have := Finset.mem_range.mp hi; omega)).le)
  constructor
  · linarith
  · rw [Finset.sum_range_add, Finset.sum_range_succ]
    linarith

/-- Both kernels write strictly positive interior widths when `xS < xE`. -/
theorem TKernel.ary_pos (exp : α → α) (hexp : ∀ x, 0 < exp x) (K : TKernel α) (xS xE : α)
    (ncells ghostS ghostE : Nat) (g : Bool) (sp : Spacing α)
    (hK : ∀ k, K = TKernel.gaussianDensity k → 0 < k.A)
    (hx : xS < xE) (hn : 0 < ncells) (hS : ghostS < UINT_MOD) (hE : ghostE < UINT_MOD)
    (h : K.compute_spacing exp xS xE ncells ghostS ghostE g = some sp) :
    ∀ i, i < ncells → 0 < sp.ary.getD i 0 := by
  intro i hi
  cases K with
  | uniformDensity k =>
    obtain ⟨_, hv⟩ := UniformDensity.uniform_spacing_ary k xS xE _ _ _ g sp h
    rw [List.getD_eq_getElem?_getD, hv i hi, Option.getD_some]
    exact div_pos (sub_pos.mpr hx) (by exact_mod_cast hn)
  | gaussianDensity k =>
    obtain ⟨_, hv⟩ := GaussianDensity.gaussian_spacing_ary exp k xS xE _ _ _ g sp h
    have hnw := GaussianDensity.no_wrap ncells ghostS ghostE hn hS hE (fun i hi => (hv i hi).1)
    have hd := GaussianDensity.ducky_eq exp k ncells ghostS ghostE hnw
    have hpos : 0 < ∑ i ∈ Finset.range ncells,
        k.weight exp (GaussianDensity.total_cells ncells ghostS ghostE) (i + ghostS) :=
      Finset.sum_pos (fun i _ => GaussianDensity.weight_pos exp hexp k (hK k rfl) _ _)
        ⟨0, Finset.mem_range.mpr hn⟩
    rw [List.getD_eq_getElem?_getD, (hv i hi).2, Option.getD_some, hd]
    exact mul_pos (GaussianDensity.weight_pos exp hexp k (hK k rfl) _ _)
      (div_pos (sub_pos.mpr hx) hpos)

/-- The cell widths of a mesh initialised on `xS < xE` are strictly positive. -/
theorem MeshMap.widths_pos (exp : α → α) (hexp : ∀ x, 0 < exp x) (xS xE : α) (Nblocks : Nat)
    (K : TKernel α) (ghostS ghostE : Nat) (g : Bool) (m : MeshMap sizeX α) (gh : List α)
    (hK : K = TKernel.uniformDensity UniformDensity.new ∨
      ∃ A B : α, 0 < A ∧ 0 < B ∧ K = TKernel.gaussianDensity (GaussianDensity.new A B))
    (hx : xS < xE) (hS : ghostS < UINT_MOD) (hE : ghostE < UINT_MOD)
    (h : (MeshMap.new sizeX xS xE Nblocks).init exp K ghostS ghostE g = some (m, gh)) :
    ∀ i, i < Nblocks * sizeX → 0 < m.m_grid_spacing.getD i 0 := by
  intro i hi
  obtain ⟨_, _, _, _, _, _, _, _, _, _, _, hsp⟩ :=
    MeshMap.init_post exp xS xE Nblocks K ghostS ghostE g m gh h
  have hA : ∀ k, K = TKernel.gaussianDensity k → 0 < k.A := by
    intro k hk
    rcases hK with hu | ⟨A, B, hA, _, hg⟩
    · rw [hu] at hk; cases hk
    · rw [hg] at hk; cases hk; exact hA
  exact TKernel.ary_pos exp hexp K xS xE (Nblocks * sizeX) ghostS ghostE g _ hA hx (by omega)
    hS hE hsp i hi

end C18

section C18Main

variable {α : Type} [LinearOrderedField α]

/-- C18 (cell centres lie inside their block).  Take three meshes on intervals
with `xS < xE`, initialised with `UniformDensity` or `GaussianDensity(A, B)`,
`A > 0`, `B > 0`, a block index inside the meshes and local indices
`ix, iy, iz < sizeX`.  The `BlockInfo` built from the meshes exists, `pos`
returns, and on every axis the coordinate is strictly greater than `origin`
and strictly less than `origin + block_extent`. -/
theorem C18_centres_inside_block (exp : α → α) (hexp : ∀ x, 0 < exp x) (sizeX : Nat)
    (xSx xEx : α) (Nx : Nat) (Kx : TKernel α) (gSx gEx : Nat) (gx : Bool)
    (xSy xEy : α) (Ny : Nat) (Ky : TKernel α) (gSy gEy : Nat) (gy : Bool)
    (xSz xEz : α) (Nz : Nat) (Kz : TKernel α) (gSz gEz : Nat) (gz : Bool)
    (mX mY mZ : MeshMap sizeX α) (ghx ghy ghz : List α)
    (hKx : Kx = TKernel.uniformDensity UniformDensity.new ∨
      ∃ A B : α, 0 < A ∧ 0 < B ∧ Kx = TKernel.gaussianDensity (GaussianDensity.new A B))
    (hKy : Ky = TKernel.uniformDensity UniformDensity.new ∨
      ∃ A B : α, 0 < A ∧ 0 < B ∧ Ky = TKernel.gaussianDensity (GaussianDensity.new A B))
    (hKz : Kz = TKernel.uniformDensity UniformDensity.new ∨
      ∃ A B : α, 0 < A ∧ 0 < B ∧ Kz = TKernel.gaussianDensity (GaussianDensity.new A B))
    (hxx : xSx < xEx) (hxy : xSy < xEy) (hxz : xSz < xEz)
    (hgx : gSx < UINT_MOD ∧ gEx < UINT_MOD) (hgy : gSy < UINT_MOD ∧ gEy < UINT_MOD)
    (hgz : gSz < UINT_MOD ∧ gEz < UINT_MOD)
    (hx : (MeshMap.new sizeX xSx xEx Nx).init exp Kx gSx gEx gx = some (mX, ghx))
    (hy : (MeshMap.new sizeX xSy xEy Ny).init exp Ky gSy gEy gy = some (mY, ghy))
    (hz : (MeshMap.new sizeX xSz xEz Nz).init exp Kz gSz gEz gz = some (mZ, ghz))
    (ID : Int) (ptr : Nat) (special : Bool) (kx ky kz ix iy iz : Nat)
    (hkx : kx < Nx) (hky : ky < Ny) (hkz : kz < Nz)
    (hix : ix < sizeX) (hiy : iy < sizeX) (hiz : iz < sizeX) :
    ∃ (b : BlockInfo α) (p : Vec3 α),
      BlockInfo.ofMeshMap ID { x := (kx : Int), y := (ky : Int), z := (kz : Int) } mX mY mZ
        ptr special = some b ∧
      b.pos (ix : Int) (iy : Int) (iz : Int) = some p ∧
      (b.origin.x < p.x ∧ p.x < b.origin.x + b.block_extent.x) ∧
      (b.origin.y < p.y ∧ p.y < b.origin.y + b.block_extent.y) ∧
      (b.origin.z < p.z ∧ p.z < b.origin.z + b.block_extent.z) := by
  have weaken : ∀ K : TKernel α, (K = TKernel.uniformDensity UniformDensity.new ∨
      ∃ A B : α, 0 < A ∧ 0 < B ∧ K = TKernel.gaussianDensity (GaussianDensity.new A B)) →
      (K = TKernel.uniformDensity UniformDensity.new ∨
        ∃ A B : α, K = TKernel.gaussianDensity (GaussianDensity.new A B)) := by
    rintro K (h | ⟨A, B, _, _, h⟩)
    · exact Or.inl h
    · exact Or.inr ⟨A, B, h⟩
  have inside : ∀ (N k i : Nat), k < N → i < sizeX → k * sizeX + i < N * sizeX := by
    intro N k i hk hi
    have h1 : (k + 1) * sizeX ≤ N * sizeX := Nat.mul_le_mul_right _ hk
    rw [Nat.succ_mul] at h1
    omega
  have hpX := MeshMap.widths_pos exp hexp xSx xEx Nx Kx gSx gEx gx mX ghx hKx hxx hgx.1 hgx.2 hx
  have hpY := MeshMap.widths_pos exp hexp xSy xEy Ny Ky gSy gEy gy mY ghy hKy hxy hgy.1 hgy.2 hy
  have hpZ := MeshMap.widths_pos exp hexp xSz xEz Nz Kz gSz gEz gz mZ ghz hKz hxz hgz.1 hgz.2 hz
  obtain ⟨b, hb, _, hext, _, _, _, _, _, _, _, hp⟩ :=
    BlockInfo.ofMeshMap_pos exp sizeX xSx xEx Nx Kx gSx gEx gx xSy xEy Ny Ky gSy gEy gy
      xSz xEz Nz Kz gSz gEz gz mX mY mZ ghx ghy ghz (weaken _ hKx) (weaken _ hKy) (weaken _ hKz)
      hx hy hz ID ptr special kx ky kz ix iy iz hkx hky hkz hix hiy hiz
  obtain ⟨hX0, hX1⟩ := centre_inside (fun j => mX.m_grid_spacing.getD (kx * sizeX + j) 0)
    sizeX ix hix (fun j hj => hpX _ (inside Nx kx j hkx hj))
  obtain ⟨hY0, hY1⟩ := centre_inside (fun j => mY.m_grid_spacing.getD (ky * sizeX + j) 0)
    sizeX iy hiy (fun j hj => hpY _ (inside Ny ky j hky hj))
  obtain ⟨hZ0, hZ1⟩ := centre_inside (fun j => mZ.m_grid_spacing.getD (kz * sizeX + j) 0)
    sizeX iz hiz (fun j hj => hpZ _ (inside Nz kz j hkz hj))
  refine ⟨b, _, hb, hp, ⟨?_, ?_⟩, ⟨?_, ?_⟩, ⟨?_, ?_⟩⟩
  · exact lt_add_of_pos_right _ hX0
  · rw [hext]; exact add_lt_add_left hX1 _
  · exact lt_add_of_pos_right _ hY0
  · rw [hext]; exact add_lt_add_left hY1 _
  · exact lt_add_of_pos_right _ hZ0
  · rw [hext]; exact add_lt_add_left hZ1 _

/-- C18 at the concrete scenario: block `(0, 1, 3)` of the uniform mesh on
`[0, 1]`, local indices `(0, 1, 1)`. -/
theorem C18_centres_inside_block_witness :
    ((∀ x : ℝ, 0 < Real.exp x) ∧
      ((TKernel.uniformDensity UniformDensity.new : TKernel ℝ) =
          TKernel.uniformDensity UniformDensity.new ∨
        ∃ A B : ℝ, 0 < A ∧ 0 < B ∧ TKernel.uniformDensity UniformDensity.new =
          TKernel.gaussianDensity (GaussianDensity.new A B)) ∧
      (0 : ℝ) < 1 ∧ (0 < UINT_MOD ∧ 0 < UINT_MOD) ∧
      (MeshMap.new 2 (0 : ℝ) 1 4).init Real.exp (TKernel.uniformDensity UniformDensity.new)
        0 0 false = some (exampleMesh ℝ, []) ∧
      (0 < 4 ∧ 1 < 4 ∧ 3 < 4) ∧ (0 < 2 ∧ 1 < 2 ∧ 1 < 2)) ∧
    ∃ (b : BlockInfo ℝ) (p : Vec3 ℝ),
      BlockInfo.ofMeshMap 0 { x := ((0 : Nat) : Int), y := ((1 : Nat) : Int), z := ((3 : Nat) : Int) }
        (exampleMesh ℝ) (exampleMesh ℝ) (exampleMesh ℝ) 0 false = some b ∧
      b.pos ((0 : Nat) : Int) ((1 : Nat) : Int) ((1 : Nat) : Int) = some p ∧
      (b.origin.x < p.x ∧ p.x < b.origin.x + b.block_extent.x) ∧
      (b.origin.y < p.y ∧ p.y < b.origin.y + b.block_extent.y) ∧
      (b.origin.z < p.z ∧ p.z < b.origin.z + b.block_extent.z) :=
  ⟨⟨Real.exp_pos, Or.inl rfl, by norm_num, ⟨by decide, by decide⟩, exampleMesh_init Real.exp,
      ⟨by decide, by decide, by decide⟩, ⟨by decide, by decide, by decide⟩⟩,
    C18_centres_inside_block Real.exp Real.exp_pos 2 0 1 4 _ 0 0 false 0 1 4 _ 0 0 false
      0 1 4 _ 0 0 false _ _ _ _ _ _ (Or.inl rfl) (Or.inl rfl) (Or.inl rfl)
      (by norm_num) (by norm_num) (by norm_num) ⟨by decide, by decide⟩ ⟨by decide, by decide⟩
      ⟨by decide, by decide⟩
      (exampleMesh_init Real.exp) (exampleMesh_init Real.exp) (exampleMesh_init Real.exp)
      0 0 false 0 1 3 0 1 1 (by decide) (by decide) (by decide) (by decide) (by decide)
      (by decide)⟩

end C18Main

/-! ## The two position queries -/

section C19

variable {α : Type} [LinearOrderedField α]

/-- C19 (the 2D and 3D position queries agree).  Whenever `pos(p, ix, iy, iz)`
returns on a `BlockInfo`, `pos(p, ix, iy)` returns its first two coordinates.
The 2D query does not depend on the z axis: replacing the z entry of
`grid_spacing`, the z spacing pointer and the z uniformity flag leaves its
result unchanged, and whenever the 3D query returns on the changed record at
any `iz'`, its first two coordinates are the same. -/
theorem C19_pos2_agrees_with_pos (b : BlockInfo α) (ix iy iz : Int) (p : Vec3 α)
    (h : b.pos ix iy iz = some p) :
    b.pos2 ix iy = some (p.x, p.y) ∧
    ∀ (iz' : Int) (gz : α) (pz : Option (Ptr α)) (uz : Bool),
      ({ b with grid_spacing := { b.grid_spacing with z := gz },
                grid_spacing_z := pz, bUniform_Z := uz } : BlockInfo α).pos2 ix iy
        = some (p.x, p.y) ∧
      ∀ p' : Vec3 α,
        ({ b with grid_spacing := { b.grid_spacing with z := gz },
                  grid_spacing_z := pz, bUniform_Z := uz } : BlockInfo α).pos ix iy iz'
          = some p' →
        p'.x = p.x ∧ p'.y = p.y := by
  simp only [BlockInfo.pos, Option.bind_eq_bind, Option.pure_def] at h
  obtain ⟨d0, hd0, h⟩ := Option.bind_eq_some.mp h
  obtain ⟨d1, hd1, h⟩ := Option.bind_eq_some.mp h
  obtain ⟨d2, _, h⟩ := Option.bind_eq_some.mp h
  obtain rfl := Option.some.inj h
  have h2 : b.pos2 ix iy = some (b.origin.x + d0, b.origin.y + d1) := by
    simp only [BlockInfo.pos2, hd0, hd1, Option.bind_eq_bind, Option.some_bind, Option.pure_def]
  refine ⟨h2, fun iz' gz pz uz => ⟨?_, fun p' hp' => ?_⟩⟩
  · simp only [BlockInfo.pos2, hd0, hd1, Option.bind_eq_bind, Option.some_bind, Option.pure_def]
  · simp only [BlockInfo.pos, hd0, hd1, Option.bind_eq_bind, Option.some_bind,
      Option.pure_def] at hp'
    obtain ⟨d2', _, hp'⟩ := Option.bind_eq_some.mp hp'
    obtain rfl := Option.some.inj hp'
    exact ⟨rfl, rfl⟩

/-- C19 on `exampleBlock` at indices `(1, 2, 1)`. -/
theorem C19_pos2_agrees_with_pos_witness :
    exampleBlock.pos 1 2 1 = some { x := 12, y := 85 / 4, z := 73 / 2 } ∧
    (exampleBlock.pos2 1 2 = some (12, 85 / 4) ∧
    ∀ (iz' : Int) (gz : ℚ) (pz : Option (Ptr ℚ)) (uz : Bool),
      ({ exampleBlock with grid_spacing := { exampleBlock.grid_spacing with z := gz },
                           grid_spacing_z := pz, bUniform_Z := uz } : BlockInfo ℚ).pos2 1 2
        = some (12, 85 / 4) ∧
      ∀ p' : Vec3 ℚ,
        ({ exampleBlock with grid_spacing := { exampleBlock.grid_spacing with z := gz },
                             grid_spacing_z := pz, bUniform_Z := uz } : BlockInfo ℚ).pos 1 2 iz'
          = some p' →
        p'.x = 12 ∧ p'.y = 85 / 4) :=
  ⟨exampleBlock_pos, C19_pos2_agrees_with_pos exampleBlock 1 2 1 _ exampleBlock_pos⟩

end C19

end Cubism
